import Mathlib

/-!
# teleirc: Telegram-side formatting handlers

A shallow embedding of `internal/handlers/telegram/helpers.go`,
`internal/handlers/telegram/handler.go`, of `Client.SendMessage` and
`Client.StartBot` of `internal/handlers/telegram/telegram.go` and of `main` of
`cmd/teleirc.go`, and the properties of them that the specification states.

## Modelling conventions

* A Go `string` is a Lean `String`, read as its sequence of Unicode code
  points: `[]rune(s)` is `s.data` and `string(rs)` is `String.mk rs`.  This is
  exact for strings that are valid UTF-8, which is what the Telegram client
  library delivers (its JSON decoder never yields anything else).
* Go `int` and `int64` values are `Int`; the handlers only compare them.
* A pointer that may be `nil` is an `Option`; dereferencing `none` is the
  panic `Panic.nilDereference`.
* A computation that may panic returns `Except Panic _`.
* The effect of a handler is an `Outcome`: the strings handed to
  `tg.sendToIrc`, the warnings logged, and the panic that ended it, if any.
* The wall-clock reading `time.Now()` is an explicit argument `now`, in
  nanoseconds since the Unix epoch.
* A `float64` is its IEEE 754 bit pattern.  The rendering
  `strconv.FormatFloat(x, 'f', -1, 64)` is an argument of the one handler that
  calls it; `FormatFloat` is that library function, modelled on the
  documentation of package `strconv`, with rational arithmetic in place of the
  library's fixed-width arithmetic.
* The Telegram API behind `Client.SendMessage` is an argument `api`: the error,
  if any, that its n-th call returns.
* `Client.StartBot` and `main` are traces: the list of their observable steps,
  in program order, given what the library calls return and which case of the
  `select` fires.  Each is the run of one goroutine.
* `process` puts the goroutine of `main` and the goroutine that runs
  `tgClient.StartBot` side by side, under a schedule that says whose turn each
  step is.  The goroutine that runs `ircClient.StartBot`, whose code is not in
  the repository files at hand, is taken to report nothing and not to end the
  process; `ircClient.Close` is taken to return.
-/

namespace Teleirc

/-! ## Go run-time model -/

/-- The run-time panics that the modelled code can raise. -/
inductive Panic where
  | nilDereference
  | sliceBounds
deriving DecidableEq, Repr

deriving instance DecidableEq for Except

/-- The slice expression `a[:high]`.  The bound is checked against the length:
the capacity of a slice made by `[]rune(s)` is not fixed by the language, and
every `a[:high]` of the program is either guarded by `high < len(a)` or followed
by `a[high:]`, which is checked against the length. -/
def sliceTo {α : Type} (a : List α) (high : Int) : Except Panic (List α) :=
  if 0 ≤ high ∧ high ≤ (a.length : Int) then .ok (a.take high.toNat)
  else .error Panic.sliceBounds

/-- The slice expression `a[low:]`: requires `0 ≤ low ≤ len(a)`. -/
def sliceFrom {α : Type} (a : List α) (low : Int) : Except Panic (List α) :=
  if 0 ≤ low ∧ low ≤ (a.length : Int) then .ok (a.drop low.toNat)
  else .error Panic.sliceBounds

/-- Go `strings.HasPrefix(s, p)`. -/
def HasPrefix (s p : String) : Bool :=
  p.data.isPrefixOf s.data

/-- Go `strings.Trim(s, cutset)`: `s` without the leading and trailing code
points that occur in `cutset`. -/
def Trim (s cutset : String) : String :=
  String.mk (((s.data.rdropWhile (fun r => cutset.data.contains r))).dropWhile
    (fun r => cutset.data.contains r))

/-- Go `time.Second`, in nanoseconds. -/
def Second : Int := 1000000000

/-- Go `time.Minute`, in nanoseconds. -/
def Minute : Int := 60 * Second

/-- Largest `time.Duration`. -/
def maxDuration : Int := 2 ^ 63 - 1

/-- Smallest `time.Duration`. -/
def minDuration : Int := -(2 ^ 63)

/-- The constant `unixToInternal` of package `time`: the seconds from
1 January of the year 1, where the second count of a `Time` starts, to the Unix
epoch. -/
def unixToInternal : Int := 62135596800

/-- Go `time.Since(time.Unix(sec, 0))` when the wall clock reads `now`
nanoseconds since the epoch.

`time.Unix` stores `sec + unixToInternal` in an `int64`.  When that sum is below
`2 ^ 63` the `Time` is the instant `sec` and the result is the elapsed time,
saturated to the range of `time.Duration` as `Time.Sub` documents.  When the sum
reaches `2 ^ 63` it wraps around: the `Time` made is an instant some 292 billion
years before the year 1, `Time.Sub` finds it further in the past than a
`Duration` can hold, and the result is the largest `Duration`.  That holds for
every clock reading from the year 1 to 292 years before the last instant a
`Time` can hold, which covers what `time.Now` can return on a running system.
(`sec` is an `int64` in the program, so the sum never falls below `-2 ^ 63`.) -/
def timeSince (now sec : Int) : Int :=
  if sec + unixToInternal ≥ 2 ^ 63 then maxDuration
  else
    let d := now - sec * Second
    if d > maxDuration then maxDuration
    else if d < minDuration then minDuration
    else d

/-- The code point U+0020, space. -/
def spaceRune : Char := Char.ofNat 0x20

/-- The code point U+200B, zero-width space. -/
def zwspRune : Char := Char.ofNat 0x200B

/-- The Go literal `"\u200b"`. -/
def zwsp : String := String.mk [zwspRune]

/-- The code point U+2026, horizontal ellipsis. -/
def ellipsisRune : Char := Char.ofNat 0x2026

/-- The Go literal `"…"`. -/
def ellipsis : String := String.mk [ellipsisRune]

/-! ## Data model -/

/-- Fields of `models.User` that the handlers read. -/
structure User where
  FirstName : String := ""
  Username : String := ""
deriving DecidableEq, Repr

/-- Field of `models.Chat` that the handlers read. -/
structure Chat where
  ID : Int := 0
deriving DecidableEq, Repr

/-- Field of `models.ForumTopicCreated` that the handlers read. -/
structure ForumTopicCreated where
  Name : String := ""
deriving DecidableEq, Repr

/-- Field of `models.Sticker` that the handlers read. -/
structure Sticker where
  Emoji : String := ""
deriving DecidableEq, Repr

/-- Fields of `models.Document` that the handlers read. -/
structure Document where
  MimeType : String := ""
  FileName : String := ""
deriving DecidableEq, Repr

/-- A Go `float64`, named by its IEEE 754 bit pattern: `math.Float64bits`.  The
handlers never compute with one: they pass it to `strconv.FormatFloat`. -/
structure Float64 where
  bits : Nat := 0
deriving DecidableEq, Repr

/-- Fields of `models.Location` that the handlers read. -/
structure Location where
  Latitude : Float64 := {}
  Longitude : Float64 := {}
deriving DecidableEq, Repr

/-- Fields of `models.Message` that the handlers read.  The defaults are the Go
zero values; `ReplyToMessage`, the recursive field, is always written out. -/
structure Message where
  Date : Int := 0
  From : Option User := none
  Chat : Chat := {}
  Text : String := ""
  ReplyToMessage : Option Message
  IsTopicMessage : Bool := false
  ForumTopicCreated : Option ForumTopicCreated := none
  Sticker : Option Sticker := none
  Document : Option Document := none
  Caption : String := ""
  Location : Option Location := none

/-- Field of `models.Update` that the handlers read. -/
structure Update where
  Message : Option Message := none

/-- Modelled from the spec: `internal.TelegramSettings` is declared outside the
handler package; these are the fields the handlers read, typed by their uses
(`ReplyLength` is compared with a `len`, `ChatID` with `Chat.ID`). -/
structure TelegramSettings where
  Prefix : String := ""
  Suffix : String := ""
  ReplyPrefix : String := ""
  ReplySuffix : String := ""
  ReplyLength : Int := 0
  ChatID : Int := 0
deriving DecidableEq, Repr

/-- Modelled from the spec: `internal.IRCSettings` is declared outside the
handler package; these are the fields the handlers read. -/
structure IRCSettings where
  ShowZWSP : Bool := false
  NoForwardPrefix : String := ""
  ShowJoinMessage : Bool := false
  ShowLeaveMessage : Bool := false
  ShowLocationMessage : Bool := false
deriving DecidableEq, Repr

/-- The part of `Client` that the handlers read. -/
structure Client where
  Settings : TelegramSettings := {}
  IRCSettings : IRCSettings := {}
deriving DecidableEq, Repr

/-- Fields of `tgbotapi.SendMessageParams` that `Client.SendMessage` sets. -/
structure SendMessageParams where
  ChatID : Int := 0
  Text : String := ""
deriving DecidableEq, Repr

/-- What one run of `Client.SendMessage` did. -/
structure SendTrace where
  /-- Arguments of the calls of `tg.logger.LogDebug`, in order. -/
  debugs : List String := []
  /-- Arguments of the calls of `tg.API.SendMessage`, in order. -/
  calls : List SendMessageParams := []
  /-- Arguments of the calls of `tg.logger.LogError`, in order: the error and the
  value of `attempts`. -/
  errors : List (String × Nat) := []
deriving DecidableEq, Repr

/-- What one run of a handler did. -/
structure Outcome where
  /-- Arguments of the calls of `tg.sendToIrc`, in order. -/
  sent : List String := []
  /-- Ages, in nanoseconds, reported through `tg.logger.LogWarning`. -/
  warnings : List Int := []
  /-- The panic that ended the run, if one did. -/
  fault : Option Panic := none
deriving DecidableEq, Repr

/-- A run that returns without sending. -/
def Outcome.silent : Outcome := {}

/-- A run that calls `tg.sendToIrc(s)` once and returns. -/
def Outcome.send (s : String) : Outcome := { sent := [s] }

/-- A run ended by the panic `p` before anything was sent. -/
def Outcome.panic (p : Panic) : Outcome := { fault := some p }

/-! ## strconv.FormatFloat

The call `strconv.FormatFloat(x, 'f', -1, 64)`, modelled on the documentation of
package `strconv`: format `'f'` is `-ddd.dddd`, without exponent, and the
precision `-1` "uses the smallest number of digits necessary such that
ParseFloat will return f exactly"; `ParseFloat` "returns the nearest
floating-point number rounded using IEEE754 unbiased rounding". -/

/-- The sign bit of a `float64`. -/
def Float64.sign (x : Float64) : Bool := x.bits / 2 ^ 63 % 2 = 1

/-- The eleven exponent bits of a `float64`. -/
def Float64.biasedExp (x : Float64) : Nat := x.bits / 2 ^ 52 % 2 ^ 11

/-- The fifty-two fraction bits of a `float64`. -/
def Float64.fraction (x : Float64) : Nat := x.bits % 2 ^ 52

/-- Whether a `float64` is a number: neither an infinity nor a NaN. -/
def Float64.isFinite (x : Float64) : Bool := x.biasedExp ≠ 2047

/-- The integer `m` of the magnitude `m * 2 ^ e` of a finite `float64`: the
fraction bits, under the implicit leading bit when the number is normal. -/
def Float64.mantissa (x : Float64) : Nat :=
  if x.biasedExp = 0 then x.fraction else 2 ^ 52 + x.fraction

/-- The exponent `e` of the magnitude `m * 2 ^ e` of a finite `float64`. -/
def Float64.exponent (x : Float64) : Int :=
  if x.biasedExp = 0 then -1074 else (x.biasedExp : Int) - 1075

/-- The rational number that a finite `float64` stands for. -/
def Float64.toRat (x : Float64) : ℚ :=
  (if x.sign then -1 else 1) * (x.mantissa : ℚ) * 2 ^ x.exponent

/-- The numerator, over `2 ^ (e - 2)`, of the lower end of the rounding interval
of a finite non-zero `float64` of magnitude `m * 2 ^ e`: the point half-way to
the next smaller magnitude of the format.  That magnitude is `2 ^ (e - 1)` below
when `m` is the smallest mantissa of a binade other than the lowest, and `2 ^ e`
below otherwise. -/
def Float64.lowerN (x : Float64) : Nat :=
  if x.fraction = 0 ∧ 1 < x.biasedExp then 4 * x.mantissa - 1 else 4 * x.mantissa - 2

/-- The numerator, over `2 ^ (e - 2)`, of the upper end of the rounding
interval: the point half-way to the next larger magnitude, `2 ^ e` above. -/
def Float64.upperN (x : Float64) : Nat := 4 * x.mantissa + 2

/-- Whether the positive rational `q` rounds to the magnitude of the finite
non-zero `x` under IEEE 754 rounding to nearest, ties to even: `q` lies between
the two ends of the rounding interval of `x`, and an end counts when the
mantissa of `x` is even.  A decimal with the sign of `x` and a magnitude for
which this holds is one for which `ParseFloat` returns `x`. -/
def Float64.roundsFrom (x : Float64) (q : ℚ) : Prop :=
  if x.mantissa % 2 = 0 then
    (x.lowerN : ℚ) * 2 ^ (x.exponent - 2) ≤ q ∧ q ≤ (x.upperN : ℚ) * 2 ^ (x.exponent - 2)
  else
    (x.lowerN : ℚ) * 2 ^ (x.exponent - 2) < q ∧ q < (x.upperN : ℚ) * 2 ^ (x.exponent - 2)

/-- Whether `v` lies between `lo` and `hi`, the two ends counted (`closed`) or
not. -/
def between (closed : Bool) (lo v hi : Nat) : Bool :=
  if closed then decide (lo ≤ v) && decide (v ≤ hi) else decide (lo < v) && decide (v < hi)

/-- The multiple `c * unit` of `unit` next to `mid` among those between `lo` and
`hi`, if there is one.  The candidates are the multiple next below `mid` and the
multiple next above it; when both lie between `lo` and `hi` the one nearer to
`mid` wins, and the even one at equal distance. -/
def nearestMultiple (closed : Bool) (lo mid hi unit : Nat) : Option Nat :=
  let down := mid / unit
  let up := if mid % unit = 0 then down else down + 1
  let okDown := between closed lo (down * unit) hi
  let okUp := between closed lo (up * unit) hi
  if okDown && okUp then
    if mid - down * unit < up * unit - mid then some down
    else if up * unit - mid < mid - down * unit then some up
    else if down % 2 = 0 then some down else some up
  else if okDown then some down
  else if okUp then some up
  else none

/-- The multiple `c * 10 ^ p` of `10 ^ p` that is printed for the finite
non-zero `x`, if a multiple of `10 ^ p` rounds to `x`.  All quantities are
scaled to integers by one common factor: a multiple `c * 10 ^ p` becomes
`c * (10 ^ p.toNat * 2 ^ (-(e - 2)).toNat)` and a magnitude `a * 2 ^ (e - 2)`
becomes `a * (2 ^ (e - 2).toNat * 10 ^ (-p).toNat)`. -/
def shortestAt (x : Float64) (p : Int) : Option Nat :=
  nearestMultiple (decide (x.mantissa % 2 = 0))
    (x.lowerN * (2 ^ (x.exponent - 2).toNat * 10 ^ (-p).toNat))
    (4 * x.mantissa * (2 ^ (x.exponent - 2).toNat * 10 ^ (-p).toNat))
    (x.upperN * (2 ^ (x.exponent - 2).toNat * 10 ^ (-p).toNat))
    (10 ^ p.toNat * 2 ^ (-(x.exponent - 2)).toNat)

/-- The search for the decimal of fewest digits: from `10 ^ p` downwards, the
first power of ten of which a multiple rounds to `x`, with that multiple.  When
`fuel` runs out the magnitude of `x` is written in full, as a multiple of
`10 ^ min (e - 2) 0`; with the fuel that `shortest` gives, the search ends
before. -/
def shortestFrom (x : Float64) (fuel : Nat) (p : Int) : Nat × Int :=
  match fuel with
  | 0 =>
    (4 * x.mantissa * 2 ^ (x.exponent - 2).toNat * 5 ^ (2 - x.exponent).toNat,
      min (x.exponent - 2) 0)
  | fuel + 1 =>
    match shortestAt x p with
    | some c => (c, p)
    | none => shortestFrom x fuel (p - 1)

/-- The decimal `c * 10 ^ p` printed for the finite non-zero `x`, as the pair
`(c, p)`: the search starts at a power of ten above the magnitude of `x` and
goes down to the power of ten of which that magnitude is itself a multiple. -/
def shortest (x : Float64) : Nat × Int :=
  shortestFrom x (18 + (x.exponent - 2).natAbs) (17 + (x.exponent - 2).toNat)

/-- The decimal digits of `n`, the most significant first, put before `acc`;
`fuel` bounds their number. -/
def digitsAux (fuel n : Nat) (acc : List Char) : List Char :=
  match fuel with
  | 0 => acc
  | fuel + 1 =>
    if n < 10 then Char.ofNat (48 + n) :: acc
    else digitsAux fuel (n / 10) (Char.ofNat (48 + n % 10) :: acc)

/-- The decimal digits of `n`, the most significant first. -/
def decimalDigits (n : Nat) : List Char := digitsAux (n + 1) n []

/-- The decimal `c * 10 ^ p` in the layout of format `'f'`, `-ddd.ddd` without
exponent: the integer part in full, `0` when there is none, and after the point
the digits down to `10 ^ p`; no point when `p` is not negative. -/
def fmtF (neg : Bool) (c : Nat) (p : Int) : String :=
  let ds := decimalDigits c
  let k := (-p).toNat
  let body :=
    if 0 ≤ p then ds ++ List.replicate p.toNat '0'
    else if k < ds.length then ds.take (ds.length - k) ++ '.' :: ds.drop (ds.length - k)
    else '0' :: '.' :: (List.replicate (k - ds.length) '0' ++ ds)
  String.mk (if neg then '-' :: body else body)

/-- The call `strconv.FormatFloat(x, 'f', -1, 64)`: a NaN is `NaN`, an infinity
`+Inf` or `-Inf`, a zero `0` or `-0`, and any other number the decimal of fewest
digits that rounds to `x`, in the layout of format `'f'`. -/
def FormatFloat (x : Float64) : String :=
  if x.biasedExp = 2047 then
    if x.fraction ≠ 0 then "NaN" else if x.sign then "-Inf" else "+Inf"
  else if x.mantissa = 0 then
    if x.sign then "-0" else "0"
  else fmtF x.sign (shortest x).1 (shortest x).2

/-- The number that a run of decimal digits writes, continued from `acc`; `none`
if a character is not a decimal digit. -/
def readDigits (acc : Nat) : List Char → Option Nat
  | [] => some acc
  | ch :: cs =>
    if 48 ≤ ch.toNat ∧ ch.toNat ≤ 57 then readDigits (10 * acc + (ch.toNat - 48)) cs
    else none

/-- Reads an unsigned decimal without exponent, `ddd` or `ddd.ddd`: the number
`n` that its digits write and the count `f` of digits after the point; the
number read is `n / 10 ^ f`.  `neg` is passed on. -/
def readUnsigned (neg : Bool) (body : List Char) : Option (Bool × Nat × Nat) :=
  let whole := body.takeWhile (fun ch => ch ≠ '.')
  match body.dropWhile (fun ch => ch ≠ '.') with
  | [] => if whole = [] then none else (readDigits 0 whole).map (fun n => (neg, n, 0))
  | _ :: frac =>
    if whole = [] ∨ frac = [] then none
    else (readDigits 0 (whole ++ frac)).map (fun n => (neg, n, frac.length))

/-- Reads a decimal without exponent, with an optional leading `-`: whether it
is negative, and what `readUnsigned` reads after the sign. -/
def readDecimal (s : String) : Option (Bool × Nat × Nat) :=
  match s.data with
  | '-' :: body => readUnsigned true body
  | body => readUnsigned false body

/-! ## helpers.go -/

/-- `ZwspUsername`: the handle with a zero-width space after its first code
point. -/
def ZwspUsername (u : Option User) : Except Panic String :=
  match u with
  | none => .error Panic.nilDereference
  | some u => do
    let userNameAsRunes := u.Username.data
    let first ← sliceTo userNameAsRunes 1
    let rest ← sliceFrom userNameAsRunes 1
    pure (String.mk first ++ zwsp ++ String.mk rest)

/-- `GetUsername`: the name shown for a user in a relayed message. -/
def GetUsername (showZWSP : Bool) (u : Option User) : Except Panic String :=
  match u with
  | none => .error Panic.nilDereference
  | some usr =>
    if usr.Username = "" then pure usr.FirstName
    else if showZWSP then ZwspUsername u
    else pure usr.Username

/-- `GetFullUserZwsp`: first name and, in parentheses, the handle with a
zero-width space after its first code point. -/
def GetFullUserZwsp (u : Option User) : Except Panic String :=
  match u with
  | none => .error Panic.nilDereference
  | some u => do
    let userNameAsRunes := u.Username.data
    let first ← sliceTo userNameAsRunes 1
    let rest ← sliceFrom userNameAsRunes 1
    pure (u.FirstName ++ " (@" ++ String.mk first ++ zwsp ++ String.mk rest ++ ")")

/-- `GetFullUsername`: the name shown for a user who joins or leaves. -/
def GetFullUsername (showZWSP : Bool) (u : Option User) : Except Panic String :=
  match u with
  | none => .error Panic.nilDereference
  | some usr =>
    if usr.Username = "" then pure usr.FirstName
    else if showZWSP then GetFullUserZwsp u
    else pure (usr.FirstName ++ " (@" ++ usr.Username ++ ")")

/-! ## handler.go -/

/-- Lines 66 and 71-73 of `replyHandler`: the replied-to text, trimmed of
surrounding spaces and cut to `ReplyLength` code points with an ellipsis
appended when it is longer. -/
def quotedText (ReplyLength : Int) (text : String) : Except Panic String :=
  let replyText := Trim text " "
  let replyTextAsRunes := replyText.data
  if (replyTextAsRunes.length : Int) > ReplyLength then do
    let kept ← sliceTo replyTextAsRunes ReplyLength
    pure (String.mk kept ++ ellipsis)
  else pure replyText

/-- Lines 75-100 of `replyHandler`: the quote block `replyMsg`. -/
def replyMsg (s : TelegramSettings) (target : Message) (replyUser replyText : String) :
    String :=
  if target.IsTopicMessage then
    match target.ForumTopicCreated with
    | some topic => s.ReplyPrefix ++ "Topic: " ++ topic.Name ++ s.ReplySuffix
    | none => s.ReplyPrefix ++ "Topic Re " ++ replyUser ++ ": " ++ replyText ++ s.ReplySuffix
  else s.ReplyPrefix ++ "Re " ++ replyUser ++ ": " ++ replyText ++ s.ReplySuffix

/-- The string `replyHandler` formats, or the panic that stops it. -/
def replyFormatted (tg : Client) (u : Update) : Except Panic String :=
  match u.Message with
  | none => .error Panic.nilDereference
  | some m =>
    match m.ReplyToMessage with
    | none => .error Panic.nilDereference
    | some target => do
      let username ← GetUsername tg.IRCSettings.ShowZWSP m.From
      let replyUser ← GetUsername tg.IRCSettings.ShowZWSP target.From
      let replyText ← quotedText tg.Settings.ReplyLength target.Text
      pure (tg.Settings.Prefix ++ username ++ tg.Settings.Suffix ++ " "
        ++ replyMsg tg.Settings target replyUser replyText ++ " " ++ m.Text)

/-- `replyHandler`: relays a reply together with a quote of its target. -/
def replyHandler (tg : Client) (u : Update) : Outcome :=
  match replyFormatted tg u with
  | .error p => Outcome.panic p
  | .ok formatted => Outcome.send formatted

/-- `messageHandler`, run when the wall clock reads `now`. -/
def messageHandler (tg : Client) (now : Int) (u : Update) : Outcome :=
  match u.Message with
  | none => Outcome.panic Panic.nilDereference
  | some m =>
    let since := timeSince now m.Date
    if since > Minute then { warnings := [since] }
    else
      match GetUsername tg.IRCSettings.ShowZWSP m.From with
      | .error p => Outcome.panic p
      | .ok username =>
        if tg.IRCSettings.NoForwardPrefix ≠ "" ∧
            HasPrefix m.Text tg.IRCSettings.NoForwardPrefix = true then
          Outcome.silent
        else if m.Chat.ID ≠ tg.Settings.ChatID then Outcome.silent
        else if m.ReplyToMessage.isSome then replyHandler tg u
        else
          Outcome.send
            (tg.Settings.Prefix ++ username ++ tg.Settings.Suffix ++ " " ++ Trim m.Text " ")

/-- The loop of `joinHandler` over the users not yet announced; `done` is what
the run did so far. -/
def joinLoop (showZWSP : Bool) : List User → Outcome → Outcome
  | [], done => done
  | user :: rest, done =>
    match GetFullUsername showZWSP (some user) with
    | .error p => { done with fault := some p }
    | .ok username =>
      joinLoop showZWSP rest
        { done with sent := done.sent ++ [username ++ " has joined the Telegram Group!"] }

/-- `joinHandler`: announces the users who joined the group. -/
def joinHandler (tg : Client) (users : Option (List User)) : Outcome :=
  if tg.IRCSettings.ShowJoinMessage then
    match users with
    | none => Outcome.panic Panic.nilDereference
    | some us => joinLoop tg.IRCSettings.ShowZWSP us Outcome.silent
  else Outcome.silent

/-- `partHandler`: announces the user who left the group. -/
def partHandler (tg : Client) (user : Option User) : Outcome :=
  if tg.IRCSettings.ShowLeaveMessage then
    match GetFullUsername tg.IRCSettings.ShowZWSP user with
    | .error p => Outcome.panic p
    | .ok username => Outcome.send (username ++ " has left the Telegram Group!")
  else Outcome.silent

/-- `stickerHandler`: relays a sticker as its emoji. -/
def stickerHandler (tg : Client) (u : Update) : Outcome :=
  match u.Message with
  | none => Outcome.panic Panic.nilDereference
  | some m =>
    match GetUsername tg.IRCSettings.ShowZWSP m.From with
    | .error p => Outcome.panic p
    | .ok username =>
      match m.Sticker with
      | none => Outcome.panic Panic.nilDereference
      | some sticker =>
        Outcome.send (tg.Settings.Prefix ++ username ++ tg.Settings.Suffix ++ " " ++ sticker.Emoji)

/-- `documentHandler`: announces a shared file. -/
def documentHandler (tg : Client) (u : Option Message) : Outcome :=
  match u with
  | none => Outcome.panic Panic.nilDereference
  | some m =>
    match GetUsername tg.IRCSettings.ShowZWSP m.From with
    | .error p => Outcome.panic p
    | .ok username =>
      match m.Document with
      | none => Outcome.panic Panic.nilDereference
      | some doc =>
        let formatted := username ++ " shared a file"
        let formatted :=
          if doc.MimeType ≠ "" then formatted ++ (" (" ++ doc.MimeType ++ ")") else formatted
        let formatted :=
          if m.Caption ≠ "" then
            formatted ++ (" on Telegram with caption: " ++ "'" ++ m.Caption ++ "'.")
          else if doc.FileName ≠ "" then
            formatted ++ (" on Telegram with title: " ++ "'" ++ doc.FileName ++ "'.")
          else formatted
        Outcome.send formatted

/-- `locationHandler`: announces a shared location.  `FormatFloat x` stands for
the library call `strconv.FormatFloat(x, 'f', -1, 64)`. -/
def locationHandler (FormatFloat : Float64 → String) (tg : Client) (u : Option Message) :
    Outcome :=
  if ¬ tg.IRCSettings.ShowLocationMessage then Outcome.silent
  else
    match u with
    | none => Outcome.panic Panic.nilDereference
    | some m =>
      match GetUsername tg.IRCSettings.ShowZWSP m.From with
      | .error p => Outcome.panic p
      | .ok username =>
        match m.Location with
        | none => Outcome.panic Panic.nilDereference
        | some loc =>
          Outcome.send (username ++ " shared their location: (" ++ FormatFloat loc.Latitude ++
            ", " ++ FormatFloat loc.Longitude ++ ").")

/-! ## telegram.go -/

/-- The retry loop of `Client.SendMessage`, entered with the error `err` of the
last call and the counter `attempts`; `api n` is the error, if any, that call
number `n` of `tg.API.SendMessage` returns, counted from 0. -/
def retryLoop (api : Nat → Option String) (newMsg : SendMessageParams)
    (err : Option String) (attempts : Nat) (t : SendTrace) : SendTrace :=
  match err with
  | none => t
  | some e =>
    if attempts < 3 then
      retryLoop api newMsg (api t.calls.length) (attempts + 1)
        { t with errors := t.errors ++ [(e, attempts + 1)], calls := t.calls ++ [newMsg] }
    else t
termination_by 3 - attempts

/-- `Client.SendMessage`: sends `msg` to the configured chat, trying again after
a failure. -/
def SendMessage (tg : Client) (api : Nat → Option String) (msg : String) : SendTrace :=
  let newMsg : SendMessageParams := { ChatID := tg.Settings.ChatID, Text := msg }
  match api 0 with
  | none => { debugs := [msg], calls := [newMsg] }
  | some e => retryLoop api newMsg (some e) 0 { debugs := [msg], calls := [newMsg] }

/-- The observable steps of `Client.StartBot`. -/
inductive BotEvent where
  /-- A call of `tg.logger.LogInfo` that writes `text`. -/
  | logInfo (text : String)
  /-- The call `tgbotapi.New(tg.Settings.Token, opts...)`. -/
  | new
  /-- The send `errChan <- err`; `none` is the `nil` error. -/
  | report (err : Option String)
  /-- The call `tg.API.GetMe(tg.ctx)`; `onBot` tells whether `tg.API` is a bot
  or `nil`. -/
  | getMe (onBot : Bool)
  /-- The assignment `tg.sendToIrc = sendMessage`. -/
  | setSendToIrc
  /-- The call `tg.API.Start(tg.ctx)`, the receive loop. -/
  | start
deriving DecidableEq, Repr

/-- What one run of `Client.StartBot` did. -/
structure BotRun where
  /-- The steps taken, in order. -/
  events : List BotEvent := []
  /-- The panic that ended the run, if one did. -/
  fault : Option Panic := none
deriving DecidableEq, Repr

/-- `Client.StartBot`.  `newErr` is the error of `tgbotapi.New` (which returns a
`nil` bot together with an error), `me` and `getMeErr` are what `GetMe` returns
on a bot.  `GetMe` on the `nil` bot reads the fields of its receiver, a nil
dereference.  Every channel send is taken to complete and `Start` to return. -/
def StartBot (newErr : Option String) (me : Option User) (getMeErr : Option String) : BotRun :=
  let begun : List BotEvent := [BotEvent.logInfo "Starting up Telegram bot...", BotEvent.new]
  match newErr with
  | some e =>
    { events := begun ++ [BotEvent.report (some e), BotEvent.getMe false],
      fault := some Panic.nilDereference }
  | none =>
    let asked : List BotEvent :=
      match getMeErr with
      | some e => begun ++ [BotEvent.getMe true, BotEvent.report (some e)]
      | none => begun ++ [BotEvent.getMe true]
    match me with
    | none => { events := asked, fault := some Panic.nilDereference }
    | some account =>
      { events := asked ++
          [BotEvent.logInfo ("Authorized on account " ++ account.Username),
           BotEvent.setSendToIrc, BotEvent.start, BotEvent.report none] }

/-! ## cmd/teleirc.go -/

/-- The case of the `select` statement of `main` that fires, with the value it
receives; `none` is the `nil` error. -/
inductive Trigger where
  | ircErr (err : Option String)
  | tgErr (err : Option String)
  | signal (name : String)
deriving DecidableEq, Repr

/-- The observable steps of `main`. -/
inductive MainEvent where
  | logInfo (text : String)
  | logDebug (text : String)
  | logError (text : String)
  /-- The call `internal.LoadConfig(*flagPath)`. -/
  | loadConfig
  /-- The call `signal.Notify(signalChannel, os.Interrupt, syscall.SIGTERM)`. -/
  | notifySignals
  /-- The statement `go ircClient.StartBot(ircChan, tgClient.SendMessage)`. -/
  | startIRC
  /-- The statement `go tgClient.StartBot(tgChan, ircClient.SendMessage)`. -/
  | startTelegram
  /-- The call `ircClient.Close()`. -/
  | closeIRC
  /-- The call `tgClient.Close()`. -/
  | closeTelegram
deriving DecidableEq, Repr

/-- What one run of the goroutine of `main` did, left to itself. -/
structure MainRun where
  /-- The steps taken, in order. -/
  events : List MainEvent := []
  /-- The status with which `main` ends the process when it gets to its end:
  the argument of `os.Exit`, or 0 when `main` returns.  It is the exit status of
  the process only if no other goroutine ends the process first. -/
  exitCode : Nat := 0
deriving DecidableEq, Repr

/-- Go `fmt` rendering, under the verb `%s`, of an error that may be `nil`. -/
def errorText (err : Option String) : String :=
  match err with
  | some e => e
  | none => "%!s(<nil>)"

/-- The goroutine of `main`.  `version` is the version string, `flagVersion`
the `-version` flag, `configErr` the error of `internal.LoadConfig`, and
`trigger` the case of the `select` that fires.  The two `go` statements are
steps of this trace; what the goroutines they start do, and what that does to
the process, is in `process`. -/
def main (version : String) (flagVersion : Bool) (configErr : Option String)
    (trigger : Trigger) : MainRun :=
  let greeted : List MainEvent := [MainEvent.logInfo ("Current TeleIRC version: " ++ version)]
  if flagVersion then { events := greeted, exitCode := 0 }
  else
    let loaded := greeted ++ [MainEvent.logDebug "Debug mode enabled!", MainEvent.loadConfig]
    match configErr with
    | some e =>
      { events := loaded ++ [MainEvent.logError ("config load: " ++ e)], exitCode := 1 }
    | none =>
      let started := loaded ++
        [MainEvent.notifySignals, MainEvent.logInfo "Creating new Telegram bot client...",
         MainEvent.startIRC, MainEvent.startTelegram]
      let selected : List MainEvent × Bool :=
        match trigger with
        | Trigger.ircErr ircErr => ([MainEvent.logError ("IRC error: " ++ errorText ircErr)], true)
        | Trigger.tgErr tgErr =>
          ([MainEvent.logError ("Telegram error: " ++ errorText tgErr)], true)
        | Trigger.signal name => ([MainEvent.logInfo ("Signal Received: " ++ name)], false)
      { events := started ++ selected.1 ++
          [MainEvent.logInfo "Shutting Down...", MainEvent.closeIRC, MainEvent.closeTelegram,
           MainEvent.logInfo "Exiting"],
        exitCode := if selected.2 then 1 else 0 }

/-- A step of the running program: a step of `main`, or a step of the goroutine
started by `go tgClient.StartBot(tgChan, ircClient.SendMessage)`. -/
inductive ProcessEvent where
  | ofMain (e : MainEvent)
  | ofBot (e : BotEvent)
deriving DecidableEq, Repr

/-- What one run of the program did. -/
structure ProcessRun where
  /-- The steps of the two goroutines, in the order they were taken. -/
  events : List ProcessEvent := []
  /-- The exit status of the process; `none` when the run has no end. -/
  exitCode : Option Nat := none
deriving DecidableEq, Repr

/-- Whether a step of `StartBot` is a send on the error channel. -/
def BotEvent.isReport : BotEvent → Bool
  | BotEvent.report _ => true
  | _ => false

/-- The two goroutines side by side once `main` has left its `select`.
`mainLeft` are the steps `main` has yet to take and `exit` the status with which
it ends the process after the last of them; `botLeft` are the steps the Telegram
goroutine has yet to take and `fault` the panic that follows the last of them.
`schedule` says whose turn each step is, `true` for `main`; when it runs out,
`main` runs alone.  The rules of the Go run time used: a panic that its
goroutine does not recover ends the process with status 2, whatever `main` is
doing; `os.Exit`, and the return of `main`, end the process whatever the other
goroutines are doing; a send on the unbuffered error channel, from which `main`
receives no more, never completes. -/
def race (schedule : List Bool) (mainLeft : List MainEvent) (exit : Nat)
    (botLeft : List BotEvent) (fault : Option Panic) (done : List ProcessEvent) : ProcessRun :=
  match schedule with
  | [] => { events := done ++ mainLeft.map ProcessEvent.ofMain, exitCode := some exit }
  | true :: turns =>
    match mainLeft with
    | [] => { events := done, exitCode := some exit }
    | e :: es => race turns es exit botLeft fault (done ++ [ProcessEvent.ofMain e])
  | false :: turns =>
    match botLeft with
    | [] =>
      match fault with
      | some _ => { events := done, exitCode := some 2 }
      | none => race turns mainLeft exit [] none done
    | BotEvent.report err :: es => race turns mainLeft exit (BotEvent.report err :: es) fault done
    | e :: es => race turns mainLeft exit es fault (done ++ [ProcessEvent.ofBot e])

/-- The program past the version flag and the configuration load, when no signal
arrives and the IRC goroutine reports nothing: `main` starts the goroutines and
waits in its `select` until the Telegram goroutine, a run of `StartBot` on
`newErr`, `me` and `getMeErr`, sends on `tgChan`.  The channel is unbuffered, so
the send and the receive happen together; from there on the two goroutines run
side by side under `schedule`.  If the Telegram goroutine panics before it has
sent anything, the process ends there. -/
def process (version : String) (newErr : Option String) (me : Option User)
    (getMeErr : Option String) (schedule : List Bool) : ProcessRun :=
  let bot := StartBot newErr me getMeErr
  let waiting := fun (run : MainRun) =>
    (run.events.takeWhile (fun e => e ≠ MainEvent.startTelegram) ++
      [MainEvent.startTelegram]).map ProcessEvent.ofMain ++
    (bot.events.takeWhile (fun e => !e.isReport)).map ProcessEvent.ofBot
  match bot.events.dropWhile (fun e => !e.isReport) with
  | BotEvent.report err :: after =>
    let run := main version false none (Trigger.tgErr err)
    race schedule ((run.events.dropWhile (fun e => e ≠ MainEvent.startTelegram)).drop 1)
      run.exitCode after bot.fault
      (waiting run ++ [ProcessEvent.ofBot (BotEvent.report err)])
  | _ =>
    { events := waiting (main version false none (Trigger.tgErr none)),
      exitCode := bot.fault.map (fun _ => 2) }

/-! ## Inputs of the test suite

The users, settings and messages of `handler_test.go`.  The tests leave `Date`
unset; here every message carries a date, and `testNow` is thirty seconds after
`testDate`. -/

/-- `testUser` of the message tests. -/
def testUser : User := { FirstName := "testing", Username := "test" }

/-- `replyUser` of `TestMessageReply`. -/
def replyUser : User := { FirstName := "Reply", Username := "replyUser" }

/-- The client of `TestMessageReply`, with the two IRC settings left open. -/
def testClient (showZWSP : Bool) (noForwardPrefix : String) : Client :=
  { Settings := { Prefix := "<", Suffix := ">", ReplyPrefix := "[", ReplySuffix := "]",
                  ReplyLength := 15, ChatID := 100 },
    IRCSettings := { ShowZWSP := showZWSP, NoForwardPrefix := noForwardPrefix } }

/-- A message date, in seconds since the epoch. -/
def testDate : Int := 1700000000

/-- A time of handling thirty seconds after `testDate`, in nanoseconds. -/
def testNow : Int := 1700000030 * Second

/-- A plain message of `testUser` in chat `chat`, sent at `date`. -/
def plainMessage (date chat : Int) (text : String) : Message :=
  { Date := date, From := some testUser, Chat := { ID := chat }, Text := text,
    ReplyToMessage := none }

/-- The reply of `TestMessageReply`: `replyUser` answers, in chat `chat`, a
message of `testUser` whose text is `quoted`. -/
def replyMessage (date chat : Int) (quoted : String) : Message :=
  { Date := date, From := some replyUser, Chat := { ID := chat }, Text := "Response Text",
    ReplyToMessage := some (plainMessage date chat quoted) }

/-- The user of the join and part tests. -/
def joinUser : User := { FirstName := "test", Username := "testUser" }

/-- A second joining user, without a handle. -/
def plainUser : User := { FirstName := "John" }

/-- A client with the announcement settings left open. -/
def announceClient (showZWSP showJoin showLeave showLocation : Bool) : Client :=
  { IRCSettings := { ShowZWSP := showZWSP, ShowJoinMessage := showJoin,
                     ShowLeaveMessage := showLeave, ShowLocationMessage := showLocation } }

/-- The message of `TestDocumentFull`. -/
def documentMessage : Message :=
  { From := some { FirstName := "test", Username := "user" },
    Document := some { MimeType := "test/txt", FileName := "test.txt" },
    Caption := "Random Caption", ReplyToMessage := none }

/-- The message of the sticker tests, with a date and a chat. -/
def stickerMessage (date chat : Int) : Message :=
  { Date := date, From := some testUser, Chat := { ID := chat },
    Sticker := some { Emoji := "😄" }, ReplyToMessage := none }

/-- A reply of `replyUser`, inside a topic, to `target`. -/
def topicReply (target : Message) : Message :=
  { Date := testDate, From := some replyUser, Chat := { ID := 100 }, Text := "Response Text",
    ReplyToMessage := some target, IsTopicMessage := true }

/-- A message of `testUser` that carries the marker of the topic `"General"`,
flagged as a topic message or not. -/
def topicMarker (inTopic : Bool) : Message :=
  { From := some testUser, Text := "Initial Text", ReplyToMessage := none,
    IsTopicMessage := inTopic, ForumTopicCreated := some { Name := "General" } }

/-- A message of `testUser` inside a topic, with text `text`. -/
def topicMember (text : String) : Message :=
  { From := some testUser, Text := text, ReplyToMessage := none, IsTopicMessage := true }

/-- An API whose first `n` calls fail and whose later calls succeed. -/
def failingApi (n : Nat) : Nat → Option String :=
  fun i => if i < n then some "timeout" else none

/-- The latitude of the location tests: the `float64` of the Go constant
`43.0845274`, bit pattern `0x40458AD1CB394ED6`. -/
def testLatitude : Float64 := { bits := 4631260425482751702 }

/-- The longitude of the location tests: the `float64` of the Go constant
`-77.6781174`, bit pattern `0xC0536B664685F64F`. -/
def testLongitude : Float64 := { bits := 13858538565363168847 }

/-- The message of `TestLocationHandlerWithLocationEnabled`. -/
def locationMessage : Message :=
  { From := some testUser, Location := some (Location.mk testLatitude testLongitude),
    ReplyToMessage := none }

/-! ## Auxiliary lemmas -/

theorem mk_append_mk (a b : List Char) : String.mk a ++ String.mk b = String.mk (a ++ b) :=
  rfl

theorem sliceTo_natCast {α : Type} (a : List α) (n : Nat) (h : n ≤ a.length) :
    sliceTo a (n : Int) = .ok (a.take n) := by
  simp [sliceTo, h]

theorem sliceFrom_natCast {α : Type} (a : List α) (n : Nat) (h : n ≤ a.length) :
    sliceFrom a (n : Int) = .ok (a.drop n) := by
  simp [sliceFrom, h]

theorem ZwspUsername_cons (u : User) (c : Char) (rest : List Char)
    (h : u.Username.data = c :: rest) :
    ZwspUsername (some u) = .ok (String.mk (c :: zwspRune :: rest)) := by
  have h1 : sliceTo (c :: rest) 1 = .ok [c] := by
    simpa using sliceTo_natCast (c :: rest) 1 (by simp)
  have h2 : sliceFrom (c :: rest) 1 = .ok rest := by
    simpa using sliceFrom_natCast (c :: rest) 1 (by simp)
  simp only [ZwspUsername, h, h1, h2, zwsp, mk_append_mk]
  rfl

theorem username_eq_empty_iff (u : User) : u.Username = "" ↔ u.Username.data = [] := by
  constructor
  · intro h; rw [h]
  · intro h; exact String.ext h

theorem cutset_space (r : Char) : (" ".data.contains r) = true ↔ r = spaceRune := by
  have h : " ".data = [spaceRune] := by decide
  rw [h]
  simp

theorem rdropWhile_append_rtakeWhile (p : Char → Bool) (l : List Char) :
    l.rdropWhile p ++ l.rtakeWhile p = l := by
  have h := congrArg List.reverse (List.takeWhile_append_dropWhile p l.reverse)
  rw [List.reverse_append, List.reverse_reverse] at h
  exact h

theorem trim_decompose (p : Char → Bool) (l : List Char) :
    (l.rdropWhile p).takeWhile p ++ (l.rdropWhile p).dropWhile p ++ l.rtakeWhile p = l := by
  rw [List.takeWhile_append_dropWhile, rdropWhile_append_rtakeWhile]

theorem trim_head (p : Char → Bool) (l : List Char) (x : Char)
    (h : ((l.rdropWhile p).dropWhile p).head? = some x) : p x = false := by
  have := List.head?_dropWhile_not p (l.rdropWhile p)
  rw [h] at this
  exact this

theorem trim_getLast (p : Char → Bool) (l : List Char) (x : Char)
    (h : ((l.rdropWhile p).dropWhile p).getLast? = some x) : p x = false := by
  have hne : (l.rdropWhile p).dropWhile p ≠ [] := by
    intro e; rw [e] at h; cases h
  have hsuf : (l.rdropWhile p).dropWhile p <:+ l.rdropWhile p := List.dropWhile_suffix p
  have hr : l.rdropWhile p ≠ [] := by
    intro e; rw [e] at hne; exact hne rfl
  have hlast := List.IsSuffix.getLast hsuf hne
  have hx : ((l.rdropWhile p).dropWhile p).getLast hne = x := by
    rw [List.getLast?_eq_getLast _ hne] at h
    exact Option.some.inj h
  have hnot := List.rdropWhile_last_not (p := p) (l := l) hr
  have hx2 : (l.rdropWhile p).getLast hr = x := by
    rw [← hx, hlast]
  rw [hx2] at hnot
  simpa using hnot

/-- What `strings.Trim(s, " ")` returns: `s` is the result between two runs of
spaces, and the result neither starts nor ends with a space. -/
theorem Trim_space (s : String) :
    (∃ a b : Nat, s.data =
      List.replicate a spaceRune ++ (Trim s " ").data ++ List.replicate b spaceRune) ∧
    (Trim s " ").data.head? ≠ some spaceRune ∧
    (Trim s " ").data.getLast? ≠ some spaceRune := by
  refine ⟨?_, ?_, ?_⟩
  · refine ⟨((s.data.rdropWhile (fun r => " ".data.contains r)).takeWhile
        (fun r => " ".data.contains r)).length,
      (s.data.rtakeWhile (fun r => " ".data.contains r)).length, ?_⟩
    have h1 : ∀ l : List Char, (∀ x ∈ l, x = spaceRune) →
        l = List.replicate l.length spaceRune := fun l hl =>
      List.eq_replicate_iff.2 ⟨rfl, hl⟩
    have ha := h1 ((s.data.rdropWhile (fun r => " ".data.contains r)).takeWhile
        (fun r => " ".data.contains r))
      (fun x hx => (cutset_space x).1 (List.mem_takeWhile_imp hx))
    have hb := h1 (s.data.rtakeWhile (fun r => " ".data.contains r))
      (fun x hx => (cutset_space x).1 (List.mem_rtakeWhile_imp hx))
    rw [← ha, ← hb]
    exact (trim_decompose _ s.data).symm
  · intro h
    have h1 := trim_head (fun r => " ".data.contains r) s.data spaceRune h
    have h2 : (fun r => " ".data.contains r) spaceRune = true :=
      (cutset_space spaceRune).2 rfl
    rw [h2] at h1
    cases h1
  · intro h
    have h1 := trim_getLast (fun r => " ".data.contains r) s.data spaceRune h
    have h2 : (fun r => " ".data.contains r) spaceRune = true :=
      (cutset_space spaceRune).2 rfl
    rw [h2] at h1
    cases h1

theorem HasPrefix_iff (s p : String) : HasPrefix s p = true ↔ p.data <+: s.data := by
  simp [HasPrefix]

theorem timeSince_gt_Minute (now sec : Int) :
    timeSince now sec > Minute ↔
      (sec + unixToInternal ≥ 2 ^ 63 ∨ now - sec * Second > 60 * Second) := by
  have hmax : maxDuration = 9223372036854775807 := by norm_num [maxDuration]
  have hmin : minDuration = -9223372036854775808 := by norm_num [minDuration]
  have hs : Second = 1000000000 := rfl
  have hu : unixToInternal = 62135596800 := rfl
  have hp : (2 : Int) ^ 63 = 9223372036854775808 := by norm_num
  simp only [timeSince, Minute, hmax, hmin, hs, hu, hp]
  split_ifs <;> omega

/-! ## Handle resolution -/

/-- Closed form of `GetUsername` on a present user. -/
theorem GetUsername_some (showZWSP : Bool) (u : User) :
    GetUsername showZWSP (some u) =
      .ok (if u.Username = "" then u.FirstName
        else if showZWSP = true then String.mk (u.Username.data.insertIdx 1 zwspRune)
        else u.Username) := by
  unfold GetUsername
  by_cases h : u.Username = ""
  · simp [h]; rfl
  · simp only [h, if_false]
    cases z : showZWSP
    · simp; rfl
    · simp only [if_true]
      cases hd : u.Username.data with
      | nil => exact absurd ((username_eq_empty_iff u).2 hd) h
      | cons c rest =>
        rw [ZwspUsername_cons u c rest hd]
        simp [List.insertIdx]

/-- C1: `GetUsername` returns the first name when the handle is empty, the raw
handle when it is non-empty and obfuscation is off, and the handle with U+200B
inserted after its first code point when it is non-empty and obfuscation is
on. -/
theorem GetUsername_cases (showZWSP : Bool) (u : User) :
    (u.Username = "" → GetUsername showZWSP (some u) = .ok u.FirstName) ∧
    (u.Username ≠ "" → showZWSP = false → GetUsername showZWSP (some u) = .ok u.Username) ∧
    (u.Username ≠ "" → showZWSP = true →
      GetUsername showZWSP (some u) = .ok (String.mk (u.Username.data.insertIdx 1 zwspRune))) := by
  refine ⟨?_, ?_, ?_⟩
  · intro h
    rw [GetUsername_some, if_pos h]
  · intro h hz
    rw [GetUsername_some, if_neg h, hz]
    rfl
  · intro h hz
    rw [GetUsername_some, if_neg h, if_pos hz]

/-- Witness of C1 on the users of the test suite: no handle, a handle shown raw,
and a handle obfuscated. -/
theorem GetUsername_cases_witness :
    (({ FirstName := "John", Username := "" } : User).Username = "" ∧
      GetUsername true (some { FirstName := "John", Username := "" }) = .ok "John") ∧
    (({ FirstName := "John", Username := "jsmith" } : User).Username ≠ "" ∧
      GetUsername false (some { FirstName := "John", Username := "jsmith" }) = .ok "jsmith") ∧
    (({ FirstName := "まこと", Username := "まこと" } : User).Username ≠ "" ∧
      GetUsername true (some { FirstName := "まこと", Username := "まこと" }) =
        .ok (String.mk ("まこと".data.insertIdx 1 zwspRune))) :=
  ⟨⟨by decide, (GetUsername_cases true { FirstName := "John", Username := "" }).1 (by decide)⟩,
    ⟨by decide, (GetUsername_cases false { FirstName := "John", Username := "jsmith" }).2.1
      (by decide) rfl⟩,
    ⟨by decide, (GetUsername_cases true { FirstName := "まこと", Username := "まこと" }).2.2
      (by decide) rfl⟩⟩

/-- C2: for a handle of at least two code points `ZwspUsername` returns the
handle with U+200B inserted exactly once, right after the first code point: the
first code point and the code points after it are unchanged and keep their
order, and the result holds one more U+200B than the handle. -/
theorem ZwspUsername_inserts_once (u : User) (h : 2 ≤ u.Username.length) :
    ∃ c rest, u.Username.data = c :: rest ∧
      ZwspUsername (some u) = .ok (String.mk (c :: zwspRune :: rest)) ∧
      (c :: zwspRune :: rest).length = u.Username.length + 1 ∧
      (c :: zwspRune :: rest).count zwspRune = u.Username.data.count zwspRune + 1 := by
  cases hd : u.Username.data with
  | nil =>
    have : u.Username.length = 0 := by simp [String.length, hd]
    omega
  | cons c rest =>
    refine ⟨c, rest, rfl, ZwspUsername_cons u c rest hd, ?_, ?_⟩
    · simp [String.length, hd]
    · by_cases hc : c = zwspRune
      · subst hc; simp
      · have hc2 : ¬ (zwspRune = c) := fun e => hc e.symm
        simp [List.count_cons, hc, hc2]

/-- Witness of C2 on the Cyrillic handle of the test suite. -/
theorem ZwspUsername_inserts_once_witness :
    2 ≤ ({ FirstName := "Иван", Username := "иван" } : User).Username.length ∧
    ∃ c rest, ({ FirstName := "Иван", Username := "иван" } : User).Username.data = c :: rest ∧
      ZwspUsername (some { FirstName := "Иван", Username := "иван" })
        = .ok (String.mk (c :: zwspRune :: rest)) ∧
      (c :: zwspRune :: rest).length
        = ({ FirstName := "Иван", Username := "иван" } : User).Username.length + 1 ∧
      (c :: zwspRune :: rest).count zwspRune
        = ({ FirstName := "Иван", Username := "иван" } : User).Username.data.count zwspRune + 1 :=
  ⟨by decide, ZwspUsername_inserts_once { FirstName := "Иван", Username := "иван" } (by decide)⟩

/-- C3, refuted as stated: on the one-code-point handle `"j"` both
`ZwspUsername` and `GetUsername` with obfuscation on return `"j"` followed by
U+200B, not the handle; and on an empty handle `GetUsername` returns the first
name, not the handle. -/
theorem short_handle_not_unchanged :
    ({ FirstName := "John", Username := "j" } : User).Username.length ≤ 1 ∧
    ZwspUsername (some { FirstName := "John", Username := "j" }) = .ok "j\u200b" ∧
    ZwspUsername (some { FirstName := "John", Username := "j" }) ≠ .ok "j" ∧
    GetUsername true (some { FirstName := "John", Username := "j" }) = .ok "j\u200b" ∧
    GetUsername true (some { FirstName := "John", Username := "j" }) ≠ .ok "j" ∧
    ({ FirstName := "John", Username := "" } : User).Username.length ≤ 1 ∧
    GetUsername true (some { FirstName := "John", Username := "" }) = .ok "John" ∧
    GetUsername true (some { FirstName := "John", Username := "" }) ≠ .ok "" := by
  decide

/-- C3, amended: for a handle of exactly one code point, `ZwspUsername` and
`GetUsername` with obfuscation on return that code point followed by U+200B; for
an empty handle `GetUsername` returns the first name, with either setting. -/
theorem short_handle_obfuscation (showZWSP : Bool) (u : User) :
    (u.Username.length = 1 →
      ZwspUsername (some u) = .ok (u.Username ++ zwsp) ∧
      GetUsername true (some u) = .ok (u.Username ++ zwsp)) ∧
    (u.Username.length = 0 → GetUsername showZWSP (some u) = .ok u.FirstName) := by
  constructor
  · intro h
    cases hd : u.Username.data with
    | nil => simp [String.length, hd] at h
    | cons c rest =>
      have hr : rest = [] := by
        have : (c :: rest).length = 1 := by simpa [String.length, hd] using h
        simpa using this
      subst hr
      have hu : u.Username = String.mk [c] := String.ext hd
      have hz : ZwspUsername (some u) = .ok (u.Username ++ zwsp) := by
        rw [ZwspUsername_cons u c [] hd, hu]; rfl
      refine ⟨hz, ?_⟩
      have hne : ¬ u.Username = "" := by
        intro e; rw [(username_eq_empty_iff u).1 e] at hd; cases hd
      rw [GetUsername_some, if_neg hne, if_pos rfl, hd, hu]; rfl
  · intro h
    have hd : u.Username.data = [] := List.length_eq_zero.1 h
    rw [GetUsername_some, if_pos ((username_eq_empty_iff u).2 hd)]

/-- Witness of the amended C3: the handle `"j"` and the empty handle. -/
theorem short_handle_obfuscation_witness :
    (({ FirstName := "John", Username := "j" } : User).Username.length = 1 ∧
      ZwspUsername (some { FirstName := "John", Username := "j" }) = .ok ("j" ++ zwsp) ∧
      GetUsername true (some { FirstName := "John", Username := "j" }) = .ok ("j" ++ zwsp)) ∧
    (({ FirstName := "John", Username := "" } : User).Username.length = 0 ∧
      GetUsername true (some { FirstName := "John", Username := "" }) = .ok "John") :=
  ⟨⟨by decide,
      (short_handle_obfuscation true { FirstName := "John", Username := "j" }).1 (by decide)⟩,
    ⟨by decide,
      (short_handle_obfuscation true { FirstName := "John", Username := "" }).2 (by decide)⟩⟩

/-! ## messageHandler -/

/-- What `messageHandler` does with a message that is not stale, whose date
`time.Unix` holds without wrapping around, and whose sender is present: the
three remaining tests, in source order. -/
theorem messageHandler_fresh (tg : Client) (now : Int) (m : Message) (user : User)
    (name : String) (hdate : m.Date + unixToInternal < 2 ^ 63)
    (hfresh : now - m.Date * Second ≤ 60 * Second)
    (hfrom : m.From = some user)
    (hname : GetUsername tg.IRCSettings.ShowZWSP (some user) = .ok name) :
    messageHandler tg now { Message := some m } =
      if tg.IRCSettings.NoForwardPrefix ≠ "" ∧
          tg.IRCSettings.NoForwardPrefix.data <+: m.Text.data then Outcome.silent
      else if m.Chat.ID ≠ tg.Settings.ChatID then Outcome.silent
      else if m.ReplyToMessage.isSome then replyHandler tg { Message := some m }
      else Outcome.send
        (tg.Settings.Prefix ++ name ++ tg.Settings.Suffix ++ " " ++ Trim m.Text " ") := by
  have hold : ¬ timeSince now m.Date > Minute := by
    rw [timeSince_gt_Minute]; omega
  simp only [messageHandler, hold, if_false, hfrom, hname, HasPrefix_iff]

/-- A date that `time.Unix` cannot hold counts as stale: when
`Date + unixToInternal` reaches `2 ^ 63` the `Time` made from it lies in the
remote past, and `messageHandler` logs the largest `Duration` as the age and
sends nothing, also when the date is in the future of the clock. -/
theorem messageHandler_date_wraps (tg : Client) (now : Int) (m : Message)
    (hdate : m.Date + unixToInternal ≥ 2 ^ 63) :
    messageHandler tg now { Message := some m } = { warnings := [maxDuration] } := by
  have hs : timeSince now m.Date = maxDuration := by
    simp only [timeSince, if_pos hdate]
  have hold : timeSince now m.Date > Minute := (timeSince_gt_Minute _ _).2 (Or.inl hdate)
  rw [hs] at hold
  simp only [messageHandler, hs, if_pos hold]

/-- The largest `int64` as a date: the message is not a reply, comes from the
configured chat and lies in the future of the clock, and `messageHandler` drops
it as stale. -/
theorem messageHandler_drops_largest_date :
    testNow - (plainMessage 9223372036854775807 100 "Random Text").Date * Second ≤
        60 * Second ∧
      messageHandler (testClient false "") testNow
          { Message := some (plainMessage 9223372036854775807 100 "Random Text") } =
        { sent := [], warnings := [maxDuration], fault := none } := by
  decide

/-- C4: a message that is not a reply, comes from the configured chat, is at
most 60 seconds old and does not start with a non-empty `NoForwardPrefix` makes
`messageHandler` send exactly one string: `Prefix`, the sender's name as
`GetUsername` gives it, `Suffix`, a space, and the text without its leading and
trailing spaces.  The date is one that `time.Unix` holds without wrapping
around, `Date + unixToInternal < 2 ^ 63`, as is every date that is not in the
future of the clock. -/
theorem messageHandler_forwards (tg : Client) (now : Int) (m : Message) (user : User)
    (hfrom : m.From = some user)
    (hplain : m.ReplyToMessage = none)
    (hchat : m.Chat.ID = tg.Settings.ChatID)
    (hdate : m.Date + unixToInternal < 2 ^ 63)
    (hfresh : now - m.Date * Second ≤ 60 * Second)
    (hfwd : ¬ (tg.IRCSettings.NoForwardPrefix ≠ "" ∧
      tg.IRCSettings.NoForwardPrefix.data <+: m.Text.data)) :
    ∃ name text : String,
      GetUsername tg.IRCSettings.ShowZWSP (some user) = .ok name ∧
      text = Trim m.Text " " ∧
      (∃ a b : Nat, m.Text.data =
        List.replicate a spaceRune ++ text.data ++ List.replicate b spaceRune) ∧
      text.data.head? ≠ some spaceRune ∧
      text.data.getLast? ≠ some spaceRune ∧
      messageHandler tg now { Message := some m } =
        { sent := [tg.Settings.Prefix ++ name ++ tg.Settings.Suffix ++ " " ++ text],
          warnings := [], fault := none } := by
  have hname := GetUsername_some tg.IRCSettings.ShowZWSP user
  refine ⟨_, Trim m.Text " ", hname, rfl, (Trim_space m.Text).1, (Trim_space m.Text).2.1,
    (Trim_space m.Text).2.2, ?_⟩
  rw [messageHandler_fresh tg now m user _ hdate hfresh hfrom hname, if_neg hfwd,
    if_neg (not_not.2 hchat), hplain]
  rfl

/-- Witness of C4: the message of `TestMessageZwsp`, its text padded with
spaces; the string sent is the one the test expects. -/
theorem messageHandler_forwards_witness :
    ((plainMessage testDate 100 "  Random Text ").From = some testUser ∧
      (plainMessage testDate 100 "  Random Text ").ReplyToMessage = none ∧
      (plainMessage testDate 100 "  Random Text ").Chat.ID = (testClient true "").Settings.ChatID ∧
      (plainMessage testDate 100 "  Random Text ").Date + unixToInternal < 2 ^ 63 ∧
      testNow - (plainMessage testDate 100 "  Random Text ").Date * Second ≤ 60 * Second ∧
      messageHandler (testClient true "") testNow
          { Message := some (plainMessage testDate 100 "  Random Text ") } =
        Outcome.send "<t\u200best> Random Text") ∧
    ∃ name text : String,
      GetUsername (testClient true "").IRCSettings.ShowZWSP (some testUser) = .ok name ∧
      text = Trim (plainMessage testDate 100 "  Random Text ").Text " " ∧
      (∃ a b : Nat, (plainMessage testDate 100 "  Random Text ").Text.data =
        List.replicate a spaceRune ++ text.data ++ List.replicate b spaceRune) ∧
      text.data.head? ≠ some spaceRune ∧
      text.data.getLast? ≠ some spaceRune ∧
      messageHandler (testClient true "") testNow
          { Message := some (plainMessage testDate 100 "  Random Text ") } =
        { sent := [(testClient true "").Settings.Prefix ++ name ++
            (testClient true "").Settings.Suffix ++ " " ++ text],
          warnings := [], fault := none } :=
  ⟨⟨rfl, rfl, by decide, by decide, by decide, by decide⟩,
    messageHandler_forwards (testClient true "") testNow
      (plainMessage testDate 100 "  Random Text ") testUser rfl rfl (by decide) (by decide)
      (by decide) (by decide)⟩

/-- C5: a message, reply or not, whose timestamp lies more than one minute
before the time of handling makes `messageHandler` send nothing, whatever the
chat, the text and the settings; the handler logs the age and returns. -/
theorem messageHandler_stale (tg : Client) (now : Int) (m : Message)
    (hstale : now - m.Date * Second > 60 * Second) :
    (messageHandler tg now { Message := some m }).sent = [] ∧
    (messageHandler tg now { Message := some m }).fault = none := by
  have hold : timeSince now m.Date > Minute := by
    rw [timeSince_gt_Minute]; exact Or.inr hstale
  simp only [messageHandler, hold, if_true, and_self]

/-- Witness of C5: a plain message and a reply, both 61 seconds old. -/
theorem messageHandler_stale_witness :
    (testNow - (plainMessage (testDate - 31) 100 "Random Text").Date * Second > 60 * Second ∧
      (messageHandler (testClient false "") testNow
        { Message := some (plainMessage (testDate - 31) 100 "Random Text") }).sent = [] ∧
      (messageHandler (testClient false "") testNow
        { Message := some (plainMessage (testDate - 31) 100 "Random Text") }).fault = none) ∧
    (testNow - (replyMessage (testDate - 31) 100 "Initial Text").Date * Second > 60 * Second ∧
      (messageHandler (testClient false "") testNow
        { Message := some (replyMessage (testDate - 31) 100 "Initial Text") }).sent = [] ∧
      (messageHandler (testClient false "") testNow
        { Message := some (replyMessage (testDate - 31) 100 "Initial Text") }).fault = none) :=
  ⟨⟨by decide, messageHandler_stale (testClient false "") testNow
      (plainMessage (testDate - 31) 100 "Random Text") (by decide)⟩,
    ⟨by decide, messageHandler_stale (testClient false "") testNow
      (replyMessage (testDate - 31) 100 "Initial Text") (by decide)⟩⟩

/-- Either of the two silent tests of `messageHandler` leaves nothing sent,
whether the run got as far as the test or ended before it. -/
theorem messageHandler_sent_nil_of_guard (tg : Client) (now : Int) (m : Message)
    (hguard : (tg.IRCSettings.NoForwardPrefix ≠ "" ∧
        tg.IRCSettings.NoForwardPrefix.data <+: m.Text.data) ∨
      m.Chat.ID ≠ tg.Settings.ChatID) :
    (messageHandler tg now { Message := some m }).sent = [] := by
  by_cases hold : timeSince now m.Date > Minute
  · simp only [messageHandler, hold, if_true]
  · cases hg : GetUsername tg.IRCSettings.ShowZWSP m.From with
    | error p => simp only [messageHandler, hold, if_false, hg]; rfl
    | ok name =>
      simp only [messageHandler, hold, if_false, hg, HasPrefix_iff]
      rcases hguard with h | h
      · rw [if_pos h]; rfl
      · by_cases h2 : tg.IRCSettings.NoForwardPrefix ≠ "" ∧
            tg.IRCSettings.NoForwardPrefix.data <+: m.Text.data
        · rw [if_pos h2]; rfl
        · rw [if_neg h2, if_pos h]; rfl

/-- C6: a message, reply or not, whose `Chat.ID` is not the configured `ChatID`
makes `messageHandler` send nothing. -/
theorem messageHandler_wrong_chat (tg : Client) (now : Int) (m : Message)
    (hchat : m.Chat.ID ≠ tg.Settings.ChatID) :
    (messageHandler tg now { Message := some m }).sent = [] :=
  messageHandler_sent_nil_of_guard tg now m (Or.inr hchat)

/-- Witness of C6: the message of `TestMessageFromWrongTelegramChat`, and a
reply, both from chat 101 while chat 100 is configured. -/
theorem messageHandler_wrong_chat_witness :
    ((plainMessage testDate 101 "Random Text").Chat.ID ≠ (testClient true "").Settings.ChatID ∧
      (messageHandler (testClient true "") testNow
        { Message := some (plainMessage testDate 101 "Random Text") }).sent = []) ∧
    ((replyMessage testDate 101 "Initial Text").Chat.ID ≠ (testClient true "").Settings.ChatID ∧
      (messageHandler (testClient true "") testNow
        { Message := some (replyMessage testDate 101 "Initial Text") }).sent = []) :=
  ⟨⟨by decide, messageHandler_wrong_chat (testClient true "") testNow
      (plainMessage testDate 101 "Random Text") (by decide)⟩,
    ⟨by decide, messageHandler_wrong_chat (testClient true "") testNow
      (replyMessage testDate 101 "Initial Text") (by decide)⟩⟩

/-- C7: with a non-empty `NoForwardPrefix`, a message, reply or not, whose text
starts with it makes `messageHandler` send nothing; with an empty
`NoForwardPrefix` the test stops no message: a message that is not stale, whose
date `time.Unix` holds without wrapping around, and that has a sender is then
handled as if the test were absent, whatever its text. -/
theorem messageHandler_no_forward (tg : Client) (now : Int) (m : Message) :
    (tg.IRCSettings.NoForwardPrefix ≠ "" →
      tg.IRCSettings.NoForwardPrefix.data <+: m.Text.data →
      (messageHandler tg now { Message := some m }).sent = []) ∧
    (tg.IRCSettings.NoForwardPrefix = "" →
      ∀ user name, m.Date + unixToInternal < 2 ^ 63 →
        now - m.Date * Second ≤ 60 * Second → m.From = some user →
        GetUsername tg.IRCSettings.ShowZWSP (some user) = .ok name →
        messageHandler tg now { Message := some m } =
          if m.Chat.ID ≠ tg.Settings.ChatID then Outcome.silent
          else if m.ReplyToMessage.isSome then replyHandler tg { Message := some m }
          else Outcome.send
            (tg.Settings.Prefix ++ name ++ tg.Settings.Suffix ++ " " ++ Trim m.Text " ")) := by
  constructor
  · intro hne hpre
    exact messageHandler_sent_nil_of_guard tg now m (Or.inl ⟨hne, hpre⟩)
  · intro hempty user name hdate hfresh hfrom hname
    rw [messageHandler_fresh tg now m user name hdate hfresh hfrom hname, if_neg]
    exact fun h => h.1 hempty

/-- Witness of C7: the message of `TestMessageRandomWithNoForward` under the
prefix `"[off]"`, and the same message under the empty prefix. -/
theorem messageHandler_no_forward_witness :
    ((testClient false "[off]").IRCSettings.NoForwardPrefix ≠ "" ∧
      (testClient false "[off]").IRCSettings.NoForwardPrefix.data <+:
        (plainMessage testDate 100 "[off] Random Text").Text.data ∧
      (messageHandler (testClient false "[off]") testNow
        { Message := some (plainMessage testDate 100 "[off] Random Text") }).sent = []) ∧
    ((testClient false "").IRCSettings.NoForwardPrefix = "" ∧
      (plainMessage testDate 100 "[off] Random Text").Date + unixToInternal < 2 ^ 63 ∧
      testNow - (plainMessage testDate 100 "[off] Random Text").Date * Second ≤ 60 * Second ∧
      (plainMessage testDate 100 "[off] Random Text").From = some testUser ∧
      GetUsername (testClient false "").IRCSettings.ShowZWSP (some testUser) = .ok "test" ∧
      messageHandler (testClient false "") testNow
          { Message := some (plainMessage testDate 100 "[off] Random Text") } =
        if (plainMessage testDate 100 "[off] Random Text").Chat.ID ≠
            (testClient false "").Settings.ChatID then Outcome.silent
        else if (plainMessage testDate 100 "[off] Random Text").ReplyToMessage.isSome then
          replyHandler (testClient false "")
            { Message := some (plainMessage testDate 100 "[off] Random Text") }
        else Outcome.send
          ((testClient false "").Settings.Prefix ++ "test" ++
            (testClient false "").Settings.Suffix ++ " " ++
            Trim (plainMessage testDate 100 "[off] Random Text").Text " ")) :=
  ⟨⟨by decide, by decide,
      (messageHandler_no_forward (testClient false "[off]") testNow
        (plainMessage testDate 100 "[off] Random Text")).1 (by decide) (by decide)⟩,
    ⟨rfl, by decide, by decide, rfl, by decide,
      (messageHandler_no_forward (testClient false "") testNow
        (plainMessage testDate 100 "[off] Random Text")).2 rfl testUser "test" (by decide)
        (by decide) rfl (by decide)⟩⟩

/-! ## replyHandler -/

theorem quotedText_of_lt (n : Int) (text : String) (h0 : 0 ≤ n)
    (hlong : n < ((Trim text " ").length : Int)) :
    quotedText n text =
      .ok (String.mk ((Trim text " ").data.take n.toNat ++ [ellipsisRune])) := by
  have hlen : (Trim text " ").length = (Trim text " ").data.length := rfl
  have hle : n ≤ ((Trim text " ").data.length : Int) := by omega
  have hgt : ((Trim text " ").data.length : Int) > n := by omega
  simp only [quotedText, hgt, if_true, sliceTo, h0, hle, and_self, ellipsis]
  rfl

theorem quotedText_of_le (n : Int) (text : String)
    (hshort : ((Trim text " ").length : Int) ≤ n) :
    quotedText n text = .ok (Trim text " ") := by
  have hlen : (Trim text " ").length = (Trim text " ").data.length := rfl
  have hgt : ¬ ((Trim text " ").data.length : Int) > n := by omega
  simp only [quotedText, hgt, if_false]
  rfl

theorem quotedText_returns (n : Int) (text : String) (h0 : 0 ≤ n) :
    ∃ q, quotedText n text = .ok q := by
  by_cases h : n < ((Trim text " ").length : Int)
  · exact ⟨_, quotedText_of_lt n text h0 h⟩
  · exact ⟨_, quotedText_of_le n text (by omega)⟩

/-- C8, refuted as stated: the replied-to text `" ab"` with `ReplyLength` 1 is
quoted as `"a…"`, and `"a"` is not a prefix of the original text `" ab"`, which
starts with a space; it is a prefix of the trimmed text `"ab"`. -/
theorem quoted_prefix_not_of_original :
    (0 : Int) ≤ 1 ∧ (1 : Int) < ((Trim " ab" " ").length : Int) ∧
    quotedText 1 " ab" = .ok "a…" ∧
    ¬ ("a".data <+: " ab".data) ∧
    "a".data <+: (Trim " ab" " ").data := by
  decide

/-- C8, amended: when `ReplyLength` is not negative and the trimmed replied-to
text has more than `ReplyLength` code points, the quoted text is the first
`ReplyLength` code points of the trimmed text followed by one U+2026; it has
`ReplyLength + 1` code points, and the part before the ellipsis is a prefix of
the trimmed text, hence of the original text when that does not start with a
space. -/
theorem quotedText_truncates (n : Int) (text : String) (h0 : 0 ≤ n)
    (hlong : n < ((Trim text " ").length : Int)) :
    ∃ kept : List Char,
      quotedText n text = .ok (String.mk (kept ++ [ellipsisRune])) ∧
      kept = (Trim text " ").data.take n.toNat ∧
      ((String.mk (kept ++ [ellipsisRune])).length : Int) = n + 1 ∧
      kept <+: (Trim text " ").data ∧
      (text.data.head? ≠ some spaceRune → kept <+: text.data) := by
  have hlen : (Trim text " ").length = (Trim text " ").data.length := rfl
  refine ⟨_, quotedText_of_lt n text h0 hlong, rfl, ?_, List.take_prefix _ _, ?_⟩
  · have : (String.mk ((Trim text " ").data.take n.toNat ++ [ellipsisRune])).length =
        ((Trim text " ").data.take n.toNat ++ [ellipsisRune]).length := rfl
    rw [this, List.length_append, List.length_take]
    simp only [List.length_singleton]
    omega
  · intro hhead
    obtain ⟨a, b, hab⟩ := (Trim_space text).1
    have ha : a = 0 := by
      cases a with
      | zero => rfl
      | succ k =>
        exfalso; apply hhead
        rw [hab]; simp [List.replicate_succ]
    subst ha
    have hpre : (Trim text " ").data <+: text.data := by
      rw [hab]; simp
    exact (List.take_prefix _ _).trans hpre

/-- Witness of the amended C8: the Cyrillic scenario of the specification, 33
code points cut to 15. -/
theorem quotedText_truncates_witness :
    ((0 : Int) ≤ 15 ∧
      (15 : Int) < ((Trim "Уикипедия е свободна енциклопедия" " ").length : Int) ∧
      quotedText 15 "Уикипедия е свободна енциклопедия" = .ok "Уикипедия е сво…") ∧
    ∃ kept : List Char,
      quotedText 15 "Уикипедия е свободна енциклопедия" =
        .ok (String.mk (kept ++ [ellipsisRune])) ∧
      kept = (Trim "Уикипедия е свободна енциклопедия" " ").data.take (15 : Int).toNat ∧
      ((String.mk (kept ++ [ellipsisRune])).length : Int) = 15 + 1 ∧
      kept <+: (Trim "Уикипедия е свободна енциклопедия" " ").data ∧
      ("Уикипедия е свободна енциклопедия".data.head? ≠ some spaceRune →
        kept <+: "Уикипедия е свободна енциклопедия".data) :=
  ⟨⟨by decide, by decide, by decide⟩,
    quotedText_truncates 15 "Уикипедия е свободна енциклопедия" (by decide) (by decide)⟩

/-- C9: when the trimmed replied-to text has at most `ReplyLength` code points,
the quoted text is the trimmed text itself: nothing is cut and no ellipsis is
appended, however many bytes the text takes. -/
theorem quotedText_short (n : Int) (text : String)
    (hshort : ((Trim text " ").length : Int) ≤ n) :
    quotedText n text = .ok (Trim text " ") ∧
    ∃ a b : Nat, text.data =
      List.replicate a spaceRune ++ (Trim text " ").data ++ List.replicate b spaceRune :=
  ⟨quotedText_of_le n text hshort, (Trim_space text).1⟩

/-- Witness of C9: `"Тест"`, four code points in eight bytes, under a limit
of 5. -/
theorem quotedText_short_witness :
    (((Trim " Тест " " ").length : Int) ≤ 5 ∧ 5 < (Trim " Тест " " ").utf8ByteSize ∧
      quotedText 5 " Тест " = .ok "Тест") ∧
    quotedText 5 " Тест " = .ok (Trim " Тест " " ") ∧
    ∃ a b : Nat, " Тест ".data =
      List.replicate a spaceRune ++ (Trim " Тест " " ").data ++ List.replicate b spaceRune :=
  ⟨⟨by decide, by decide, by decide⟩, quotedText_short 5 " Тест " (by decide)⟩

/-- C10: a reply whose target is not a topic message makes `replyHandler` send
exactly one string: `Prefix`, the replier's name, `Suffix`, a space,
`ReplyPrefix`, `"Re "`, the quoted user's name, `": "`, the quoted text,
`ReplySuffix`, a space and the reply's own text.  Both names are what
`GetUsername` gives under `ShowZWSP`, so both carry U+200B after their first
code point when it is on and the handle is not empty; the quoted text is the
trimmed and truncated text of the target. -/
theorem replyHandler_plain (tg : Client) (m target : Message) (replier quoted : User)
    (hfrom : m.From = some replier)
    (hreply : m.ReplyToMessage = some target)
    (hquoted : target.From = some quoted)
    (hplain : target.IsTopicMessage = false)
    (hlen : 0 ≤ tg.Settings.ReplyLength) :
    ∃ username replyUser replyText : String,
      GetUsername tg.IRCSettings.ShowZWSP (some replier) = .ok username ∧
      GetUsername tg.IRCSettings.ShowZWSP (some quoted) = .ok replyUser ∧
      quotedText tg.Settings.ReplyLength target.Text = .ok replyText ∧
      (tg.IRCSettings.ShowZWSP = true → replier.Username ≠ "" →
        username = String.mk (replier.Username.data.insertIdx 1 zwspRune)) ∧
      (tg.IRCSettings.ShowZWSP = true → quoted.Username ≠ "" →
        replyUser = String.mk (quoted.Username.data.insertIdx 1 zwspRune)) ∧
      replyHandler tg { Message := some m } =
        { sent := [tg.Settings.Prefix ++ username ++ tg.Settings.Suffix ++ " " ++
            (tg.Settings.ReplyPrefix ++ "Re " ++ replyUser ++ ": " ++ replyText ++
              tg.Settings.ReplySuffix) ++ " " ++ m.Text],
          warnings := [], fault := none } := by
  obtain ⟨q, hq⟩ := quotedText_returns tg.Settings.ReplyLength target.Text hlen
  have hu := GetUsername_some tg.IRCSettings.ShowZWSP replier
  have hr := GetUsername_some tg.IRCSettings.ShowZWSP quoted
  refine ⟨_, _, q, hu, hr, hq, ?_, ?_, ?_⟩
  · intro hz hne
    rw [if_neg hne, if_pos hz]
  · intro hz hne
    rw [if_neg hne, if_pos hz]
  · simp only [replyHandler, replyFormatted, hreply, hfrom, hquoted, hu, hr, hq, replyMsg,
      hplain]
    rfl

/-- Witness of C10: the reply of `TestMessageReplyZwsp`; the string sent is the
one the test expects. -/
theorem replyHandler_plain_witness :
    ((replyMessage testDate 100 "Initial Text").From = some replyUser ∧
      (replyMessage testDate 100 "Initial Text").ReplyToMessage =
        some (plainMessage testDate 100 "Initial Text") ∧
      (plainMessage testDate 100 "Initial Text").From = some testUser ∧
      (plainMessage testDate 100 "Initial Text").IsTopicMessage = false ∧
      0 ≤ (testClient true "").Settings.ReplyLength ∧
      replyHandler (testClient true "")
          { Message := some (replyMessage testDate 100 "Initial Text") } =
        Outcome.send "<r\u200beplyUser> [Re t\u200best: Initial Text] Response Text") ∧
    ∃ username replyUser replyText : String,
      GetUsername (testClient true "").IRCSettings.ShowZWSP (some Teleirc.replyUser) =
        .ok username ∧
      GetUsername (testClient true "").IRCSettings.ShowZWSP (some testUser) = .ok replyUser ∧
      quotedText (testClient true "").Settings.ReplyLength
        (plainMessage testDate 100 "Initial Text").Text = .ok replyText ∧
      ((testClient true "").IRCSettings.ShowZWSP = true → Teleirc.replyUser.Username ≠ "" →
        username = String.mk (Teleirc.replyUser.Username.data.insertIdx 1 zwspRune)) ∧
      ((testClient true "").IRCSettings.ShowZWSP = true → testUser.Username ≠ "" →
        replyUser = String.mk (testUser.Username.data.insertIdx 1 zwspRune)) ∧
      replyHandler (testClient true "")
          { Message := some (replyMessage testDate 100 "Initial Text") } =
        { sent := [(testClient true "").Settings.Prefix ++ username ++
            (testClient true "").Settings.Suffix ++ " " ++
            ((testClient true "").Settings.ReplyPrefix ++ "Re " ++ replyUser ++ ": " ++
              replyText ++ (testClient true "").Settings.ReplySuffix) ++ " " ++
            (replyMessage testDate 100 "Initial Text").Text],
          warnings := [], fault := none } :=
  ⟨⟨rfl, rfl, rfl, rfl, by decide, by decide⟩,
    replyHandler_plain (testClient true "") (replyMessage testDate 100 "Initial Text")
      (plainMessage testDate 100 "Initial Text") Teleirc.replyUser testUser rfl rfl rfl rfl
      (by decide)⟩

/-! ## Quote blocks of replies inside topics -/

/-- The string `replyHandler` sends when both users are present and the quoted
text exists: the frame around the quote block `replyMsg`. -/
theorem replyHandler_send (tg : Client) (m target : Message) (replier quoted : User)
    (hfrom : m.From = some replier)
    (hreply : m.ReplyToMessage = some target)
    (hquoted : target.From = some quoted)
    (hlen : 0 ≤ tg.Settings.ReplyLength) :
    ∃ username replyUser replyText : String,
      GetUsername tg.IRCSettings.ShowZWSP (some replier) = .ok username ∧
      GetUsername tg.IRCSettings.ShowZWSP (some quoted) = .ok replyUser ∧
      quotedText tg.Settings.ReplyLength target.Text = .ok replyText ∧
      replyHandler tg { Message := some m } =
        Outcome.send (tg.Settings.Prefix ++ username ++ tg.Settings.Suffix ++ " " ++
          replyMsg tg.Settings target replyUser replyText ++ " " ++ m.Text) := by
  obtain ⟨q, hq⟩ := quotedText_returns tg.Settings.ReplyLength target.Text hlen
  have hu := GetUsername_some tg.IRCSettings.ShowZWSP replier
  have hr := GetUsername_some tg.IRCSettings.ShowZWSP quoted
  refine ⟨_, _, q, hu, hr, hq, ?_⟩
  simp only [replyHandler, replyFormatted, hreply, hfrom, hquoted, hu, hr, hq]
  rfl

/-- C11, refuted as stated: a reply target that carries `ForumTopicCreated` but
is not flagged `IsTopicMessage` is quoted as a plain reply, `"[Re test: Initial
Text]"`, with the quoted user and the quoted text and without the topic name. -/
theorem topic_marker_outside_topic :
    (topicMarker false).ForumTopicCreated = some { Name := "General" } ∧
    replyMsg (testClient false "").Settings (topicMarker false) "test" "Initial Text" =
      "[Re test: Initial Text]" ∧
    replyMsg (testClient false "").Settings (topicMarker false) "test" "Initial Text" ≠
      "[Topic: General]" ∧
    replyHandler (testClient false "") { Message := some (topicReply (topicMarker false)) } =
      Outcome.send "<replyUser> [Re test: Initial Text] Response Text" := by
  decide

/-- C11, amended: when the reply target is a topic message (`IsTopicMessage`)
that carries `ForumTopicCreated`, the quote block is `ReplyPrefix`, `"Topic: "`,
the topic name and `ReplySuffix`, whatever the quoted user and the quoted text
are; `replyHandler` sends it between the replier's frame and the reply's own
text. -/
theorem replyHandler_topic_created (tg : Client) (m target : Message)
    (replier quoted : User) (topic : ForumTopicCreated)
    (hfrom : m.From = some replier)
    (hreply : m.ReplyToMessage = some target)
    (hquoted : target.From = some quoted)
    (htopic : target.IsTopicMessage = true)
    (hcreated : target.ForumTopicCreated = some topic)
    (hlen : 0 ≤ tg.Settings.ReplyLength) :
    (∀ replyUser replyText : String,
      replyMsg tg.Settings target replyUser replyText =
        tg.Settings.ReplyPrefix ++ "Topic: " ++ topic.Name ++ tg.Settings.ReplySuffix) ∧
    ∃ username : String,
      GetUsername tg.IRCSettings.ShowZWSP (some replier) = .ok username ∧
      replyHandler tg { Message := some m } =
        { sent := [tg.Settings.Prefix ++ username ++ tg.Settings.Suffix ++ " " ++
            (tg.Settings.ReplyPrefix ++ "Topic: " ++ topic.Name ++ tg.Settings.ReplySuffix) ++
            " " ++ m.Text],
          warnings := [], fault := none } := by
  have hblock : ∀ replyUser replyText : String,
      replyMsg tg.Settings target replyUser replyText =
        tg.Settings.ReplyPrefix ++ "Topic: " ++ topic.Name ++ tg.Settings.ReplySuffix := by
    intro replyUser replyText
    simp only [replyMsg, htopic, hcreated, if_true]
  obtain ⟨username, replyUser, replyText, hu, -, -, hsend⟩ :=
    replyHandler_send tg m target replier quoted hfrom hreply hquoted hlen
  refine ⟨hblock, username, hu, ?_⟩
  rw [hsend, hblock]
  rfl

/-- Witness of the amended C11: a reply to the marker of the topic `"General"`. -/
theorem replyHandler_topic_created_witness :
    ((topicReply (topicMarker true)).From = some replyUser ∧
      (topicReply (topicMarker true)).ReplyToMessage = some (topicMarker true) ∧
      (topicMarker true).From = some testUser ∧
      (topicMarker true).IsTopicMessage = true ∧
      (topicMarker true).ForumTopicCreated = some { Name := "General" } ∧
      0 ≤ (testClient false "").Settings.ReplyLength ∧
      replyHandler (testClient false "") { Message := some (topicReply (topicMarker true)) } =
        Outcome.send "<replyUser> [Topic: General] Response Text") ∧
    ((∀ replyUser replyText : String,
      replyMsg (testClient false "").Settings (topicMarker true) replyUser replyText =
        (testClient false "").Settings.ReplyPrefix ++ "Topic: " ++
          (ForumTopicCreated.mk "General").Name ++
          (testClient false "").Settings.ReplySuffix) ∧
    ∃ username : String,
      GetUsername (testClient false "").IRCSettings.ShowZWSP (some replyUser) = .ok username ∧
      replyHandler (testClient false "") { Message := some (topicReply (topicMarker true)) } =
        { sent := [(testClient false "").Settings.Prefix ++ username ++
            (testClient false "").Settings.Suffix ++ " " ++
            ((testClient false "").Settings.ReplyPrefix ++ "Topic: " ++
              (ForumTopicCreated.mk "General").Name ++
              (testClient false "").Settings.ReplySuffix) ++
            " " ++ (topicReply (topicMarker true)).Text],
          warnings := [], fault := none }) :=
  ⟨⟨rfl, rfl, rfl, rfl, rfl, by decide, by decide⟩,
    replyHandler_topic_created (testClient false "") (topicReply (topicMarker true))
      (topicMarker true) replyUser testUser (ForumTopicCreated.mk "General") rfl rfl rfl rfl rfl
      (by decide)⟩

/-- C12: when the reply target is a topic message that carries no
`ForumTopicCreated`, the quote block is `ReplyPrefix`, `"Topic Re "`, the quoted
user's name as `GetUsername` gives it, `": "`, the quoted text and
`ReplySuffix`; `replyHandler` sends it between the replier's frame and the
reply's own text. -/
theorem replyHandler_topic_reply (tg : Client) (m target : Message) (replier quoted : User)
    (hfrom : m.From = some replier)
    (hreply : m.ReplyToMessage = some target)
    (hquoted : target.From = some quoted)
    (htopic : target.IsTopicMessage = true)
    (hcreated : target.ForumTopicCreated = none)
    (hlen : 0 ≤ tg.Settings.ReplyLength) :
    ∃ username replyUser replyText : String,
      GetUsername tg.IRCSettings.ShowZWSP (some replier) = .ok username ∧
      GetUsername tg.IRCSettings.ShowZWSP (some quoted) = .ok replyUser ∧
      quotedText tg.Settings.ReplyLength target.Text = .ok replyText ∧
      replyMsg tg.Settings target replyUser replyText =
        tg.Settings.ReplyPrefix ++ "Topic Re " ++ replyUser ++ ": " ++ replyText ++
          tg.Settings.ReplySuffix ∧
      replyHandler tg { Message := some m } =
        { sent := [tg.Settings.Prefix ++ username ++ tg.Settings.Suffix ++ " " ++
            (tg.Settings.ReplyPrefix ++ "Topic Re " ++ replyUser ++ ": " ++ replyText ++
              tg.Settings.ReplySuffix) ++ " " ++ m.Text],
          warnings := [], fault := none } := by
  obtain ⟨username, replyUser, replyText, hu, hr, hq, hsend⟩ :=
    replyHandler_send tg m target replier quoted hfrom hreply hquoted hlen
  have hblock : replyMsg tg.Settings target replyUser replyText =
      tg.Settings.ReplyPrefix ++ "Topic Re " ++ replyUser ++ ": " ++ replyText ++
        tg.Settings.ReplySuffix := by
    simp only [replyMsg, htopic, hcreated, if_true]
  refine ⟨username, replyUser, replyText, hu, hr, hq, hblock, ?_⟩
  rw [hsend, hblock]
  rfl

/-- Witness of C12: a reply, inside a topic, to a long Cyrillic message. -/
theorem replyHandler_topic_reply_witness :
    ((topicReply (topicMember "Уикипедия е свободна енциклопедия")).From = some replyUser ∧
      (topicReply (topicMember "Уикипедия е свободна енциклопедия")).ReplyToMessage =
        some (topicMember "Уикипедия е свободна енциклопедия") ∧
      (topicMember "Уикипедия е свободна енциклопедия").From = some testUser ∧
      (topicMember "Уикипедия е свободна енциклопедия").IsTopicMessage = true ∧
      (topicMember "Уикипедия е свободна енциклопедия").ForumTopicCreated = none ∧
      0 ≤ (testClient true "").Settings.ReplyLength ∧
      replyHandler (testClient true "")
          { Message := some (topicReply (topicMember "Уикипедия е свободна енциклопедия")) } =
        Outcome.send "<r\u200beplyUser> [Topic Re t\u200best: Уикипедия е сво…] Response Text") ∧
    ∃ username replyUser replyText : String,
      GetUsername (testClient true "").IRCSettings.ShowZWSP (some Teleirc.replyUser) =
        .ok username ∧
      GetUsername (testClient true "").IRCSettings.ShowZWSP (some testUser) = .ok replyUser ∧
      quotedText (testClient true "").Settings.ReplyLength
        (topicMember "Уикипедия е свободна енциклопедия").Text = .ok replyText ∧
      replyMsg (testClient true "").Settings (topicMember "Уикипедия е свободна енциклопедия")
          replyUser replyText =
        (testClient true "").Settings.ReplyPrefix ++ "Topic Re " ++ replyUser ++ ": " ++
          replyText ++ (testClient true "").Settings.ReplySuffix ∧
      replyHandler (testClient true "")
          { Message := some (topicReply (topicMember "Уикипедия е свободна енциклопедия")) } =
        { sent := [(testClient true "").Settings.Prefix ++ username ++
            (testClient true "").Settings.Suffix ++ " " ++
            ((testClient true "").Settings.ReplyPrefix ++ "Topic Re " ++ replyUser ++ ": " ++
              replyText ++ (testClient true "").Settings.ReplySuffix) ++ " " ++
            (topicReply (topicMember "Уикипедия е свободна енциклопедия")).Text],
          warnings := [], fault := none } :=
  ⟨⟨rfl, rfl, rfl, rfl, rfl, by decide, by decide⟩,
    replyHandler_topic_reply (testClient true "")
      (topicReply (topicMember "Уикипедия е свободна енциклопедия"))
      (topicMember "Уикипедия е свободна енциклопедия")
      Teleirc.replyUser testUser rfl rfl rfl rfl rfl (by decide)⟩

/-! ## Join and leave announcements -/

theorem GetFullUserZwsp_cons (u : User) (c : Char) (rest : List Char)
    (h : u.Username.data = c :: rest) :
    GetFullUserZwsp (some u) =
      .ok (u.FirstName ++ " (@" ++ String.mk (c :: zwspRune :: rest) ++ ")") := by
  have h1 : sliceTo (c :: rest) 1 = .ok [c] := by
    simpa using sliceTo_natCast (c :: rest) 1 (by simp)
  have h2 : sliceFrom (c :: rest) 1 = .ok rest := by
    simpa using sliceFrom_natCast (c :: rest) 1 (by simp)
  have e : u.FirstName ++ " (@" ++ String.mk [c] ++ zwsp ++ String.mk rest =
      u.FirstName ++ " (@" ++ String.mk (c :: zwspRune :: rest) := by
    rw [String.append_assoc (u.FirstName ++ " (@"), String.append_assoc (u.FirstName ++ " (@")]
    rfl
  simp only [GetFullUserZwsp, h, h1, h2]
  show Except.ok _ = Except.ok _
  rw [e]

/-- Closed form of `GetFullUsername` on a present user. -/
theorem GetFullUsername_some (showZWSP : Bool) (u : User) :
    GetFullUsername showZWSP (some u) =
      .ok (if u.Username = "" then u.FirstName
        else if showZWSP = true then
          u.FirstName ++ " (@" ++ String.mk (u.Username.data.insertIdx 1 zwspRune) ++ ")"
        else u.FirstName ++ " (@" ++ u.Username ++ ")") := by
  unfold GetFullUsername
  by_cases h : u.Username = ""
  · simp [h]; rfl
  · simp only [h, if_false]
    cases z : showZWSP
    · simp; rfl
    · simp only [if_true]
      cases hd : u.Username.data with
      | nil => exact absurd ((username_eq_empty_iff u).2 hd) h
      | cons c rest =>
        rw [GetFullUserZwsp_cons u c rest hd]
        simp [List.insertIdx]

/-- C13: `GetFullUsername` returns the first name alone when the handle is
empty, and otherwise the first name followed by `" (@"`, the handle and `")"`,
the handle being raw when obfuscation is off and carrying U+200B after its
first code point when it is on. -/
theorem GetFullUsername_cases (showZWSP : Bool) (u : User) :
    (u.Username = "" → GetFullUsername showZWSP (some u) = .ok u.FirstName) ∧
    (u.Username ≠ "" → showZWSP = false →
      GetFullUsername showZWSP (some u) = .ok (u.FirstName ++ " (@" ++ u.Username ++ ")")) ∧
    (u.Username ≠ "" → showZWSP = true →
      GetFullUsername showZWSP (some u) =
        .ok (u.FirstName ++ " (@" ++ String.mk (u.Username.data.insertIdx 1 zwspRune) ++ ")")) := by
  refine ⟨?_, ?_, ?_⟩
  · intro h
    rw [GetFullUsername_some, if_pos h]
  · intro h hz
    rw [GetFullUsername_some, if_neg h, hz]
    rfl
  · intro h hz
    rw [GetFullUsername_some, if_neg h, if_pos hz]

/-- Witness of C13 on the users of `helpers_test.go`; the obfuscated name is
the string `TestGetFullUserZwsp` expects. -/
theorem GetFullUsername_cases_witness :
    (({ FirstName := "John" } : User).Username = "" ∧
      GetFullUsername false (some { FirstName := "John" }) = .ok "John") ∧
    (({ FirstName := "John", Username := "jsmith" } : User).Username ≠ "" ∧
      GetFullUsername false (some { FirstName := "John", Username := "jsmith" }) =
        .ok ("John" ++ " (@" ++ "jsmith" ++ ")")) ∧
    (({ FirstName := "Иван", Username := "иван" } : User).Username ≠ "" ∧
      GetFullUsername true (some { FirstName := "Иван", Username := "иван" }) =
        .ok ("Иван" ++ " (@" ++ String.mk ("иван".data.insertIdx 1 zwspRune) ++ ")") ∧
      GetFullUsername true (some { FirstName := "Иван", Username := "иван" }) =
        .ok "Иван (@и\u200bван)") :=
  ⟨⟨by decide, (GetFullUsername_cases false { FirstName := "John" }).1 (by decide)⟩,
    ⟨by decide, (GetFullUsername_cases false { FirstName := "John", Username := "jsmith" }).2.1
      (by decide) rfl⟩,
    ⟨by decide, (GetFullUsername_cases true { FirstName := "Иван", Username := "иван" }).2.2
      (by decide) rfl, by decide⟩⟩

/-- The loop of `joinHandler` adds one announcement per user, in order, to what
was sent before, and never faults. -/
theorem joinLoop_spec (showZWSP : Bool) (users : List User) (done : Outcome) :
    ∃ announced : List String,
      joinLoop showZWSP users done = { done with sent := done.sent ++ announced } ∧
      List.Forall₂ (fun s u => ∃ name, GetFullUsername showZWSP (some u) = .ok name ∧
        s = name ++ " has joined the Telegram Group!") announced users := by
  induction users generalizing done with
  | nil => exact ⟨[], by simp [joinLoop], List.Forall₂.nil⟩
  | cons u rest ih =>
    obtain ⟨name, hu⟩ : ∃ name, GetFullUsername showZWSP (some u) = .ok name :=
      ⟨_, GetFullUsername_some showZWSP u⟩
    obtain ⟨more, hmore, hall⟩ := ih
      { done with sent := done.sent ++ [name ++ " has joined the Telegram Group!"] }
    refine ⟨(name ++ " has joined the Telegram Group!") :: more, ?_,
      List.Forall₂.cons ⟨name, hu, rfl⟩ hall⟩
    simp only [joinLoop, hu, hmore, List.append_assoc, List.singleton_append]

/-- C14: with `ShowJoinMessage` on, `joinHandler` sends exactly one string per
joining user, in list order, each the user's `GetFullUsername` followed by
`" has joined the Telegram Group!"`; with `ShowJoinMessage` off it sends
nothing. -/
theorem joinHandler_sends (tg : Client) (users : List User) :
    (tg.IRCSettings.ShowJoinMessage = true →
      (joinHandler tg (some users)).fault = none ∧
      (joinHandler tg (some users)).sent.length = users.length ∧
      List.Forall₂ (fun s u => ∃ name,
          GetFullUsername tg.IRCSettings.ShowZWSP (some u) = .ok name ∧
          s = name ++ " has joined the Telegram Group!")
        (joinHandler tg (some users)).sent users) ∧
    (tg.IRCSettings.ShowJoinMessage = false →
      joinHandler tg (some users) = { sent := [], warnings := [], fault := none }) := by
  constructor
  · intro hon
    obtain ⟨announced, hrun, hall⟩ := joinLoop_spec tg.IRCSettings.ShowZWSP users Outcome.silent
    have hj : joinHandler tg (some users) =
        { Outcome.silent with sent := Outcome.silent.sent ++ announced } := by
      simp only [joinHandler, hon, if_true, hrun]
    have hsent : (joinHandler tg (some users)).sent = announced := by
      rw [hj]; simp [Outcome.silent]
    refine ⟨?_, ?_, ?_⟩
    · rw [hj]; rfl
    · rw [hsent]; exact hall.length_eq
    · rw [hsent]; exact hall
  · intro hoff
    simp only [joinHandler, hoff]
    rfl

/-- Witness of C14: two users join, one with a handle and one without. -/
theorem joinHandler_sends_witness :
    ((announceClient true true false false).IRCSettings.ShowJoinMessage = true ∧
      joinHandler (announceClient true true false false) (some [joinUser, plainUser]) =
        { sent := ["test (@t\u200bestUser) has joined the Telegram Group!",
                   "John has joined the Telegram Group!"],
          warnings := [], fault := none } ∧
      (joinHandler (announceClient true true false false) (some [joinUser, plainUser])).fault
        = none ∧
      (joinHandler (announceClient true true false false)
        (some [joinUser, plainUser])).sent.length = [joinUser, plainUser].length ∧
      List.Forall₂ (fun s u => ∃ name,
          GetFullUsername (announceClient true true false false).IRCSettings.ShowZWSP (some u)
            = .ok name ∧
          s = name ++ " has joined the Telegram Group!")
        (joinHandler (announceClient true true false false) (some [joinUser, plainUser])).sent
        [joinUser, plainUser]) ∧
    ((announceClient false false false false).IRCSettings.ShowJoinMessage = false ∧
      joinHandler (announceClient false false false false) (some [joinUser]) =
        { sent := [], warnings := [], fault := none }) :=
  ⟨⟨rfl, by decide,
      (joinHandler_sends (announceClient true true false false) [joinUser, plainUser]).1 rfl⟩,
    ⟨rfl, (joinHandler_sends (announceClient false false false false) [joinUser]).2 rfl⟩⟩

/-- C15: with `ShowLeaveMessage` on, `partHandler` sends exactly one string, the
leaving user's `GetFullUsername` followed by `" has left the Telegram Group!"`;
with `ShowLeaveMessage` off it sends nothing. -/
theorem partHandler_sends (tg : Client) (user : User) :
    (tg.IRCSettings.ShowLeaveMessage = true →
      ∃ name, GetFullUsername tg.IRCSettings.ShowZWSP (some user) = .ok name ∧
        partHandler tg (some user) =
          { sent := [name ++ " has left the Telegram Group!"], warnings := [],
            fault := none }) ∧
    (tg.IRCSettings.ShowLeaveMessage = false →
      partHandler tg (some user) = { sent := [], warnings := [], fault := none }) := by
  constructor
  · intro hon
    have hu := GetFullUsername_some tg.IRCSettings.ShowZWSP user
    refine ⟨_, hu, ?_⟩
    simp only [partHandler, hon, if_true, hu]
    rfl
  · intro hoff
    simp only [partHandler, hoff]
    rfl

/-- Witness of C15: the users and settings of `TestPartFullZwsp` and
`TestPartFullOff`. -/
theorem partHandler_sends_witness :
    ((announceClient true false true false).IRCSettings.ShowLeaveMessage = true ∧
      partHandler (announceClient true false true false) (some joinUser) =
        Outcome.send "test (@t\u200bestUser) has left the Telegram Group!" ∧
      ∃ name,
        GetFullUsername (announceClient true false true false).IRCSettings.ShowZWSP
          (some joinUser) = .ok name ∧
        partHandler (announceClient true false true false) (some joinUser) =
          { sent := [name ++ " has left the Telegram Group!"], warnings := [],
            fault := none }) ∧
    ((announceClient false false false false).IRCSettings.ShowLeaveMessage = false ∧
      partHandler (announceClient false false false false) (some joinUser) =
        { sent := [], warnings := [], fault := none }) :=
  ⟨⟨rfl, by decide,
      (partHandler_sends (announceClient true false true false) joinUser).1 rfl⟩,
    ⟨rfl, (partHandler_sends (announceClient false false false false) joinUser).2 rfl⟩⟩

/-! ## The rendering of a float64 -/

/-- A power with an integer exponent, as a quotient of two powers with natural
exponents, one of which is `1`. -/
theorem zpow_split (b : ℚ) (p : ℤ) :
    b ^ p = b ^ p.toNat / b ^ (-p).toNat := by
  rcases le_or_lt 0 p with h | h
  · have h0 : (-p).toNat = 0 := by omega
    rw [h0, pow_zero, div_one]
    lift p to ℕ using h
    simp
  · obtain ⟨n, rfl⟩ : ∃ n : ℕ, p = -(n : ℤ) := ⟨(-p).toNat, by omega⟩
    have h0 : (-(n : ℤ)).toNat = 0 := by omega
    simp [h0, zpow_neg]

/-- The common factor that turns a multiple of `10 ^ p` and a multiple of
`2 ^ e` into integers. -/
theorem scaled_decimal (c : ℕ) (p e : ℤ) :
    (c : ℚ) * 10 ^ p * ((10 : ℚ) ^ (-p).toNat * 2 ^ (-e).toNat) =
      ((c * (10 ^ p.toNat * 2 ^ (-e).toNat) : ℕ) : ℚ) := by
  rw [zpow_split 10 p]
  push_cast
  field_simp
  ring

theorem scaled_binary (a : ℕ) (p e : ℤ) :
    (a : ℚ) * 2 ^ e * ((10 : ℚ) ^ (-p).toNat * 2 ^ (-e).toNat) =
      ((a * (2 ^ e.toNat * 10 ^ (-p).toNat) : ℕ) : ℚ) := by
  rw [zpow_split 2 e]
  push_cast
  field_simp
  ring

theorem scale_pos (p e : ℤ) : (0 : ℚ) < (10 : ℚ) ^ (-p).toNat * 2 ^ (-e).toNat := by
  positivity

theorem decimal_le_binary (c a : ℕ) (p e : ℤ) :
    (c : ℚ) * 10 ^ p ≤ a * 2 ^ e ↔
      c * (10 ^ p.toNat * 2 ^ (-e).toNat) ≤ a * (2 ^ e.toNat * 10 ^ (-p).toNat) := by
  rw [← mul_le_mul_right (scale_pos p e), scaled_decimal, scaled_binary, Nat.cast_le]

theorem decimal_lt_binary (c a : ℕ) (p e : ℤ) :
    (c : ℚ) * 10 ^ p < a * 2 ^ e ↔
      c * (10 ^ p.toNat * 2 ^ (-e).toNat) < a * (2 ^ e.toNat * 10 ^ (-p).toNat) := by
  rw [← mul_lt_mul_right (scale_pos p e), scaled_decimal, scaled_binary, Nat.cast_lt]

theorem binary_le_decimal (c a : ℕ) (p e : ℤ) :
    (a : ℚ) * 2 ^ e ≤ c * 10 ^ p ↔
      a * (2 ^ e.toNat * 10 ^ (-p).toNat) ≤ c * (10 ^ p.toNat * 2 ^ (-e).toNat) := by
  rw [← mul_le_mul_right (scale_pos p e), scaled_decimal, scaled_binary, Nat.cast_le]

theorem binary_lt_decimal (c a : ℕ) (p e : ℤ) :
    (a : ℚ) * 2 ^ e < c * 10 ^ p ↔
      a * (2 ^ e.toNat * 10 ^ (-p).toNat) < c * (10 ^ p.toNat * 2 ^ (-e).toNat) := by
  rw [← mul_lt_mul_right (scale_pos p e), scaled_decimal, scaled_binary, Nat.cast_lt]

theorem between_iff (x : Float64) (c : ℕ) (p : ℤ) :
    between (decide (x.mantissa % 2 = 0))
        (x.lowerN * (2 ^ (x.exponent - 2).toNat * 10 ^ (-p).toNat))
        (c * (10 ^ p.toNat * 2 ^ (-(x.exponent - 2)).toNat))
        (x.upperN * (2 ^ (x.exponent - 2).toNat * 10 ^ (-p).toNat)) = true ↔
      x.roundsFrom ((c : ℚ) * 10 ^ p) := by
  unfold between Float64.roundsFrom
  by_cases h : x.mantissa % 2 = 0
  · simp only [h, decide_True, if_true, Bool.and_eq_true, decide_eq_true_eq,
      binary_le_decimal, decimal_le_binary]
  · simp only [h, decide_False, if_false, Bool.and_eq_true, decide_eq_true_eq,
      binary_lt_decimal, decimal_lt_binary, Bool.false_eq_true]

theorem nearestMultiple_sound (closed : Bool) (lo mid hi unit c : ℕ)
    (h : nearestMultiple closed lo mid hi unit = some c) :
    between closed lo (c * unit) hi = true := by
  unfold nearestMultiple at h
  simp only [Bool.and_eq_true] at h
  generalize (if mid % unit = 0 then mid / unit else mid / unit + 1) = up at h
  generalize mid / unit = down at h
  split_ifs at h with h1 h2 h3 h4 h5 h6 <;> cases h <;>
    first | exact h1.1 | exact h1.2 | assumption

theorem between_of_le (closed : Bool) (lo a b hi : ℕ) (hab : a ≤ b) (ha : between closed lo a hi = true)
    (hb : b < hi) : between closed lo b hi = true := by
  unfold between at *
  cases closed <;> simp at * <;> omega

theorem between_of_ge (closed : Bool) (lo a b hi : ℕ) (hab : b ≤ a) (ha : between closed lo a hi = true)
    (hb : lo < b) : between closed lo b hi = true := by
  unfold between at *
  cases closed <;> simp at * <;> omega

theorem nearestMultiple_complete (closed : Bool) (lo mid hi unit g : ℕ) (hunit : 0 < unit)
    (hlo : lo < mid) (hhi : mid < hi) (hg : between closed lo (g * unit) hi = true) :
    nearestMultiple closed lo mid hi unit ≠ none := by
  have hdown : mid / unit * unit ≤ mid := Nat.div_mul_le_self mid unit
  have hup : mid ≤ (if mid % unit = 0 then mid / unit else mid / unit + 1) * unit := by
    split_ifs with h0
    · have := Nat.div_add_mod mid unit
      rw [h0, Nat.add_zero, Nat.mul_comm] at this
      omega
    · have := Nat.lt_div_mul_add hunit (a := mid)
      rw [Nat.add_mul, Nat.one_mul]
      omega
  have hcase : g ≤ mid / unit ∨ (if mid % unit = 0 then mid / unit else mid / unit + 1) ≤ g := by
    split_ifs <;> omega
  have hok : between closed lo (mid / unit * unit) hi = true ∨
      between closed lo ((if mid % unit = 0 then mid / unit else mid / unit + 1) * unit) hi = true := by
    rcases hcase with h | h
    · left
      exact between_of_le closed lo _ _ hi (Nat.mul_le_mul_right unit h) hg (by omega)
    · right
      exact between_of_ge closed lo _ _ hi (Nat.mul_le_mul_right unit h) hg (by omega)
  unfold nearestMultiple
  simp only [Bool.and_eq_true]
  generalize (if mid % unit = 0 then mid / unit else mid / unit + 1) = up at hok ⊢
  generalize mid / unit = down at hok ⊢
  split_ifs <;> simp_all

theorem shortestAt_sound (x : Float64) (p : ℤ) (c : ℕ) (h : shortestAt x p = some c) :
    x.roundsFrom ((c : ℚ) * 10 ^ p) :=
  (between_iff x c p).1 (nearestMultiple_sound _ _ _ _ _ _ h)

theorem Float64.mantissa_lt (x : Float64) : x.mantissa < 2 ^ 53 := by
  have h : x.bits % 2 ^ 52 < 2 ^ 52 := Nat.mod_lt _ (by norm_num)
  unfold Float64.mantissa Float64.fraction
  split_ifs <;> omega

theorem Float64.lowerN_pos (x : Float64) (hm : x.mantissa ≠ 0) : 0 < x.lowerN := by
  unfold Float64.lowerN
  split_ifs <;> omega

theorem Float64.lowerN_lt (x : Float64) (hm : x.mantissa ≠ 0) : x.lowerN < 4 * x.mantissa := by
  unfold Float64.lowerN
  split_ifs <;> omega

theorem Float64.lt_upperN (x : Float64) : 4 * x.mantissa < x.upperN := by
  unfold Float64.upperN
  omega

theorem Float64.upperN_lt (x : Float64) : x.upperN < 10 ^ 17 := by
  have h := x.mantissa_lt
  unfold Float64.upperN
  norm_num at h ⊢
  omega

theorem shortestAt_complete (x : Float64) (p : ℤ) (g : ℕ) (hm : x.mantissa ≠ 0)
    (hg : x.roundsFrom ((g : ℚ) * 10 ^ p)) : shortestAt x p ≠ none := by
  have hs : 0 < 2 ^ (x.exponent - 2).toNat * 10 ^ (-p).toNat := by positivity
  refine nearestMultiple_complete _ _ _ _ _ g (by positivity) ?_ ?_ ((between_iff x g p).2 hg)
  · exact Nat.mul_lt_mul_of_pos_right (x.lowerN_lt hm) hs
  · exact Nat.mul_lt_mul_of_pos_right x.lt_upperN hs

theorem Float64.roundsFrom_convex (x : Float64) (a b q : ℚ) (ha : x.roundsFrom a)
    (hb : x.roundsFrom b) (haq : a ≤ q) (hqb : q ≤ b) : x.roundsFrom q := by
  unfold Float64.roundsFrom at *
  split_ifs at * with h
  · exact ⟨le_trans ha.1 haq, le_trans hqb hb.2⟩
  · exact ⟨lt_of_lt_of_le ha.1 haq, lt_of_le_of_lt hqb hb.2⟩

theorem Float64.roundsFrom_pos (x : Float64) (hm : x.mantissa ≠ 0) (q : ℚ)
    (h : x.roundsFrom q) : 0 < q := by
  have hl : (0 : ℚ) < (x.lowerN : ℚ) * 2 ^ (x.exponent - 2) := by
    have := x.lowerN_pos hm
    positivity
  unfold Float64.roundsFrom at h
  split_ifs at h
  · exact lt_of_lt_of_le hl h.1
  · exact lt_trans hl h.1

theorem Float64.roundsFrom_lt (x : Float64) (q : ℚ) (h : x.roundsFrom q) :
    q < 10 ^ (17 + ((x.exponent - 2).toNat : ℤ)) := by
  have hu : q ≤ (x.upperN : ℚ) * 2 ^ (x.exponent - 2) := by
    unfold Float64.roundsFrom at h
    split_ifs at h
    · exact h.2
    · exact le_of_lt h.2
  have h1 : (x.upperN : ℚ) < 10 ^ 17 := by exact_mod_cast x.upperN_lt
  have h2 : (2 : ℚ) ^ (x.exponent - 2) ≤ 2 ^ ((x.exponent - 2).toNat : ℤ) :=
    zpow_le_zpow_right₀ (by norm_num) (by omega)
  have h3 : (2 : ℚ) ^ ((x.exponent - 2).toNat : ℤ) ≤ 10 ^ ((x.exponent - 2).toNat : ℤ) := by
    rw [zpow_natCast, zpow_natCast]
    exact pow_le_pow_left₀ (by norm_num) (by norm_num) _
  have h4 : (0 : ℚ) < 2 ^ (x.exponent - 2) := by positivity
  calc q ≤ (x.upperN : ℚ) * 2 ^ (x.exponent - 2) := hu
    _ < 10 ^ 17 * 2 ^ (x.exponent - 2) := by
        exact mul_lt_mul_of_pos_right h1 h4
    _ ≤ 10 ^ 17 * 10 ^ ((x.exponent - 2).toNat : ℤ) := by
        exact mul_le_mul_of_nonneg_left (le_trans h2 h3) (by norm_num)
    _ = 10 ^ (17 + ((x.exponent - 2).toNat : ℤ)) := by
        rw [zpow_add₀ (by norm_num)]
        norm_num

/-- No multiple of a power of ten from `10 ^ (17 + (e - 2).toNat)` on rounds to
`x`. -/
theorem no_multiple_at_top (x : Float64) (g : ℕ) (p : ℤ) (hg : 0 < g)
    (hp : 17 + ((x.exponent - 2).toNat : ℤ) ≤ p) : ¬ x.roundsFrom ((g : ℚ) * 10 ^ p) := by
  intro h
  have h1 := x.roundsFrom_lt _ h
  have h2 : (10 : ℚ) ^ (17 + ((x.exponent - 2).toNat : ℤ)) ≤ 10 ^ p :=
    zpow_le_zpow_right₀ (by norm_num) hp
  have h3 : (1 : ℚ) ≤ g := by exact_mod_cast hg
  have h4 : (0 : ℚ) < 10 ^ p := by positivity
  nlinarith

/-- The magnitude of `x` itself is a multiple of `10 ^ min (e - 2) 0`. -/
theorem exact_decimal (x : Float64) :
    ((4 * x.mantissa * 2 ^ (x.exponent - 2).toNat * 5 ^ (2 - x.exponent).toNat : ℕ) : ℚ) *
        10 ^ (min (x.exponent - 2) 0) =
      (4 * x.mantissa : ℕ) * 2 ^ (x.exponent - 2) := by
  rcases le_or_lt 0 (x.exponent - 2) with h | h
  · have h1 : (2 - x.exponent).toNat = 0 := by omega
    have h2 : min (x.exponent - 2) 0 = 0 := by omega
    rw [h1, h2, zpow_split 2 (x.exponent - 2)]
    have h3 : (-(x.exponent - 2)).toNat = 0 := by omega
    rw [h3]
    push_cast
    ring
  · have h1 : (x.exponent - 2).toNat = 0 := by omega
    have h2 : min (x.exponent - 2) 0 = x.exponent - 2 := by omega
    obtain ⟨n, hn⟩ : ∃ n : ℕ, x.exponent - 2 = -(n : ℤ) := ⟨(-(x.exponent - 2)).toNat, by omega⟩
    have h3 : (2 - x.exponent).toNat = n := by omega
    rw [h1, h2, h3, hn, zpow_neg, zpow_neg, zpow_natCast, zpow_natCast]
    push_cast
    have h10 : (10 : ℚ) ^ n = 2 ^ n * 5 ^ n := by rw [← mul_pow]; norm_num
    rw [h10]
    field_simp
    ring

theorem Float64.roundsFrom_self (x : Float64) (hm : x.mantissa ≠ 0) :
    x.roundsFrom ((4 * x.mantissa : ℕ) * 2 ^ (x.exponent - 2)) := by
  have h4 : (0 : ℚ) < 2 ^ (x.exponent - 2) := by positivity
  have h1 : (x.lowerN : ℚ) < (4 * x.mantissa : ℕ) := by exact_mod_cast x.lowerN_lt hm
  have h2 : ((4 * x.mantissa : ℕ) : ℚ) < x.upperN := by exact_mod_cast x.lt_upperN
  have h5 := mul_lt_mul_of_pos_right h1 h4
  have h6 := mul_lt_mul_of_pos_right h2 h4
  unfold Float64.roundsFrom
  split_ifs
  · exact ⟨le_of_lt h5, le_of_lt h6⟩
  · exact ⟨h5, h6⟩

theorem shortestFrom_sound (x : Float64) (hm : x.mantissa ≠ 0) (fuel : ℕ) (p : ℤ) :
    x.roundsFrom (((shortestFrom x fuel p).1 : ℚ) * 10 ^ (shortestFrom x fuel p).2) := by
  induction fuel generalizing p with
  | zero =>
    simp only [shortestFrom]
    rw [exact_decimal]
    exact x.roundsFrom_self hm
  | succ fuel ih =>
    simp only [shortestFrom]
    cases h : shortestAt x p with
    | some c => exact shortestAt_sound x p c h
    | none => exact ih (p - 1)

theorem shortestFrom_first (x : Float64) (fuel : ℕ) (p p0 : ℤ) (h0 : shortestAt x p0 ≠ none)
    (hle : p0 ≤ p) (hfuel : p - fuel < p0) :
    shortestAt x (shortestFrom x fuel p).2 = some (shortestFrom x fuel p).1 ∧
      (shortestFrom x fuel p).2 ≤ p ∧
      ∀ q : ℤ, (shortestFrom x fuel p).2 < q → q ≤ p → shortestAt x q = none := by
  induction fuel generalizing p with
  | zero =>
    exfalso
    simp at hfuel
    omega
  | succ fuel ih =>
    simp only [shortestFrom]
    cases h : shortestAt x p with
    | some c => exact ⟨h, le_refl _, fun q h1 h2 => absurd h2 (not_le.2 h1)⟩
    | none =>
      dsimp only
      have hne : p0 ≠ p := fun e => h0 (e ▸ h)
      have ih' := ih (p - 1) (by omega) (by push_cast at hfuel; omega)
      refine ⟨ih'.1, by omega, fun q h1 h2 => ?_⟩
      rcases eq_or_lt_of_le h2 with e | e
      · rw [e]; exact h
      · exact ih'.2.2 q h1 (by omega)

theorem shortestAt_exact (x : Float64) (hm : x.mantissa ≠ 0) :
    shortestAt x (min (x.exponent - 2) 0) ≠ none := by
  apply shortestAt_complete x _ _ hm
  rw [exact_decimal]
  exact x.roundsFrom_self hm

/-- What the search returns: a multiple of `10 ^ p` that rounds to `x`, at the
highest `p` at which there is one. -/
theorem shortest_spec (x : Float64) (hm : x.mantissa ≠ 0) :
    x.roundsFrom (((shortest x).1 : ℚ) * 10 ^ (shortest x).2) ∧
      ∀ (g : ℕ) (q : ℤ), 0 < g → (shortest x).2 < q → ¬ x.roundsFrom ((g : ℚ) * 10 ^ q) := by
  have hf := shortestFrom_first x (18 + (x.exponent - 2).natAbs)
    (17 + (x.exponent - 2).toNat) (min (x.exponent - 2) 0) (shortestAt_exact x hm)
    (by omega) (by omega)
  refine ⟨shortestFrom_sound x hm _ _, fun g q hg hq hr => ?_⟩
  rcases le_or_lt q (17 + ((x.exponent - 2).toNat : ℤ)) with h | h
  · exact shortestAt_complete x q g hm hr (hf.2.2 q hq h)
  · exact no_multiple_at_top x g q hg (le_of_lt h) hr

/-- No decimal that rounds to `x` has fewer digits than the one the search
returns. -/
theorem shortest_minimal (x : Float64) (hm : x.mantissa ≠ 0) (c : ℕ) (p : ℤ)
    (h : x.roundsFrom ((c : ℚ) * 10 ^ p)) :
    (Nat.digits 10 (shortest x).1).length ≤ (Nat.digits 10 c).length := by
  obtain ⟨hr, htop⟩ := shortest_spec x hm
  by_contra hlt
  push_neg at hlt
  have hcpos : 0 < c := by
    rcases Nat.eq_zero_or_pos c with h0 | h0
    · have := x.roundsFrom_pos hm _ h
      rw [h0] at this
      simp at this
    · exact h0
  have hspos : (shortest x).1 ≠ 0 := by
    intro h0
    have := x.roundsFrom_pos hm _ hr
    rw [h0] at this
    simp at this
  have hp : p ≤ (shortest x).2 := by
    by_contra hp
    exact htop c p hcpos (by omega) h
  -- the number of digits of the result, less one
  obtain ⟨n, hn⟩ : ∃ n, (Nat.digits 10 (shortest x).1).length = n + 1 :=
    ⟨(Nat.digits 10 (shortest x).1).length - 1, by omega⟩
  have hc1 : c < 10 ^ n :=
    lt_of_lt_of_le (Nat.lt_base_pow_length_digits (by norm_num))
      (Nat.pow_le_pow_right (by norm_num) (by omega))
  have hs1 : 10 ^ n ≤ (shortest x).1 := by
    have := Nat.base_pow_length_digits_le 10 (shortest x).1 (by norm_num) hspos
    rw [hn, pow_succ] at this
    omega
  have hn1 : 1 ≤ n := by
    have : (Nat.digits 10 c).length ≠ 0 := by
      simp [Nat.digits_eq_nil_iff_eq_zero]
      omega
    omega
  -- `10 ^ (n + p₀)` lies between the two decimals
  have hpow : (0 : ℚ) < 10 ^ p := by positivity
  have hpow0 : (0 : ℚ) < 10 ^ (shortest x).2 := by positivity
  have hmono : (10 : ℚ) ^ p ≤ 10 ^ (shortest x).2 := zpow_le_zpow_right₀ (by norm_num) hp
  have hsplit : (10 : ℚ) ^ ((n : ℤ) + (shortest x).2) = 10 ^ n * 10 ^ (shortest x).2 := by
    rw [zpow_add₀ (by norm_num), zpow_natCast]
  have hcq : (c : ℚ) ≤ 10 ^ n := by exact_mod_cast le_of_lt hc1
  have hsq : (10 : ℚ) ^ n ≤ ((shortest x).1 : ℚ) := by exact_mod_cast hs1
  have hmid : x.roundsFrom (((1 : ℕ) : ℚ) * 10 ^ ((n : ℤ) + (shortest x).2)) := by
    refine x.roundsFrom_convex _ _ _ h hr ?_ ?_
    · rw [hsplit, Nat.cast_one, one_mul]
      calc (c : ℚ) * 10 ^ p ≤ 10 ^ n * 10 ^ p := mul_le_mul_of_nonneg_right hcq (le_of_lt hpow)
        _ ≤ 10 ^ n * 10 ^ (shortest x).2 := mul_le_mul_of_nonneg_left hmono (by positivity)
    · rw [hsplit, Nat.cast_one, one_mul]
      exact mul_le_mul_of_nonneg_right hsq (le_of_lt hpow0)
  exact htop 1 _ (by norm_num) (by omega) hmid

/-- Between two neighbouring magnitudes `a * 2 ^ k` and `(a + 1) * 2 ^ k` of
the format there is no magnitude `m * 2 ^ j` of the format. -/
theorem no_magnitude_between (a k m j : ℕ) (hm : m < 2 ^ 53) (ha : 2 ^ 52 ≤ a ∨ k = 0) :
    ¬ (a * 2 ^ k < m * 2 ^ j ∧ m * 2 ^ j < (a + 1) * 2 ^ k) := by
  rintro ⟨h1, h2⟩
  rcases le_or_lt k j with hkj | hkj
  · obtain ⟨d, rfl⟩ := Nat.exists_eq_add_of_le hkj
    have e : m * 2 ^ (k + d) = m * 2 ^ d * 2 ^ k := by rw [pow_add]; ring
    rw [e] at h1 h2
    have h3 := Nat.lt_of_mul_lt_mul_right h1
    have h4 := Nat.lt_of_mul_lt_mul_right h2
    omega
  · have ha' : 2 ^ 52 ≤ a := by
      rcases ha with h | h
      · exact h
      · omega
    have h3 : m * 2 ^ j < 2 ^ 53 * 2 ^ j := Nat.mul_lt_mul_of_pos_right hm (by positivity)
    have h4 : 2 ^ 53 * 2 ^ j = 2 ^ 52 * 2 ^ (j + 1) := by rw [pow_succ]; ring
    have h5 : 2 ^ (j + 1) ≤ 2 ^ k := Nat.pow_le_pow_right (by norm_num) hkj
    have h6 : 2 ^ 52 * 2 ^ (j + 1) ≤ a * 2 ^ k := Nat.mul_le_mul ha' h5
    omega

/-- The exponent of a `float64` counted from the lowest one. -/
theorem Float64.exponent_eq (x : Float64) :
    x.exponent = ((x.biasedExp - 1 : ℕ) : ℤ) - 1074 := by
  unfold Float64.exponent
  split_ifs with h
  · simp [h]
  · omega

theorem Float64.normal_or_lowest (x : Float64) : 2 ^ 52 ≤ x.mantissa ∨ x.biasedExp - 1 = 0 := by
  unfold Float64.mantissa
  split_ifs with h
  · right; omega
  · left; omega

/-- The magnitude of a `float64` scaled by `2 ^ 1076`. -/
theorem Float64.magnitude_scaled (x : Float64) (a : ℕ) :
    (a : ℚ) * 2 ^ (x.exponent - 2) * 2 ^ (1076 : ℕ) = ((a * 2 ^ (x.biasedExp - 1) : ℕ) : ℚ) := by
  rw [x.exponent_eq, mul_assoc, ← zpow_natCast, ← zpow_add₀ (by norm_num)]
  have : ((x.biasedExp - 1 : ℕ) : ℤ) - 1074 - 2 + ((1076 : ℕ) : ℤ) = ((x.biasedExp - 1 : ℕ) : ℤ) := by
    push_cast; ring
  rw [this, zpow_natCast]
  push_cast
  ring

/-- Every magnitude of the format is the magnitude of `x`, or at most the
neighbour below it, or at least the neighbour above it; all scaled by
`2 ^ 1076`. -/
theorem magnitude_trichotomy (x y : Float64) (hm : x.mantissa ≠ 0) :
    4 * y.mantissa * 2 ^ (y.biasedExp - 1) ≤ (2 * x.lowerN - 4 * x.mantissa) * 2 ^ (x.biasedExp - 1) ∨
    4 * y.mantissa * 2 ^ (y.biasedExp - 1) = 4 * x.mantissa * 2 ^ (x.biasedExp - 1) ∨
    (4 * x.mantissa + 4) * 2 ^ (x.biasedExp - 1) ≤ 4 * y.mantissa * 2 ^ (y.biasedExp - 1) := by
  by_contra hc
  push_neg at hc
  obtain ⟨h1, h2, h3⟩ := hc
  rcases Nat.lt_or_gt_of_ne h2 with h | h
  · -- below the magnitude of `x`
    by_cases hb : x.fraction = 0 ∧ 1 < x.biasedExp
    · have hmx : x.mantissa = 2 ^ 52 := by
        unfold Float64.mantissa
        rw [if_neg (by omega), hb.1, Nat.add_zero]
      have hl : x.lowerN = 4 * x.mantissa - 1 := by
        unfold Float64.lowerN
        rw [if_pos hb]
      refine no_magnitude_between (2 ^ 53 - 1) (x.biasedExp - 1 + 1) y.mantissa (y.biasedExp - 1 + 2)
        y.mantissa_lt (Or.inl (by norm_num)) ⟨?_, ?_⟩
      · rw [hl, hmx] at h1
        simp only [pow_succ]
        generalize 2 ^ (x.biasedExp - 1) = X at h1 ⊢
        generalize 2 ^ (y.biasedExp - 1) = Y at h1 ⊢
        norm_num at h1 ⊢
        linarith
      · rw [hmx] at h
        simp only [pow_succ]
        generalize 2 ^ (x.biasedExp - 1) = X at h ⊢
        generalize 2 ^ (y.biasedExp - 1) = Y at h ⊢
        norm_num at h ⊢
        linarith
    · have hl : x.lowerN = 4 * x.mantissa - 2 := by
        unfold Float64.lowerN
        rw [if_neg hb]
      have hn : 2 ^ 52 ≤ x.mantissa - 1 ∨ x.biasedExp - 1 = 0 := by
        by_cases hk : x.biasedExp - 1 = 0
        · exact Or.inr hk
        · left
          have hf : x.fraction ≠ 0 := fun h0 => hb ⟨h0, by omega⟩
          unfold Float64.mantissa
          rw [if_neg (by omega)]
          omega
      refine no_magnitude_between (x.mantissa - 1) (x.biasedExp - 1) y.mantissa (y.biasedExp - 1)
        y.mantissa_lt hn ⟨?_, ?_⟩
      · rw [hl] at h1
        have e : (2 * (4 * x.mantissa - 2) - 4 * x.mantissa) = 4 * (x.mantissa - 1) := by omega
        rw [e, mul_assoc, mul_assoc] at h1
        exact Nat.lt_of_mul_lt_mul_left h1
      · have e : x.mantissa - 1 + 1 = x.mantissa := by omega
        rw [e]
        rw [mul_assoc, mul_assoc] at h
        exact Nat.lt_of_mul_lt_mul_left h
  · -- above the magnitude of `x`
    refine no_magnitude_between x.mantissa (x.biasedExp - 1) y.mantissa (y.biasedExp - 1)
      y.mantissa_lt x.normal_or_lowest ⟨?_, ?_⟩
    · rw [mul_assoc, mul_assoc] at h
      exact Nat.lt_of_mul_lt_mul_left h
    · have e : 4 * x.mantissa + 4 = 4 * (x.mantissa + 1) := by ring
      rw [e, mul_assoc, mul_assoc] at h3
      exact Nat.lt_of_mul_lt_mul_left h3

theorem nearest_of_midpoints (q v w pr su : ℚ) (hL : (v + pr) / 2 ≤ q) (hU : q ≤ (v + su) / 2)
    (hp : pr < v) (hs : v < su) (htri : w ≤ pr ∨ w = v ∨ su ≤ w) :
    |q - v| ≤ |q - w| ∧
      (|q - v| = |q - w| → w = v ∨ q = (v + pr) / 2 ∨ q = (v + su) / 2) := by
  rcases htri with h | h | h
  · rcases abs_cases (q - v) with ⟨e1, _⟩ | ⟨e1, _⟩ <;>
      rcases abs_cases (q - w) with ⟨e2, _⟩ | ⟨e2, _⟩ <;>
      rw [e1, e2] <;> refine ⟨by linarith, fun he => ?_⟩
    · exact absurd he (by linarith)
    · exact absurd he (by linarith)
    · right; left; linarith
    · exact absurd he (by linarith)
  · subst h
    exact ⟨le_refl _, fun _ => Or.inl rfl⟩
  · rcases abs_cases (q - v) with ⟨e1, _⟩ | ⟨e1, _⟩ <;>
      rcases abs_cases (q - w) with ⟨e2, _⟩ | ⟨e2, _⟩ <;>
      rw [e1, e2] <;> refine ⟨by linarith, fun he => ?_⟩
    · exact absurd he (by linarith)
    · right; right; linarith
    · exact absurd he (by linarith)
    · exact absurd he (by linarith)

/-- The magnitude of a finite `float64`. -/
theorem Float64.four_mul (x : Float64) :
    ((4 * x.mantissa : ℕ) : ℚ) * 2 ^ (x.exponent - 2) = (x.mantissa : ℚ) * 2 ^ x.exponent := by
  rw [zpow_sub₀ (by norm_num)]
  push_cast
  have : (2 : ℚ) ^ (2 : ℤ) = 4 := by norm_num
  rw [this]
  field_simp
  ring

theorem Float64.scaled_le (x y : Float64) (a b : ℕ) :
    (a : ℚ) * 2 ^ (x.exponent - 2) ≤ (b : ℚ) * 2 ^ (y.exponent - 2) ↔
      a * 2 ^ (x.biasedExp - 1) ≤ b * 2 ^ (y.biasedExp - 1) := by
  rw [← mul_le_mul_right (show (0 : ℚ) < 2 ^ (1076 : ℕ) by positivity), x.magnitude_scaled,
    y.magnitude_scaled, Nat.cast_le]

theorem Float64.scaled_eq (x y : Float64) (a b : ℕ) :
    (a : ℚ) * 2 ^ (x.exponent - 2) = (b : ℚ) * 2 ^ (y.exponent - 2) ↔
      a * 2 ^ (x.biasedExp - 1) = b * 2 ^ (y.biasedExp - 1) := by
  rw [← mul_left_inj' (show (2 : ℚ) ^ (1076 : ℕ) ≠ 0 by positivity), x.magnitude_scaled,
    y.magnitude_scaled, Nat.cast_inj]

/-- A rational that rounds to the magnitude of `x` is at least as near to it as
to any other magnitude `w` of the format, taken with either sign; at equal
distance from two of them the mantissa of `x` is even. -/
theorem Float64.roundsFrom_nearest_magnitude (x y : Float64) (hm : x.mantissa ≠ 0) (q w : ℚ)
    (h : x.roundsFrom q)
    (hw : w = (y.mantissa : ℚ) * 2 ^ y.exponent ∨ w = -((y.mantissa : ℚ) * 2 ^ y.exponent)) :
    |q - (x.mantissa : ℚ) * 2 ^ x.exponent| ≤ |q - w| ∧
      (|q - (x.mantissa : ℚ) * 2 ^ x.exponent| = |q - w| →
        w = (x.mantissa : ℚ) * 2 ^ x.exponent ∨ x.mantissa % 2 = 0) := by
  have hl2 : 4 * x.mantissa ≤ 2 * x.lowerN := by
    unfold Float64.lowerN
    split_ifs <;> omega
  have hpos : (0 : ℚ) < 2 ^ (x.exponent - 2) := by positivity
  have hpr : (((2 * x.lowerN - 4 * x.mantissa : ℕ) : ℚ) * 2 ^ (x.exponent - 2)) =
      2 * ((x.lowerN : ℚ) * 2 ^ (x.exponent - 2)) - (x.mantissa : ℚ) * 2 ^ x.exponent := by
    rw [← x.four_mul, Nat.cast_sub hl2]
    push_cast
    ring
  have hsu : (((4 * x.mantissa + 4 : ℕ) : ℚ) * 2 ^ (x.exponent - 2)) =
      2 * ((x.upperN : ℚ) * 2 ^ (x.exponent - 2)) - (x.mantissa : ℚ) * 2 ^ x.exponent := by
    rw [← x.four_mul]
    unfold Float64.upperN
    push_cast
    ring
  have hLq : (x.lowerN : ℚ) * 2 ^ (x.exponent - 2) ≤ q ∧ q ≤ (x.upperN : ℚ) * 2 ^ (x.exponent - 2) := by
    unfold Float64.roundsFrom at h
    split_ifs at h
    · exact h
    · exact ⟨le_of_lt h.1, le_of_lt h.2⟩
  have hlt1 : (x.lowerN : ℚ) * 2 ^ (x.exponent - 2) < (x.mantissa : ℚ) * 2 ^ x.exponent := by
    rw [← x.four_mul]
    exact mul_lt_mul_of_pos_right (by exact_mod_cast x.lowerN_lt hm) hpos
  have hlt2 : (x.mantissa : ℚ) * 2 ^ x.exponent < (x.upperN : ℚ) * 2 ^ (x.exponent - 2) := by
    rw [← x.four_mul]
    exact mul_lt_mul_of_pos_right (by exact_mod_cast x.lt_upperN) hpos
  have hvy : (0 : ℚ) ≤ (y.mantissa : ℚ) * 2 ^ y.exponent := by positivity
  have hpr0 : (0 : ℚ) ≤ ((2 * x.lowerN - 4 * x.mantissa : ℕ) : ℚ) * 2 ^ (x.exponent - 2) := by
    positivity
  have htri : w ≤ ((2 * x.lowerN - 4 * x.mantissa : ℕ) : ℚ) * 2 ^ (x.exponent - 2) ∨
      w = (x.mantissa : ℚ) * 2 ^ x.exponent ∨
      ((4 * x.mantissa + 4 : ℕ) : ℚ) * 2 ^ (x.exponent - 2) ≤ w := by
    rcases hw with hw | hw
    · rw [hw, ← y.four_mul, ← x.four_mul, y.scaled_le x, y.scaled_eq x, x.scaled_le y]
      exact magnitude_trichotomy x y hm
    · left
      rw [hw]
      linarith
  have key := nearest_of_midpoints q ((x.mantissa : ℚ) * 2 ^ x.exponent) w _ _
    (by rw [hpr]; linarith [hLq.1]) (by rw [hsu]; linarith [hLq.2])
    (by rw [hpr]; linarith) (by rw [hsu]; linarith) htri
  refine ⟨key.1, fun he => ?_⟩
  rcases key.2 he with h1 | h1 | h1
  · exact Or.inl h1
  · right
    by_contra hodd
    unfold Float64.roundsFrom at h
    rw [if_neg hodd] at h
    rw [hpr] at h1
    linarith [h.1]
  · right
    by_contra hodd
    unfold Float64.roundsFrom at h
    rw [if_neg hodd] at h
    rw [hsu] at h1
    linarith [h.2]

/-- A decimal `q` that rounds to the magnitude of `x`, taken with the sign of
`x`, is at least as near to `x` as to any other `float64`; where it is as near
to another value, the mantissa of `x` is even.  This is what makes `x` the
result of rounding to nearest, ties to even. -/
theorem Float64.roundsFrom_nearest (x y : Float64) (hm : x.mantissa ≠ 0) (q : ℚ)
    (h : x.roundsFrom q) :
    |(if x.sign then -q else q) - x.toRat| ≤ |(if x.sign then -q else q) - y.toRat| ∧
      (|(if x.sign then -q else q) - x.toRat| = |(if x.sign then -q else q) - y.toRat| →
        y.toRat = x.toRat ∨ x.mantissa % 2 = 0) := by
  have hx : ∀ s : ℚ, s * s = 1 → ∀ w : ℚ, |s * q - s * ((x.mantissa : ℚ) * 2 ^ x.exponent)| ≤
        |s * q - s * w| ↔ |q - (x.mantissa : ℚ) * 2 ^ x.exponent| ≤ |q - w| := by
    intro s hs w
    have h1 : |s| = 1 := by
      have : |s| * |s| = 1 := by rw [← abs_mul, hs, abs_one]
      nlinarith [abs_nonneg s]
    rw [← mul_sub, ← mul_sub, abs_mul, abs_mul, h1, one_mul, one_mul]
  have hx' : ∀ s : ℚ, s * s = 1 → ∀ w : ℚ, |s * q - s * ((x.mantissa : ℚ) * 2 ^ x.exponent)| =
        |s * q - s * w| ↔ |q - (x.mantissa : ℚ) * 2 ^ x.exponent| = |q - w| := by
    intro s hs w
    have h1 : |s| = 1 := by
      have : |s| * |s| = 1 := by rw [← abs_mul, hs, abs_one]
      nlinarith [abs_nonneg s]
    rw [← mul_sub, ← mul_sub, abs_mul, abs_mul, h1, one_mul, one_mul]
  -- `y`, seen from the side of `x`
  obtain ⟨s, hs, hsq, hsx⟩ : ∃ s : ℚ, s * s = 1 ∧ (if x.sign then -q else q) = s * q ∧
      x.toRat = s * ((x.mantissa : ℚ) * 2 ^ x.exponent) := by
    unfold Float64.toRat
    by_cases hsign : x.sign = true
    · exact ⟨-1, by norm_num, by simp [hsign], by simp [hsign]⟩
    · exact ⟨1, by norm_num, by simp [hsign], by simp [hsign]⟩
  obtain ⟨w, hw, hy⟩ : ∃ w : ℚ, (w = (y.mantissa : ℚ) * 2 ^ y.exponent ∨
      w = -((y.mantissa : ℚ) * 2 ^ y.exponent)) ∧ y.toRat = s * w := by
    refine ⟨s * y.toRat, ?_, by rw [← mul_assoc, hs, one_mul]⟩
    have hs' : s = 1 ∨ s = -1 := by
      have : (s - 1) * (s + 1) = 0 := by ring_nf; linarith
      rcases mul_eq_zero.1 this with e | e
      · left; linarith
      · right; linarith
    unfold Float64.toRat
    by_cases hsign : y.sign = true <;> rcases hs' with e | e <;> simp [hsign, e]
  have key := x.roundsFrom_nearest_magnitude y hm q w h hw
  rw [hsq, hsx, hy, hx s hs, hx' s hs]
  refine ⟨key.1, fun he => ?_⟩
  rcases key.2 he with h1 | h1
  · left; rw [h1]
  · exact Or.inr h1



theorem digit_toNat (d : ℕ) (hd : d < 10) : (Char.ofNat (48 + d)).toNat = 48 + d := by
  interval_cases d <;> rfl

theorem digit_ne_point (d : ℕ) (hd : d < 10) : Char.ofNat (48 + d) ≠ '.' := by
  interval_cases d <;> decide

theorem digit_ne_minus (d : ℕ) (hd : d < 10) : Char.ofNat (48 + d) ≠ '-' := by
  interval_cases d <;> decide

theorem digitsAux_eq (fuel n : ℕ) (acc : List Char) (hn : 0 < n) (hf : n < fuel) :
    digitsAux fuel n acc =
      ((Nat.digits 10 n).reverse.map (fun d => Char.ofNat (48 + d))) ++ acc := by
  induction fuel generalizing n acc with
  | zero => omega
  | succ fuel ih =>
    unfold digitsAux
    split_ifs with h
    · rw [Nat.digits_of_lt 10 n (by omega) h]
      rfl
    · rw [ih (n / 10) _ (by omega) (by omega), Nat.digits_def' (by norm_num) hn]
      simp

theorem decimalDigits_eq (n : ℕ) (hn : 0 < n) :
    decimalDigits n = (Nat.digits 10 n).reverse.map (fun d => Char.ofNat (48 + d)) := by
  unfold decimalDigits
  rw [digitsAux_eq (n + 1) n [] hn (by omega), List.append_nil]

theorem decimalDigits_length (n : ℕ) (hn : 0 < n) :
    (decimalDigits n).length = (Nat.digits 10 n).length := by
  rw [decimalDigits_eq n hn]
  simp

theorem decimalDigits_ne_nil (n : ℕ) (hn : 0 < n) : decimalDigits n ≠ [] := by
  intro h
  have := decimalDigits_length n hn
  rw [h] at this
  have h2 : Nat.digits 10 n ≠ [] := Nat.digits_ne_nil_iff_ne_zero.2 (by omega)
  exact h2 (List.length_eq_zero.1 this.symm)

theorem decimalDigits_mem (n : ℕ) (hn : 0 < n) (ch : Char) (h : ch ∈ decimalDigits n) :
    ∃ d, d < 10 ∧ ch = Char.ofNat (48 + d) := by
  rw [decimalDigits_eq n hn] at h
  simp only [List.mem_map, List.mem_reverse] at h
  obtain ⟨d, hd, rfl⟩ := h
  exact ⟨d, Nat.digits_lt_base (by norm_num) hd, rfl⟩

theorem readDigits_map (L : List ℕ) (hL : ∀ d ∈ L, d < 10) (acc : ℕ) (rest : List Char) :
    readDigits acc (L.map (fun d => Char.ofNat (48 + d)) ++ rest) =
      readDigits (L.foldl (fun a d => 10 * a + d) acc) rest := by
  induction L generalizing acc with
  | nil => rfl
  | cons d L ih =>
    have hd : d < 10 := hL d (List.mem_cons_self _ _)
    simp only [List.map_cons, List.cons_append, readDigits, digit_toNat d hd, List.foldl_cons]
    rw [if_pos (by omega), List.append_eq, ih (fun e he => hL e (List.mem_cons_of_mem _ he))]
    congr 2
    omega

theorem foldl_digits (n : ℕ) :
    (Nat.digits 10 n).reverse.foldl (fun a d => 10 * a + d) 0 = n := by
  rw [List.foldl_reverse]
  have h : ∀ L : List ℕ, List.foldr (fun d a => 10 * a + d) 0 L = Nat.ofDigits 10 L := by
    intro L
    induction L with
    | nil => rfl
    | cons d L ih => simp [List.foldr_cons, Nat.ofDigits_cons, ih]; ring
  rw [h, Nat.ofDigits_digits]

theorem readDigits_decimalDigits (n : ℕ) (hn : 0 < n) (rest : List Char) :
    readDigits 0 (decimalDigits n ++ rest) = readDigits n rest := by
  rw [decimalDigits_eq n hn, readDigits_map _ (fun d hd => Nat.digits_lt_base (by norm_num)
    (List.mem_reverse.1 hd)), foldl_digits]

theorem readDigits_zeros (k acc : ℕ) (rest : List Char) :
    readDigits acc (List.replicate k '0' ++ rest) = readDigits (acc * 10 ^ k) rest := by
  induction k generalizing acc with
  | zero => simp
  | succ k ih =>
    simp only [List.replicate_succ, List.cons_append, readDigits]
    rw [if_pos (by decide), List.append_eq, ih]
    congr 1
    have : ('0' : Char).toNat - 48 = 0 := by decide
    rw [this, pow_succ]
    ring

theorem readUnsigned_whole (neg : Bool) (A : List Char) (hA : ∀ ch ∈ A, ch ≠ '.')
    (hne : A ≠ []) : readUnsigned neg A = (readDigits 0 A).map (fun n => (neg, n, 0)) := by
  have h1 : A.takeWhile (fun ch => ch ≠ '.') = A :=
    List.takeWhile_eq_self_iff.2 (fun ch h => by simpa using hA ch h)
  have h2 : A.dropWhile (fun ch => ch ≠ '.') = [] :=
    List.dropWhile_eq_nil_iff.2 (fun ch h => by simpa using hA ch h)
  unfold readUnsigned
  simp only [h1, h2, if_neg hne]

theorem readUnsigned_point (neg : Bool) (A B : List Char) (hA : ∀ ch ∈ A, ch ≠ '.')
    (hne : A ≠ []) (hB : B ≠ []) :
    readUnsigned neg (A ++ '.' :: B) =
      (readDigits 0 (A ++ B)).map (fun n => (neg, n, B.length)) := by
  have hA' : ∀ ch ∈ A, (fun ch : Char => decide (ch ≠ '.')) ch = true :=
    fun ch h => by simpa using hA ch h
  have h1 : (A ++ '.' :: B).takeWhile (fun ch => ch ≠ '.') = A := by
    rw [List.takeWhile_append_of_pos hA', List.takeWhile_cons_of_neg (by simp), List.append_nil]
  have h2 : (A ++ '.' :: B).dropWhile (fun ch => ch ≠ '.') = '.' :: B := by
    rw [List.dropWhile_append_of_pos hA', List.dropWhile_cons_of_neg (by simp)]
  unfold readUnsigned
  simp only [h1, h2]
  rw [if_neg (by simp [hne, hB])]

theorem readDecimal_signed (neg : Bool) (body : List Char) (hb : body.head? ≠ some '-') :
    readDecimal (String.mk (if neg then '-' :: body else body)) = readUnsigned neg body := by
  cases neg
  · simp only [Bool.false_eq_true, if_false, readDecimal]
    split
    · simp at hb
    · rfl
  · simp only [if_true, readDecimal]

/-- What `fmtF` writes reads back as the decimal it was given: `c * 10 ^ p` is
`(c * 10 ^ p.toNat) / 10 ^ (-p).toNat`. -/
theorem readDecimal_fmtF (neg : Bool) (c : ℕ) (p : ℤ) (hc : 0 < c) :
    readDecimal (fmtF neg c p) = some (neg, c * 10 ^ p.toNat, (-p).toNat) := by
  have hdig : ∀ ch ∈ decimalDigits c, ch ≠ '.' ∧ ch ≠ '-' := by
    intro ch h
    obtain ⟨d, hd, rfl⟩ := decimalDigits_mem c hc ch h
    exact ⟨digit_ne_point d hd, digit_ne_minus d hd⟩
  have hne := decimalDigits_ne_nil c hc
  have hhead : ∀ rest : List Char, (decimalDigits c ++ rest).head? ≠ some '-' := by
    intro rest
    cases hds : decimalDigits c with
    | nil => exact absurd hds hne
    | cons a as =>
      have := (hdig a (by rw [hds]; exact List.mem_cons_self _ _)).2
      simpa using this
  unfold fmtF
  simp only
  rcases le_or_lt 0 p with hp | hp
  · -- an integer
    rw [if_pos hp, readDecimal_signed neg _ (hhead _), readUnsigned_whole]
    · have := readDigits_decimalDigits c hc (List.replicate p.toNat '0' ++ [])
      rw [readDigits_zeros] at this
      rw [List.append_nil] at this
      rw [this]
      have h0 : (-p).toNat = 0 := by omega
      simp [readDigits, h0]
    · intro ch h
      rcases List.mem_append.1 h with h | h
      · exact (hdig ch h).1
      · rw [List.eq_of_mem_replicate h]; decide
    · simp [hne]
  · rw [if_neg (not_le.2 hp)]
    have hk : 0 < (-p).toNat := by omega
    have hp0 : p.toNat = 0 := by omega
    by_cases hlen : (-p).toNat < (decimalDigits c).length
    · -- the point falls inside the digits
      rw [if_pos hlen]
      have htake : decimalDigits c =
          (decimalDigits c).take ((decimalDigits c).length - (-p).toNat) ++
            (decimalDigits c).drop ((decimalDigits c).length - (-p).toNat) :=
        (List.take_append_drop _ _).symm
      have hA : (decimalDigits c).take ((decimalDigits c).length - (-p).toNat) ≠ [] := by
        intro h
        have := congrArg List.length h
        simp at this
        omega
      have hB : (decimalDigits c).drop ((decimalDigits c).length - (-p).toNat) ≠ [] := by
        intro h
        have := congrArg List.length h
        simp at this
        omega
      have hhd : ((decimalDigits c).take ((decimalDigits c).length - (-p).toNat) ++
          '.' :: (decimalDigits c).drop ((decimalDigits c).length - (-p).toNat)).head? ≠
            some '-' := by
        cases hds : (decimalDigits c).take ((decimalDigits c).length - (-p).toNat) with
        | nil => exact absurd hds hA
        | cons a as =>
          have hmem : a ∈ decimalDigits c :=
            List.mem_of_mem_take (by rw [hds]; exact List.mem_cons_self _ _)
          simpa using (hdig a hmem).2
      rw [readDecimal_signed neg _ hhd, readUnsigned_point neg _ _
        (fun ch h => (hdig ch (List.mem_of_mem_take h)).1) hA hB, ← htake]
      have := readDigits_decimalDigits c hc []
      rw [List.append_nil] at this
      rw [this]
      have hl : ((decimalDigits c).drop ((decimalDigits c).length - (-p).toNat)).length =
          (-p).toNat := by
        rw [List.length_drop]
        omega
      simp [readDigits, hl, hp0]
    · -- the digits start after the point
      rw [if_neg hlen]
      have hhd : ('0' :: '.' :: (List.replicate ((-p).toNat - (decimalDigits c).length) '0' ++
          decimalDigits c)).head? ≠ some '-' := by simp
      rw [readDecimal_signed neg _ hhd]
      have e : ('0' :: '.' :: (List.replicate ((-p).toNat - (decimalDigits c).length) '0' ++
          decimalDigits c)) = ['0'] ++ '.' :: (List.replicate
            ((-p).toNat - (decimalDigits c).length) '0' ++ decimalDigits c) := rfl
      rw [e, readUnsigned_point neg _ _ (by decide) (by decide) (by simp [hne])]
      have h1 : readDigits 0 (['0'] ++ (List.replicate ((-p).toNat - (decimalDigits c).length) '0' ++
          decimalDigits c)) = some c := by
        have e2 : ['0'] ++ (List.replicate ((-p).toNat - (decimalDigits c).length) '0' ++
            decimalDigits c) = List.replicate ((-p).toNat - (decimalDigits c).length + 1) '0' ++
              (decimalDigits c ++ []) := by
          rw [List.replicate_succ, List.append_nil]
          rfl
        rw [e2, readDigits_zeros, Nat.zero_mul, readDigits_decimalDigits c hc []]
        rfl
      rw [h1]
      have hl : (List.replicate ((-p).toNat - (decimalDigits c).length) '0' ++
          decimalDigits c).length = (-p).toNat := by
        rw [List.length_append, List.length_replicate]
        omega
      simp [hl, hp0]

/-- What `FormatFloat` prints for a finite non-zero `float64`. -/
theorem FormatFloat_spec (x : Float64) (hfin : x.isFinite = true) (hm : x.mantissa ≠ 0) :
    ∃ (c : ℕ) (p : ℤ),
      readDecimal (FormatFloat x) = some (x.sign, c * 10 ^ p.toNat, (-p).toNat) ∧
      x.roundsFrom ((c : ℚ) * 10 ^ p) ∧
      (∀ y : Float64, y.isFinite = true →
        |(if x.sign then -((c : ℚ) * 10 ^ p) else (c : ℚ) * 10 ^ p) - x.toRat| ≤
            |(if x.sign then -((c : ℚ) * 10 ^ p) else (c : ℚ) * 10 ^ p) - y.toRat| ∧
          (|(if x.sign then -((c : ℚ) * 10 ^ p) else (c : ℚ) * 10 ^ p) - x.toRat| =
              |(if x.sign then -((c : ℚ) * 10 ^ p) else (c : ℚ) * 10 ^ p) - y.toRat| →
            y.toRat = x.toRat ∨ x.mantissa % 2 = 0)) ∧
      (∀ (d : ℕ) (q : ℤ), x.roundsFrom ((d : ℚ) * 10 ^ q) →
        q ≤ p ∧ (Nat.digits 10 c).length ≤ (Nat.digits 10 d).length) := by
  obtain ⟨hr, htop⟩ := shortest_spec x hm
  have hc : 0 < (shortest x).1 := by
    rcases Nat.eq_zero_or_pos (shortest x).1 with h0 | h0
    · have := x.roundsFrom_pos hm _ hr
      rw [h0] at this
      simp at this
    · exact h0
  have hF : FormatFloat x = fmtF x.sign (shortest x).1 (shortest x).2 := by
    have h1 : x.biasedExp ≠ 2047 := by simpa [Float64.isFinite] using hfin
    unfold FormatFloat
    rw [if_neg h1, if_neg hm]
  refine ⟨(shortest x).1, (shortest x).2, ?_, hr, fun y _ => x.roundsFrom_nearest y hm _ hr,
    fun d q hd => ⟨?_, shortest_minimal x hm d q hd⟩⟩
  · rw [hF, readDecimal_fmtF _ _ _ hc]
  · by_contra hq
    have hd0 : 0 < d := by
      rcases Nat.eq_zero_or_pos d with h0 | h0
      · have := x.roundsFrom_pos hm _ hd
        rw [h0] at this
        simp at this
      · exact h0
    exact htop d q hd0 (by omega) hd

theorem FormatFloat_zero (x : Float64) (hfin : x.isFinite = true) (hm : x.mantissa = 0) :
    FormatFloat x = if x.sign then "-0" else "0" := by
  have h1 : x.biasedExp ≠ 2047 := by simpa [Float64.isFinite] using hfin
  unfold FormatFloat
  rw [if_neg h1, if_pos hm]

/-! ## Sticker, document and location handlers -/

/-- C17: for a document message `documentHandler` sends exactly one string: the
sender's name as `GetUsername` gives it and `" shared a file"`; then the MIME
type in parentheses if and only if it is not empty; then the caption clause if
the caption is not empty, otherwise the title clause if the file name is not
empty, otherwise nothing.  With both a caption and a file name only the caption
clause appears. -/
theorem documentHandler_sends (tg : Client) (m : Message) (user : User) (doc : Document)
    (hfrom : m.From = some user) (hdoc : m.Document = some doc) :
    ∃ username : String,
      GetUsername tg.IRCSettings.ShowZWSP (some user) = .ok username ∧
      documentHandler tg (some m) =
        { sent := [username ++ " shared a file" ++
            (if doc.MimeType ≠ "" then " (" ++ doc.MimeType ++ ")" else "") ++
            (if m.Caption ≠ "" then " on Telegram with caption: '" ++ m.Caption ++ "'."
             else if doc.FileName ≠ "" then
               " on Telegram with title: '" ++ doc.FileName ++ "'."
             else "")],
          warnings := [], fault := none } := by
  have hu := GetUsername_some tg.IRCSettings.ShowZWSP user
  have hc : " on Telegram with caption: " ++ "'" = " on Telegram with caption: '" := by decide
  have ht : " on Telegram with title: " ++ "'" = " on Telegram with title: '" := by decide
  have he : ∀ s : String, s ++ "" = s := String.append_empty
  refine ⟨_, hu, ?_⟩
  simp only [documentHandler, hfrom, hdoc, hu, hc, ht]
  by_cases hm : doc.MimeType = "" <;> by_cases hcap : m.Caption = "" <;>
    by_cases hf : doc.FileName = "" <;>
    simp [hm, hcap, hf, Outcome.send, he]

/-- Witness of C17: the message of `TestDocumentFull`, with MIME type, caption
and file name; the string sent is the one the test expects. -/
theorem documentHandler_sends_witness :
    (documentMessage.From = some { FirstName := "test", Username := "user" } ∧
      documentMessage.Document = some { MimeType := "test/txt", FileName := "test.txt" } ∧
      documentHandler (announceClient true false false false) (some documentMessage) =
        Outcome.send
          "u\u200bser shared a file (test/txt) on Telegram with caption: 'Random Caption'.") ∧
    ∃ username : String,
      GetUsername (announceClient true false false false).IRCSettings.ShowZWSP
        (some { FirstName := "test", Username := "user" }) = .ok username ∧
      documentHandler (announceClient true false false false) (some documentMessage) =
        { sent := [username ++ " shared a file" ++
            (if (Document.mk "test/txt" "test.txt").MimeType ≠ "" then
              " (" ++ (Document.mk "test/txt" "test.txt").MimeType ++ ")" else "") ++
            (if documentMessage.Caption ≠ "" then
               " on Telegram with caption: '" ++ documentMessage.Caption ++ "'."
             else if (Document.mk "test/txt" "test.txt").FileName ≠ "" then
               " on Telegram with title: '" ++ (Document.mk "test/txt" "test.txt").FileName ++ "'."
             else "")],
          warnings := [], fault := none } :=
  ⟨⟨rfl, rfl, by decide⟩,
    documentHandler_sends (announceClient true false false false) documentMessage
      { FirstName := "test", Username := "user" } (Document.mk "test/txt" "test.txt") rfl rfl⟩

/-- C18: for a sticker message `stickerHandler` sends exactly one string:
`Prefix`, the sender's name as `GetUsername` gives it, `Suffix`, a space and the
sticker's emoji.  The handler takes no clock, and what it does is the same
whatever the message's date and chat and whatever `NoForwardPrefix` is. -/
theorem stickerHandler_sends (tg : Client) (m : Message) (user : User) (sticker : Sticker)
    (hfrom : m.From = some user) (hsticker : m.Sticker = some sticker) :
    ∃ username : String,
      GetUsername tg.IRCSettings.ShowZWSP (some user) = .ok username ∧
      stickerHandler tg { Message := some m } =
        { sent := [tg.Settings.Prefix ++ username ++ tg.Settings.Suffix ++ " " ++ sticker.Emoji],
          warnings := [], fault := none } ∧
      ∀ (date : Int) (chat : Chat) (noForward : String),
        stickerHandler
            { tg with IRCSettings := { tg.IRCSettings with NoForwardPrefix := noForward } }
            { Message := some { m with Date := date, Chat := chat } } =
          stickerHandler tg { Message := some m } := by
  have hu := GetUsername_some tg.IRCSettings.ShowZWSP user
  refine ⟨_, hu, ?_, ?_⟩
  · simp only [stickerHandler, hfrom, hsticker, hu]
    rfl
  · intro date chat noForward
    simp only [stickerHandler, hfrom, hsticker, hu]

/-- Witness of C18: the sticker of `TestStickerSmileZWSP`; it is sent although
the message is 61 seconds old, comes from chat 101 while chat 100 is configured,
and a `NoForwardPrefix` is set: `messageHandler` sends nothing for a text
message of that date. -/
theorem stickerHandler_sends_witness :
    ((stickerMessage (testDate - 31) 101).From = some testUser ∧
      (stickerMessage (testDate - 31) 101).Sticker = some { Emoji := "😄" } ∧
      stickerHandler (testClient true "[off]")
          { Message := some (stickerMessage (testDate - 31) 101) } =
        Outcome.send "<t\u200best> 😄" ∧
      (messageHandler (testClient true "[off]") testNow
        { Message := some (plainMessage (testDate - 31) 101 "[off] Random Text") }).sent = []) ∧
    ∃ username : String,
      GetUsername (testClient true "[off]").IRCSettings.ShowZWSP (some testUser) =
        .ok username ∧
      stickerHandler (testClient true "[off]")
          { Message := some (stickerMessage (testDate - 31) 101) } =
        { sent := [(testClient true "[off]").Settings.Prefix ++ username ++
            (testClient true "[off]").Settings.Suffix ++ " " ++ (Sticker.mk "😄").Emoji],
          warnings := [], fault := none } ∧
      ∀ (date : Int) (chat : Chat) (noForward : String),
        stickerHandler
            { testClient true "[off]" with
              IRCSettings := { (testClient true "[off]").IRCSettings with
                NoForwardPrefix := noForward } }
            { Message := some { stickerMessage (testDate - 31) 101 with
                Date := date, Chat := chat } } =
          stickerHandler (testClient true "[off]")
            { Message := some (stickerMessage (testDate - 31) 101) } :=
  ⟨⟨rfl, rfl, by decide, by decide⟩,
    stickerHandler_sends (testClient true "[off]") (stickerMessage (testDate - 31) 101) testUser
      (Sticker.mk "😄") rfl rfl⟩

/-- What `locationHandler` does, for every rendering `FormatFloat` of a
`float64`: nothing when `ShowLocationMessage` is off; otherwise one string, the
sender's name, `" shared their location: ("`, the rendered latitude, `", "`, the
rendered longitude and `")."`. -/
theorem locationHandler_sends (FormatFloat : Float64 → String) (tg : Client) (m : Message)
    (user : User) (loc : Location) (hfrom : m.From = some user)
    (hloc : m.Location = some loc) :
    (tg.IRCSettings.ShowLocationMessage = false →
      locationHandler FormatFloat tg (some m) = { sent := [], warnings := [], fault := none }) ∧
    (tg.IRCSettings.ShowLocationMessage = true →
      ∃ username : String,
        GetUsername tg.IRCSettings.ShowZWSP (some user) = .ok username ∧
        locationHandler FormatFloat tg (some m) =
          { sent := [username ++ " shared their location: (" ++ FormatFloat loc.Latitude ++
              ", " ++ FormatFloat loc.Longitude ++ ")."],
            warnings := [], fault := none }) := by
  constructor
  · intro hoff
    simp only [locationHandler, hoff]
    rfl
  · intro hon
    have hu := GetUsername_some tg.IRCSettings.ShowZWSP user
    refine ⟨_, hu, ?_⟩
    simp only [locationHandler, hon, hfrom, hloc, hu]
    rfl

/-- The coordinates of the location tests are the `float64` values of the
decimals in the test: `43.0845274` rounds to `testLatitude`, and the magnitude
`77.6781174` to that of `testLongitude`, whose sign bit is set. -/
theorem test_coordinates_round :
    testLatitude.sign = false ∧
      testLatitude.roundsFrom ((430845274 : ℕ) * (10 : ℚ) ^ (-7 : ℤ)) ∧
    testLongitude.sign = true ∧
      testLongitude.roundsFrom ((776781174 : ℕ) * (10 : ℚ) ^ (-7 : ℤ)) := by
  have h1 := (shortest_spec testLatitude (by decide)).1
  have h2 := (shortest_spec testLongitude (by decide)).1
  rw [show shortest testLatitude = (430845274, -7) by decide] at h1
  rw [show shortest testLongitude = (776781174, -7) by decide] at h2
  exact ⟨by decide, h1, by decide, h2⟩

/-- C19: for a location message with a sender, `locationHandler` sends nothing
when `ShowLocationMessage` is off, and when it is on sends exactly one string:
the sender's name as `GetUsername` gives it, `" shared their location: ("`, the
latitude, `", "`, the longitude and `")."`, both coordinates as
`strconv.FormatFloat(x, 'f', -1, 64)` prints them.  For a coordinate `x` that is
a number other than zero, what is printed is a decimal without exponent, the
sign of `x` and then `c * 10 ^ p` written out in digits, such that:
`c * 10 ^ p` rounds to `x`, so that parsing returns `x`: it is at least as near
to `x` as to any other `float64`, and where it is as near to another one the
mantissa of `x` is the even one; and every decimal `d * 10 ^ q` that rounds to
`x` has `q ≤ p`, so no fewer digits after the point, and has at least as many
digits in `d` as `c` has.  A zero is printed as `0` or `-0`.  The coordinates
of the location tests are printed as `43.0845274` and `-77.6781174`. -/
theorem locationHandler_renders (tg : Client) (m : Message) (user : User) (loc : Location)
    (hfrom : m.From = some user) (hloc : m.Location = some loc) :
    (tg.IRCSettings.ShowLocationMessage = false →
      locationHandler FormatFloat tg (some m) = { sent := [], warnings := [], fault := none }) ∧
    (tg.IRCSettings.ShowLocationMessage = true →
      ∃ name : String, GetUsername tg.IRCSettings.ShowZWSP (some user) = .ok name ∧
        locationHandler FormatFloat tg (some m) =
          { sent := [name ++ " shared their location: (" ++ FormatFloat loc.Latitude ++
              ", " ++ FormatFloat loc.Longitude ++ ")."],
            warnings := [], fault := none }) ∧
    (∀ x : Float64, x.isFinite = true → x.mantissa ≠ 0 →
      ∃ (c : ℕ) (p : ℤ),
        readDecimal (FormatFloat x) = some (x.sign, c * 10 ^ p.toNat, (-p).toNat) ∧
        x.roundsFrom ((c : ℚ) * 10 ^ p) ∧
        (∀ y : Float64, y.isFinite = true →
          |(if x.sign then -((c : ℚ) * 10 ^ p) else (c : ℚ) * 10 ^ p) - x.toRat| ≤
              |(if x.sign then -((c : ℚ) * 10 ^ p) else (c : ℚ) * 10 ^ p) - y.toRat| ∧
            (|(if x.sign then -((c : ℚ) * 10 ^ p) else (c : ℚ) * 10 ^ p) - x.toRat| =
                |(if x.sign then -((c : ℚ) * 10 ^ p) else (c : ℚ) * 10 ^ p) - y.toRat| →
              y.toRat = x.toRat ∨ x.mantissa % 2 = 0)) ∧
        (∀ (d : ℕ) (q : ℤ), x.roundsFrom ((d : ℚ) * 10 ^ q) →
          q ≤ p ∧ (Nat.digits 10 c).length ≤ (Nat.digits 10 d).length)) ∧
    (∀ x : Float64, x.isFinite = true → x.mantissa = 0 →
      FormatFloat x = if x.sign then "-0" else "0") ∧
    FormatFloat testLatitude = "43.0845274" ∧
    FormatFloat testLongitude = "-77.6781174" := by
  obtain ⟨hoff, hon⟩ := locationHandler_sends FormatFloat tg m user loc hfrom hloc
  exact ⟨hoff, hon, FormatFloat_spec, FormatFloat_zero, by decide, by decide⟩

/-- Witness of C19: the message of `TestLocationHandlerWithLocationEnabled`;
with the announcements on, the string sent is the one the test expects, and with
them off nothing is sent. -/
theorem locationHandler_renders_witness :
    (locationMessage.From = some testUser ∧
      locationMessage.Location = some (Location.mk testLatitude testLongitude) ∧
      testLatitude.isFinite = true ∧ testLatitude.mantissa ≠ 0 ∧
      locationHandler FormatFloat (announceClient false false false true)
          (some locationMessage) =
        Outcome.send "test shared their location: (43.0845274, -77.6781174)." ∧
      locationHandler FormatFloat (announceClient false false false false)
          (some locationMessage) = Outcome.silent ∧
      readDecimal (FormatFloat testLatitude) = some (false, 430845274, 7) ∧
      readDecimal (FormatFloat testLongitude) = some (true, 776781174, 7)) ∧
    (∃ name : String,
      GetUsername (announceClient false false false true).IRCSettings.ShowZWSP
          (some testUser) = .ok name ∧
        locationHandler FormatFloat (announceClient false false false true)
            (some locationMessage) =
          { sent := [name ++ " shared their location: (" ++ FormatFloat testLatitude ++
              ", " ++ FormatFloat testLongitude ++ ")."],
            warnings := [], fault := none }) ∧
    (∃ (c : ℕ) (p : ℤ),
      readDecimal (FormatFloat testLatitude) =
        some (testLatitude.sign, c * 10 ^ p.toNat, (-p).toNat) ∧
      testLatitude.roundsFrom ((c : ℚ) * 10 ^ p) ∧
      (∀ y : Float64, y.isFinite = true →
        |(if testLatitude.sign then -((c : ℚ) * 10 ^ p) else (c : ℚ) * 10 ^ p) -
              testLatitude.toRat| ≤
            |(if testLatitude.sign then -((c : ℚ) * 10 ^ p) else (c : ℚ) * 10 ^ p) -
              y.toRat| ∧
          (|(if testLatitude.sign then -((c : ℚ) * 10 ^ p) else (c : ℚ) * 10 ^ p) -
                testLatitude.toRat| =
              |(if testLatitude.sign then -((c : ℚ) * 10 ^ p) else (c : ℚ) * 10 ^ p) -
                y.toRat| →
            y.toRat = testLatitude.toRat ∨ testLatitude.mantissa % 2 = 0)) ∧
      (∀ (d : ℕ) (q : ℤ), testLatitude.roundsFrom ((d : ℚ) * 10 ^ q) →
        q ≤ p ∧ (Nat.digits 10 c).length ≤ (Nat.digits 10 d).length)) :=
  ⟨⟨rfl, rfl, by decide, by decide, by decide, by decide, by decide, by decide⟩,
    (locationHandler_renders (announceClient false false false true) locationMessage testUser
      (Location.mk testLatitude testLongitude) rfl rfl).2.1 rfl,
    (locationHandler_renders (announceClient false false false true) locationMessage testUser
      (Location.mk testLatitude testLongitude) rfl rfl).2.2.1 testLatitude (by decide)
      (by decide)⟩

/-! ## Messages sent per event -/

theorem replyHandler_sent_le (tg : Client) (u : Update) : (replyHandler tg u).sent.length ≤ 1 := by
  unfold replyHandler
  split <;> simp [Outcome.panic, Outcome.send]

theorem messageHandler_sent_le (tg : Client) (now : Int) (u : Update) :
    (messageHandler tg now u).sent.length ≤ 1 := by
  unfold messageHandler
  split
  · simp [Outcome.panic]
  · simp only []
    split
    · simp
    · split
      · simp [Outcome.panic]
      · split
        · simp [Outcome.silent]
        · split
          · simp [Outcome.silent]
          · split
            · exact replyHandler_sent_le tg u
            · simp [Outcome.send]

/-- C16, refuted as stated: one join event with two users makes `joinHandler`
send two strings. -/
theorem joinHandler_two_users_sends_two :
    (joinHandler (announceClient false true false false) (some [joinUser, plainUser])).sent =
      ["test (@testUser) has joined the Telegram Group!",
       "John has joined the Telegram Group!"] ∧
    ¬ (joinHandler (announceClient false true false false)
        (some [joinUser, plainUser])).sent.length ≤ 1 := by
  decide

/-- C16, amended: handling one text, reply, leave, sticker, document or location
event sends at most one string, under every configuration; handling one join
event sends one string per joining user when `ShowJoinMessage` is on and none
when it is off. -/
theorem handlers_send_at_most_one (FormatFloat : Float64 → String) (tg : Client) (now : Int)
    (u : Update) (msg : Option Message) (user : Option User) (users : List User) :
    (messageHandler tg now u).sent.length ≤ 1 ∧
    (replyHandler tg u).sent.length ≤ 1 ∧
    (partHandler tg user).sent.length ≤ 1 ∧
    (stickerHandler tg u).sent.length ≤ 1 ∧
    (documentHandler tg msg).sent.length ≤ 1 ∧
    (locationHandler FormatFloat tg msg).sent.length ≤ 1 ∧
    (joinHandler tg (some users)).sent.length =
      (if tg.IRCSettings.ShowJoinMessage = true then users.length else 0) := by
  refine ⟨messageHandler_sent_le tg now u, replyHandler_sent_le tg u, ?_, ?_, ?_, ?_, ?_⟩
  · unfold partHandler
    split
    · split <;> simp [Outcome.panic, Outcome.send]
    · simp [Outcome.silent]
  · unfold stickerHandler
    split
    · simp [Outcome.panic]
    · split
      · simp [Outcome.panic]
      · split <;> simp [Outcome.panic, Outcome.send]
  · unfold documentHandler
    split
    · simp [Outcome.panic]
    · split
      · simp [Outcome.panic]
      · split <;> simp [Outcome.panic, Outcome.send]
  · unfold locationHandler
    split
    · simp [Outcome.silent]
    · split
      · simp [Outcome.panic]
      · split
        · simp [Outcome.panic]
        · split <;> simp [Outcome.panic, Outcome.send]
  · by_cases hon : tg.IRCSettings.ShowJoinMessage = true
    · obtain ⟨announced, hrun, hall⟩ :=
        joinLoop_spec tg.IRCSettings.ShowZWSP users Outcome.silent
      simp only [joinHandler, hon, if_true, hrun]
      simpa [Outcome.silent] using hall.length_eq
    · simp [joinHandler, hon, Outcome.silent]

/-! ## Client.SendMessage -/

/-- The calls that `SendMessage` makes: the first call, and another one after
each failure among the first three. -/
theorem SendMessage_calls (tg : Client) (api : Nat → Option String) (msg : String) :
    (SendMessage tg api msg).calls =
      List.replicate
        (if api 0 = none then 1 else if api 1 = none then 2 else if api 2 = none then 3 else 4)
        { ChatID := tg.Settings.ChatID, Text := msg } := by
  cases h0 : api 0 with
  | none => simp [SendMessage, h0]
  | some e0 =>
    cases h1 : api 1 with
    | none => simp [SendMessage, retryLoop, h0, h1, List.replicate]
    | some e1 =>
      cases h2 : api 2 with
      | none => simp [SendMessage, retryLoop, h0, h1, h2, List.replicate]
      | some e2 =>
        cases h3 : api 3 with
        | none => simp [SendMessage, retryLoop, h0, h1, h2, h3, List.replicate]
        | some e3 => simp [SendMessage, retryLoop, h0, h1, h2, h3, List.replicate]

/-- C20: `SendMessage` attempts the send `min 4 k` times, where attempt `k` is
the first that succeeds, and 4 times when none succeeds: never more than 4
times, never again after a success, and every attempt with the configured chat
ID and the text `msg`. -/
theorem SendMessage_attempts (tg : Client) (api : Nat → Option String) (msg : String) :
    (∀ k : Nat, 1 ≤ k → (∀ j, j + 1 < k → api j ≠ none) → api (k - 1) = none →
      (SendMessage tg api msg).calls.length = min 4 k) ∧
    ((∀ j, api j ≠ none) → (SendMessage tg api msg).calls.length = 4) ∧
    (SendMessage tg api msg).calls.length ≤ 4 ∧
    (∀ c ∈ (SendMessage tg api msg).calls,
      c = { ChatID := tg.Settings.ChatID, Text := msg }) := by
  have hcalls := SendMessage_calls tg api msg
  have hlen : (SendMessage tg api msg).calls.length =
      (if api 0 = none then 1 else if api 1 = none then 2 else if api 2 = none then 3 else 4) := by
    rw [hcalls, List.length_replicate]
  refine ⟨?_, ?_, ?_, ?_⟩
  · intro k hk hfail hok
    rw [hlen]
    obtain rfl | rfl | rfl | h4 : k = 1 ∨ k = 2 ∨ k = 3 ∨ 4 ≤ k := by omega
    · have h0 : api 0 = none := hok
      simp [h0]
    · have h0 : api 0 ≠ none := hfail 0 (by omega)
      have h1 : api 1 = none := hok
      simp [h0, h1]
    · have h0 : api 0 ≠ none := hfail 0 (by omega)
      have h1 : api 1 ≠ none := hfail 1 (by omega)
      have h2 : api 2 = none := hok
      simp [h0, h1, h2]
    · have h0 : api 0 ≠ none := hfail 0 (by omega)
      have h1 : api 1 ≠ none := hfail 1 (by omega)
      have h2 : api 2 ≠ none := hfail 2 (by omega)
      simp [h0, h1, h2, Nat.min_eq_left h4]
  · intro hnever
    rw [hlen]
    simp [hnever 0, hnever 1, hnever 2]
  · rw [hlen]
    split_ifs <;> omega
  · intro c hc
    rw [hcalls] at hc
    exact List.eq_of_mem_replicate hc

/-- Witness of C20: an API that succeeds at the third attempt, one that succeeds
only at the tenth, and one that never succeeds. -/
theorem SendMessage_attempts_witness :
    ((1 ≤ 3 ∧ (∀ j, j + 1 < 3 → failingApi 2 j ≠ none) ∧ failingApi 2 (3 - 1) = none) ∧
      (SendMessage (testClient false "") (failingApi 2) "hi").calls.length = min 4 3) ∧
    ((1 ≤ 10 ∧ (∀ j, j + 1 < 10 → failingApi 9 j ≠ none) ∧ failingApi 9 (10 - 1) = none) ∧
      (SendMessage (testClient false "") (failingApi 9) "hi").calls.length = min 4 10) ∧
    ((∀ j : Nat, (fun _ => some "timeout" : Nat → Option String) j ≠ none) ∧
      (SendMessage (testClient false "") (fun _ => some "timeout") "hi").calls.length = 4) ∧
    (SendMessage (testClient false "") (failingApi 2) "hi").calls.length ≤ 4 ∧
    (∀ c ∈ (SendMessage (testClient false "") (failingApi 2) "hi").calls,
      c = { ChatID := (testClient false "").Settings.ChatID, Text := "hi" }) :=
  have h2 : ∀ j, j + 1 < 3 → failingApi 2 j ≠ none := by
    intro j hj
    have : j < 2 := by omega
    simp [failingApi, this]
  have h9 : ∀ j, j + 1 < 10 → failingApi 9 j ≠ none := by
    intro j hj
    have : j < 9 := by omega
    simp [failingApi, this]
  ⟨⟨⟨by decide, h2, by decide⟩,
      (SendMessage_attempts (testClient false "") (failingApi 2) "hi").1 3 (by decide) h2
        (by decide)⟩,
    ⟨⟨by decide, h9, by decide⟩,
      (SendMessage_attempts (testClient false "") (failingApi 9) "hi").1 10 (by decide) h9
        (by decide)⟩,
    ⟨fun _ => by simp,
      (SendMessage_attempts (testClient false "") (fun _ => some "timeout") "hi").2.1
        (fun _ => by simp)⟩,
    (SendMessage_attempts (testClient false "") (failingApi 2) "hi").2.2.1,
    (SendMessage_attempts (testClient false "") (failingApi 2) "hi").2.2.2⟩

/-- The errors that `SendMessage` logs: one before each retry. -/
theorem SendMessage_errors_length (tg : Client) (api : Nat → Option String) (msg : String) :
    (SendMessage tg api msg).errors.length =
      (if api 0 = none then 0 else if api 1 = none then 1 else if api 2 = none then 2 else 3) := by
  cases h0 : api 0 with
  | none => simp [SendMessage, h0]
  | some e0 =>
    cases h1 : api 1 with
    | none => simp [SendMessage, retryLoop, h0, h1]
    | some e1 =>
      cases h2 : api 2 with
      | none => simp [SendMessage, retryLoop, h0, h1, h2]
      | some e2 =>
        cases h3 : api 3 with
        | none => simp [SendMessage, retryLoop, h0, h1, h2, h3]
        | some e3 => simp [SendMessage, retryLoop, h0, h1, h2, h3]

/-- C21, the run that breaks it: when every call of the API fails, `SendMessage`
makes four attempts, all four fail, and it logs three errors, numbered 1 to 3:
the failure of the fourth attempt is not logged. -/
theorem SendMessage_last_failure_not_logged (tg : Client) (msg : String) :
    (SendMessage tg (fun _ => some "timeout") msg).calls.length = 4 ∧
    ((List.range (SendMessage tg (fun _ => some "timeout") msg).calls.length).filter
      (fun i => ((fun _ => some "timeout" : Nat → Option String) i).isSome)).length = 4 ∧
    (SendMessage tg (fun _ => some "timeout") msg).errors =
      [("timeout", 1), ("timeout", 2), ("timeout", 3)] ∧
    (SendMessage tg (fun _ => some "timeout") msg).errors.length = 3 := by
  have hcalls : (SendMessage tg (fun _ => some "timeout") msg).calls.length = 4 := by
    simp [SendMessage, retryLoop]
  have herrors : (SendMessage tg (fun _ => some "timeout") msg).errors =
      [("timeout", 1), ("timeout", 2), ("timeout", 3)] := by
    simp [SendMessage, retryLoop]
  refine ⟨hcalls, ?_, herrors, ?_⟩
  · rw [hcalls]
    decide
  · rw [herrors]
    rfl

/-! ## Dependence on the clock -/

/-- C22, refuted as stated: the same message under the same configuration is
forwarded by a run of `messageHandler` thirty seconds after its date and dropped
by a run ninety seconds after its date. -/
theorem messageHandler_depends_on_clock :
    (messageHandler (testClient false "") testNow
      { Message := some (plainMessage testDate 100 "Random Text") }).sent =
        ["<test> Random Text"] ∧
    (messageHandler (testClient false "") (testNow + 60 * Second)
      { Message := some (plainMessage testDate 100 "Random Text") }).sent = [] := by
  decide

/-- C22, amended: two runs of `messageHandler` on the same message and
configuration send the same strings, and fault alike, whenever the message is
stale at both times of handling or at neither; the six other handlers read no
clock, and equal events and configurations give them equal outcomes. -/
theorem outbound_determined (FormatFloat : Float64 → String) (tg : Client) (m : Message)
    (now₁ now₂ : Int) :
    (((now₁ - m.Date * Second > 60 * Second) ↔ (now₂ - m.Date * Second > 60 * Second)) →
      (messageHandler tg now₁ { Message := some m }).sent =
        (messageHandler tg now₂ { Message := some m }).sent ∧
      (messageHandler tg now₁ { Message := some m }).fault =
        (messageHandler tg now₂ { Message := some m }).fault) ∧
    (∀ (tg' : Client) (u u' : Update) (msg msg' : Option Message) (user user' : Option User)
        (users users' : Option (List User)),
      tg' = tg → u' = u → msg' = msg → user' = user → users' = users →
        replyHandler tg' u' = replyHandler tg u ∧
        joinHandler tg' users' = joinHandler tg users ∧
        partHandler tg' user' = partHandler tg user ∧
        stickerHandler tg' u' = stickerHandler tg u ∧
        documentHandler tg' msg' = documentHandler tg msg ∧
        locationHandler FormatFloat tg' msg' = locationHandler FormatFloat tg msg) := by
  constructor
  · intro h
    have key : timeSince now₁ m.Date > Minute ↔ timeSince now₂ m.Date > Minute := by
      rw [timeSince_gt_Minute, timeSince_gt_Minute]
      exact or_congr Iff.rfl h
    by_cases s1 : timeSince now₁ m.Date > Minute
    · have s2 : timeSince now₂ m.Date > Minute := key.1 s1
      simp only [messageHandler, s1, s2, if_true, and_self]
    · have s2 : ¬ timeSince now₂ m.Date > Minute := fun c => s1 (key.2 c)
      simp only [messageHandler, s1, s2, if_false, and_self]
  · intro tg' u u' msg msg' user user' users users' htg hu hmsg huser husers
    subst htg hu hmsg huser husers
    exact ⟨rfl, rfl, rfl, rfl, rfl, rfl⟩

/-- Witness of the amended C22: the message of the counterexample handled 30 and
45 seconds after its date, fresh both times. -/
theorem outbound_determined_witness :
    (((testNow - (plainMessage testDate 100 "Random Text").Date * Second > 60 * Second) ↔
        (testNow + 15 * Second - (plainMessage testDate 100 "Random Text").Date * Second >
          60 * Second)) ∧
      (messageHandler (testClient false "") testNow
          { Message := some (plainMessage testDate 100 "Random Text") }).sent =
        (messageHandler (testClient false "") (testNow + 15 * Second)
          { Message := some (plainMessage testDate 100 "Random Text") }).sent ∧
      (messageHandler (testClient false "") testNow
          { Message := some (plainMessage testDate 100 "Random Text") }).fault =
        (messageHandler (testClient false "") (testNow + 15 * Second)
          { Message := some (plainMessage testDate 100 "Random Text") }).fault) ∧
    (replyHandler (testClient false "")
        { Message := some (replyMessage testDate 100 "Initial Text") } =
      replyHandler (testClient false "")
        { Message := some (replyMessage testDate 100 "Initial Text") } ∧
      joinHandler (testClient false "") (some [joinUser]) =
        joinHandler (testClient false "") (some [joinUser]) ∧
      partHandler (testClient false "") (some joinUser) =
        partHandler (testClient false "") (some joinUser) ∧
      stickerHandler (testClient false "")
          { Message := some (replyMessage testDate 100 "Initial Text") } =
        stickerHandler (testClient false "")
          { Message := some (replyMessage testDate 100 "Initial Text") } ∧
      documentHandler (testClient false "") (some documentMessage) =
        documentHandler (testClient false "") (some documentMessage) ∧
      locationHandler (fun _ => "0") (testClient false "") (some documentMessage) =
        locationHandler (fun _ => "0") (testClient false "") (some documentMessage)) :=
  ⟨⟨by decide,
      (outbound_determined (fun _ => "0") (testClient false "")
        (plainMessage testDate 100 "Random Text") testNow (testNow + 15 * Second)).1
        (by decide)⟩,
    (outbound_determined (fun _ => "0") (testClient false "")
      (plainMessage testDate 100 "Random Text") testNow (testNow + 15 * Second)).2
      (testClient false "") { Message := some (replyMessage testDate 100 "Initial Text") }
      { Message := some (replyMessage testDate 100 "Initial Text") }
      (some documentMessage) (some documentMessage) (some joinUser) (some joinUser)
      (some [joinUser]) (some [joinUser]) rfl rfl rfl rfl rfl⟩

/-! ## Start-up and shutdown -/

/-- The goroutine of `main`, left to itself: once the configuration is loaded,
the status with which it ends the process is a function of the case of the
`select` that fires, 1 when a value, `nil` included, is received on the IRC or
on the Telegram error channel, 0 when a signal is received. -/
theorem main_exit_status (version : String) (trigger : Trigger) :
    (main version false none trigger).exitCode =
      (match trigger with
       | Trigger.ircErr _ => 1
       | Trigger.tgErr _ => 1
       | Trigger.signal _ => 0) := by
  cases trigger <;> simp [main]

/-- The goroutine of `main`, left to itself: whichever case of the `select`
fires, it calls `ircClient.Close()` exactly once and `tgClient.Close()` exactly
once, in that order, as its last steps but for the log line `"Exiting"`. -/
theorem main_closes_once (version : String) (trigger : Trigger) :
    (main version false none trigger).events.count MainEvent.closeIRC = 1 ∧
    (main version false none trigger).events.count MainEvent.closeTelegram = 1 ∧
    ∃ before : List MainEvent,
      (main version false none trigger).events =
        before ++ [MainEvent.logInfo "Shutting Down...", MainEvent.closeIRC,
          MainEvent.closeTelegram, MainEvent.logInfo "Exiting"] ∧
      MainEvent.closeIRC ∉ before ∧ MainEvent.closeTelegram ∉ before := by
  cases trigger with
  | ircErr e =>
    refine ⟨by simp [main, List.count_cons], by simp [main, List.count_cons],
      [MainEvent.logInfo ("Current TeleIRC version: " ++ version),
        MainEvent.logDebug "Debug mode enabled!", MainEvent.loadConfig,
        MainEvent.notifySignals, MainEvent.logInfo "Creating new Telegram bot client...",
        MainEvent.startIRC, MainEvent.startTelegram,
        MainEvent.logError ("IRC error: " ++ errorText e)], ?_, ?_, ?_⟩ <;> simp [main]
  | tgErr e =>
    refine ⟨by simp [main, List.count_cons], by simp [main, List.count_cons],
      [MainEvent.logInfo ("Current TeleIRC version: " ++ version),
        MainEvent.logDebug "Debug mode enabled!", MainEvent.loadConfig,
        MainEvent.notifySignals, MainEvent.logInfo "Creating new Telegram bot client...",
        MainEvent.startIRC, MainEvent.startTelegram,
        MainEvent.logError ("Telegram error: " ++ errorText e)], ?_, ?_, ?_⟩ <;> simp [main]
  | signal name =>
    refine ⟨by simp [main, List.count_cons], by simp [main, List.count_cons],
      [MainEvent.logInfo ("Current TeleIRC version: " ++ version),
        MainEvent.logDebug "Debug mode enabled!", MainEvent.loadConfig,
        MainEvent.notifySignals, MainEvent.logInfo "Creating new Telegram bot client...",
        MainEvent.startIRC, MainEvent.startTelegram,
        MainEvent.logInfo ("Signal Received: " ++ name)], ?_, ?_, ?_⟩ <;> simp [main]

/-- C23, the run that breaks it: `tgbotapi.New` fails with `e`, `StartBot` sends
`e` on `tgChan` and `main` receives it, the Telegram case of its `select`.  The
claim gives such a run the exit status 1.  When the next two turns are those of
the Telegram goroutine, it calls `GetMe` on the `nil` bot and panics, and the
process ends with status 2 whatever the schedule is from there on; when `main`
is left to run, the process ends with status 1.  The exit status is not a
function of the case of the `select`. -/
theorem process_exit_status_two (version e : String) (me : Option User)
    (getMeErr : Option String) (turns : List Bool) :
    ProcessEvent.ofBot (BotEvent.report (some e)) ∈
      (process version (some e) me getMeErr (false :: false :: turns)).events ∧
    (process version (some e) me getMeErr (false :: false :: turns)).exitCode = some 2 ∧
    ProcessEvent.ofBot (BotEvent.report (some e)) ∈
      (process version (some e) me getMeErr []).events ∧
    (process version (some e) me getMeErr []).exitCode = some 1 := by
  simp [process, StartBot, main, race, BotEvent.isReport]

/-- C24, the run that breaks it: after the failure `e` of `tgbotapi.New` has
reached `main`, the panic of the Telegram goroutine ends the process before
`main` has logged `"Shutting Down..."`, and neither `ircClient.Close()` nor
`tgClient.Close()` is called; when the panic comes three steps of `main` later,
`ircClient.Close()` has been called and `tgClient.Close()` has not. -/
theorem process_ends_before_close (version e : String) (me : Option User)
    (getMeErr : Option String) (turns : List Bool) :
    (process version (some e) me getMeErr (false :: false :: turns) =
      { events :=
          [ProcessEvent.ofMain (MainEvent.logInfo ("Current TeleIRC version: " ++ version)),
           ProcessEvent.ofMain (MainEvent.logDebug "Debug mode enabled!"),
           ProcessEvent.ofMain MainEvent.loadConfig,
           ProcessEvent.ofMain MainEvent.notifySignals,
           ProcessEvent.ofMain (MainEvent.logInfo "Creating new Telegram bot client..."),
           ProcessEvent.ofMain MainEvent.startIRC,
           ProcessEvent.ofMain MainEvent.startTelegram,
           ProcessEvent.ofBot (BotEvent.logInfo "Starting up Telegram bot..."),
           ProcessEvent.ofBot BotEvent.new,
           ProcessEvent.ofBot (BotEvent.report (some e)),
           ProcessEvent.ofBot (BotEvent.getMe false)],
        exitCode := some 2 }) ∧
    (process version (some e) me getMeErr (false :: false :: turns)).events.count
      (ProcessEvent.ofMain MainEvent.closeIRC) = 0 ∧
    (process version (some e) me getMeErr (false :: false :: turns)).events.count
      (ProcessEvent.ofMain MainEvent.closeTelegram) = 0 ∧
    (process version (some e) me getMeErr
      (true :: true :: true :: false :: false :: turns)).events.count
        (ProcessEvent.ofMain MainEvent.closeIRC) = 1 ∧
    (process version (some e) me getMeErr
      (true :: true :: true :: false :: false :: turns)).events.count
        (ProcessEvent.ofMain MainEvent.closeTelegram) = 0 ∧
    (process version (some e) me getMeErr
      (true :: true :: true :: false :: false :: turns)).exitCode = some 2 := by
  simp [process, StartBot, main, race, BotEvent.isReport, List.count_cons]

/-- C25, the runs that break it: when `tgbotapi.New` fails with `e`, `StartBot`
reports `e` and then calls `GetMe` on the `nil` bot, a nil dereference; when
`GetMe` fails with `e` and returns an account, `StartBot` reports `e`, logs the
account, starts the receive loop and, when that returns, sends a second value
on the channel; when `GetMe` fails and returns no account, `StartBot` reports
`e` and then reads the name of the missing account. -/
theorem StartBot_goes_on_after_failure (e : String) (me : Option User)
    (getMeErr : Option String) (account : User) :
    StartBot (some e) me getMeErr =
      { events := [BotEvent.logInfo "Starting up Telegram bot...", BotEvent.new,
          BotEvent.report (some e), BotEvent.getMe false],
        fault := some Panic.nilDereference } ∧
    StartBot none (some account) (some e) =
      { events := [BotEvent.logInfo "Starting up Telegram bot...", BotEvent.new,
          BotEvent.getMe true, BotEvent.report (some e),
          BotEvent.logInfo ("Authorized on account " ++ account.Username),
          BotEvent.setSendToIrc, BotEvent.start, BotEvent.report none],
        fault := none } ∧
    StartBot none none (some e) =
      { events := [BotEvent.logInfo "Starting up Telegram bot...", BotEvent.new,
          BotEvent.getMe true, BotEvent.report (some e)],
        fault := some Panic.nilDereference } := by
  refine ⟨?_, ?_, ?_⟩ <;> simp [StartBot]

/-! ## Safety and algebra of the name renderers -/

theorem ZwspUsername_empty (u : User) (h : u.Username.data = []) :
    ZwspUsername (some u) = .error Panic.sliceBounds := by
  simp [ZwspUsername, h, sliceTo]
  rfl

theorem GetFullUserZwsp_empty (u : User) (h : u.Username.data = []) :
    GetFullUserZwsp (some u) = .error Panic.sliceBounds := by
  simp [GetFullUserZwsp, h, sliceTo]
  rfl

/-- C26: `GetUsername` and `GetFullUsername` return a string for every user and
either setting; the slicing of `ZwspUsername` and `GetFullUserZwsp` is out of
range exactly on an empty handle, where the two functions do not call them. -/
theorem name_renderers_total (showZWSP : Bool) (u : User) :
    (∃ s, GetUsername showZWSP (some u) = .ok s) ∧
    (∃ s, GetFullUsername showZWSP (some u) = .ok s) ∧
    (ZwspUsername (some u) = .error Panic.sliceBounds ↔ u.Username = "") ∧
    (GetFullUserZwsp (some u) = .error Panic.sliceBounds ↔ u.Username = "") ∧
    (u.Username = "" → GetUsername showZWSP (some u) = .ok u.FirstName ∧
      GetFullUsername showZWSP (some u) = .ok u.FirstName) := by
  refine ⟨⟨_, GetUsername_some showZWSP u⟩, ⟨_, GetFullUsername_some showZWSP u⟩, ?_, ?_, ?_⟩
  · constructor
    · intro herr
      cases hd : u.Username.data with
      | nil => exact (username_eq_empty_iff u).2 hd
      | cons c rest =>
        rw [ZwspUsername_cons u c rest hd] at herr
        cases herr
    · intro h
      exact ZwspUsername_empty u ((username_eq_empty_iff u).1 h)
  · constructor
    · intro herr
      cases hd : u.Username.data with
      | nil => exact (username_eq_empty_iff u).2 hd
      | cons c rest =>
        rw [GetFullUserZwsp_cons u c rest hd] at herr
        cases herr
    · intro h
      exact GetFullUserZwsp_empty u ((username_eq_empty_iff u).1 h)
  · intro h
    constructor
    · rw [GetUsername_some, if_pos h]
    · rw [GetFullUsername_some, if_pos h]

/-- Witness of C26: a user without a handle, under obfuscation. -/
theorem name_renderers_total_witness :
    (plainUser.Username = "" ∧
      ZwspUsername (some plainUser) = .error Panic.sliceBounds ∧
      GetFullUserZwsp (some plainUser) = .error Panic.sliceBounds) ∧
    (∃ s, GetUsername true (some plainUser) = .ok s) ∧
    (∃ s, GetFullUsername true (some plainUser) = .ok s) ∧
    (ZwspUsername (some plainUser) = .error Panic.sliceBounds ↔ plainUser.Username = "") ∧
    (GetFullUserZwsp (some plainUser) = .error Panic.sliceBounds ↔ plainUser.Username = "") ∧
    (plainUser.Username = "" → GetUsername true (some plainUser) = .ok plainUser.FirstName ∧
      GetFullUsername true (some plainUser) = .ok plainUser.FirstName) :=
  ⟨⟨by decide, by decide, by decide⟩, name_renderers_total true plainUser⟩

/-- C27: for a non-empty handle `ZwspUsername` returns a string one code point
longer than the handle, and erasing the code point at index 1 of that string
gives the handle back. -/
theorem ZwspUsername_reversible (u : User) (h : u.Username ≠ "") :
    ∃ s : String, ZwspUsername (some u) = .ok s ∧
      s.length = u.Username.length + 1 ∧
      s.data.get? 1 = some zwspRune ∧
      String.mk (s.data.eraseIdx 1) = u.Username := by
  cases hd : u.Username.data with
  | nil => exact absurd ((username_eq_empty_iff u).2 hd) h
  | cons c rest =>
    refine ⟨_, ZwspUsername_cons u c rest hd, ?_, ?_, ?_⟩
    · show (c :: zwspRune :: rest).length = u.Username.data.length + 1
      rw [hd]
      rfl
    · rfl
    · apply String.ext
      rw [hd]
      rfl

/-- Witness of C27 on the Japanese handle of the test suite. -/
theorem ZwspUsername_reversible_witness :
    ({ FirstName := "まこと", Username := "まこと" } : User).Username ≠ "" ∧
    ∃ s : String, ZwspUsername (some { FirstName := "まこと", Username := "まこと" }) = .ok s ∧
      s.length = ({ FirstName := "まこと", Username := "まこと" } : User).Username.length + 1 ∧
      s.data.get? 1 = some zwspRune ∧
      String.mk (s.data.eraseIdx 1) =
        ({ FirstName := "まこと", Username := "まこと" } : User).Username :=
  ⟨by decide, ZwspUsername_reversible { FirstName := "まこと", Username := "まこと" } (by decide)⟩

/-- C28: with `ReplyLength` not negative the truncation never slices out of
range, the slice being taken only of a text longer than `ReplyLength`; with a
negative `ReplyLength` the length test passes for every text and the slice is
out of range. -/
theorem truncation_in_bounds_iff (n : Int) (text : String) :
    (0 ≤ n → (∃ q, quotedText n text = .ok q) ∧
      (((Trim text " ").data.length : Int) > n →
        sliceTo (Trim text " ").data n = .ok ((Trim text " ").data.take n.toNat))) ∧
    (n < 0 → ((Trim text " ").data.length : Int) > n ∧
      sliceTo (Trim text " ").data n = .error Panic.sliceBounds ∧
      quotedText n text = .error Panic.sliceBounds) := by
  constructor
  · intro h0
    refine ⟨quotedText_returns n text h0, ?_⟩
    intro hlong
    have hle : n ≤ ((Trim text " ").data.length : Int) := by omega
    simp only [sliceTo, h0, hle, and_self, if_true]
  · intro hneg
    have hlong : ((Trim text " ").data.length : Int) > n := by omega
    have h0 : ¬ (0 ≤ n ∧ n ≤ ((Trim text " ").data.length : Int)) := by omega
    have hslice : sliceTo (Trim text " ").data n = .error Panic.sliceBounds := by
      simp only [sliceTo, h0, if_false]
    refine ⟨hlong, hslice, ?_⟩
    simp only [quotedText, hlong, if_true, hslice]
    rfl

/-- Witness of C28: the limit 15 of the test suite and the limit -1 on the text
`"Initial Text"`. -/
theorem truncation_in_bounds_iff_witness :
    (((0 : Int) ≤ 15 ∧ ((-1 : Int) < 0) ∧
      quotedText (-1) "Initial Text" = .error Panic.sliceBounds ∧
      replyHandler
          { Settings := { ReplyLength := -1, ChatID := 100 } }
          { Message := some (replyMessage testDate 100 "Initial Text") } =
        Outcome.panic Panic.sliceBounds)) ∧
    ((∃ q, quotedText 15 "Initial Text" = .ok q) ∧
      (((Trim "Initial Text" " ").data.length : Int) > 15 →
        sliceTo (Trim "Initial Text" " ").data 15 =
          .ok ((Trim "Initial Text" " ").data.take (15 : Int).toNat))) ∧
    (((Trim "Initial Text" " ").data.length : Int) > -1 ∧
      sliceTo (Trim "Initial Text" " ").data (-1) = .error Panic.sliceBounds ∧
      quotedText (-1) "Initial Text" = .error Panic.sliceBounds) :=
  ⟨⟨by decide, by decide, by decide, by decide⟩,
    (truncation_in_bounds_iff 15 "Initial Text").1 (by decide),
    (truncation_in_bounds_iff (-1) "Initial Text").2 (by decide)⟩

/-- C29: the ignore-prefix is tested on the raw text.  The message
`" [off] Random Text"`, fresh and from the configured chat, starts with a space,
so it does not start with the prefix `"[off]"` although its trimmed text does;
`messageHandler` forwards it, and the text part of what it sends starts with
the prefix. -/
theorem no_forward_tested_before_trim :
    ∃ (tg : Client) (now : Int) (m : Message) (name : String),
      tg.IRCSettings.NoForwardPrefix ≠ "" ∧
      now - m.Date * Second ≤ 60 * Second ∧
      m.Chat.ID = tg.Settings.ChatID ∧
      m.Text.data.head? = some spaceRune ∧
      ¬ tg.IRCSettings.NoForwardPrefix.data <+: m.Text.data ∧
      tg.IRCSettings.NoForwardPrefix.data <+: (Trim m.Text " ").data ∧
      GetUsername tg.IRCSettings.ShowZWSP m.From = .ok name ∧
      messageHandler tg now { Message := some m } =
        Outcome.send
          (tg.Settings.Prefix ++ name ++ tg.Settings.Suffix ++ " " ++ Trim m.Text " ") ∧
      messageHandler tg now { Message := some m } =
        Outcome.send "<test> [off] Random Text" :=
  ⟨testClient false "[off]", testNow, plainMessage testDate 100 " [off] Random Text", "test",
    by decide, by decide, by decide, by decide, by decide, by decide, by decide, by decide,
    by decide⟩

/-- C30: for a user with a handle, `GetFullUsername` is the first name followed
by `" (@"`, the name `GetUsername` gives and `")"`, under either setting; for a
user without a handle both give the first name. -/
theorem renderers_agree (showZWSP : Bool) (u : User) :
    (u.Username ≠ "" → ∃ name : String,
      GetUsername showZWSP (some u) = .ok name ∧
      GetFullUsername showZWSP (some u) = .ok (u.FirstName ++ " (@" ++ name ++ ")")) ∧
    (u.Username = "" →
      GetFullUsername showZWSP (some u) = GetUsername showZWSP (some u) ∧
      GetUsername showZWSP (some u) = .ok u.FirstName) := by
  constructor
  · intro h
    refine ⟨_, GetUsername_some showZWSP u, ?_⟩
    rw [GetFullUsername_some, if_neg h, if_neg h]
    cases showZWSP <;> simp
  · intro h
    rw [GetFullUsername_some, GetUsername_some, if_pos h, if_pos h]
    exact ⟨rfl, rfl⟩

/-- Witness of C30: a user with a handle under both settings, and a user
without one. -/
theorem renderers_agree_witness :
    (joinUser.Username ≠ "" ∧
      (∃ name : String, GetUsername true (some joinUser) = .ok name ∧
        GetFullUsername true (some joinUser) =
          .ok (joinUser.FirstName ++ " (@" ++ name ++ ")")) ∧
      (∃ name : String, GetUsername false (some joinUser) = .ok name ∧
        GetFullUsername false (some joinUser) =
          .ok (joinUser.FirstName ++ " (@" ++ name ++ ")"))) ∧
    (plainUser.Username = "" ∧
      GetFullUsername true (some plainUser) = GetUsername true (some plainUser) ∧
      GetUsername true (some plainUser) = .ok plainUser.FirstName) :=
  ⟨⟨by decide, (renderers_agree true joinUser).1 (by decide),
      (renderers_agree false joinUser).1 (by decide)⟩,
    ⟨by decide, (renderers_agree true plainUser).2 (by decide)⟩⟩

end Teleirc
